import Mathlib

/-!
# LibUTF — verification of the UTF toolkit core

A shallow embedding of the encoding/decoding core of LibUTF
(src/include/utf_toolkit.h, src/src/utf_toolkit.cpp,
src/src/unicode_utilities.cpp), together with theorems settling the
specification claims about it.

Modelling conventions:

* A C++ byte buffer is a Lean list of naturals; each entry is the byte value
  (theorems that quantify over buffers carry the bound that entries are
  below 256).  Reading through a pointer at index i is modelled by
  list lookup with default 0.
* The C++ scalar type is int32_t, but every relational comparison the core
  performs on a scalar is against an unsigned literal, so by the C++ usual
  arithmetic conversions both operands convert to uint32_t.  We therefore
  represent a scalar by its raw 32-bit pattern as a natural number, and
  comparisons translate verbatim.  (The only signed operations, the
  arithmetic right shifts feeding byte writes, coincide with the logical
  shift on the bits that survive the subsequent uint8_t truncation and
  or-mask, as noted at their use sites.)
* The cp_errors class wraps a uint32_t state; we model the raw state as a
  natural number below 2^32 and the member functions as functions on it.
* Each decode function returns the error state plus its two out-parameters;
  each encode function returns the error state, the updated buffer and the
  byte count.
-/

namespace LibUTF

/-! ## The cp_errors diagnostic bitset (utf_toolkit.h) -/

namespace cp_errors

def Failed           : Nat := 0x80000000
def InvalidBuffer    : Nat := 0x40000000
def InvalidOffset    : Nat := 0x20000000
def MisalignedOffset : Nat := 0x10000000
def MisalignedLength : Nat := 0x08000000
def WriteOverflow    : Nat := 0x04000000
def ReadTruncated    : Nat := 0x02000000
def ReadExhausted    : Nat := 0x01000000
def NotEncodable     : Nat := 0x00800000
def NotDecodable     : Nat := 0x00400000
def InvalidPoint     : Nat := 0x00200000
def ExtendedUCS4     : Nat := 0x00100000
def Supplementary    : Nat := 0x00080000
def NonCharacter     : Nat := 0x00040000
def TruncatedPair    : Nat := 0x00020000
def SurrogatePair    : Nat := 0x00010000
def HighSurrogate    : Nat := 0x00008000
def LowSurrogate     : Nat := 0x00004000
def DelimitString    : Nat := 0x00002000
def IrregularForm    : Nat := 0x00001000
def BadSizeUTF8      : Nat := 0x00000800
def ModifiedUTF8     : Nat := 0x00000400
def OverlongUTF8     : Nat := 0x00000200
def ExtendedUTF8     : Nat := 0x00000100
def Untransformable  : Nat := 0x00000080
def NotEnoughBits    : Nat := 0x00000040
def DisallowedByte   : Nat := 0x00000020
def UnexpectedByte   : Nat := 0x00000010
def ReservedBit3     : Nat := 0x00000008
def ReservedBit2     : Nat := 0x00000004
def ReservedBit1     : Nat := 0x00000002
def ReservedBit0     : Nat := 0x00000001

/-- ErrorsMask of cp_errors (utf_toolkit.h lines 284-288). -/
def ErrorsMask : Nat :=
  Failed ||| InvalidBuffer ||| InvalidOffset ||| MisalignedOffset |||
  MisalignedLength ||| WriteOverflow ||| ReadTruncated ||| NotEncodable |||
  NotDecodable ||| BadSizeUTF8 ||| Untransformable ||| NotEnoughBits |||
  DisallowedByte ||| UnexpectedByte

/-- WarningsMask of cp_errors. -/
def WarningsMask : Nat :=
  ReadExhausted ||| InvalidPoint ||| ExtendedUCS4 ||| Supplementary |||
  NonCharacter ||| TruncatedPair ||| SurrogatePair ||| HighSurrogate |||
  LowSurrogate ||| DelimitString ||| IrregularForm ||| ModifiedUTF8 |||
  OverlongUTF8 ||| ExtendedUTF8

/-- ReservedMask of cp_errors, transcribed exactly as in the source
(utf_toolkit.h line 294), where the fourth disjunct repeats ReservedBit1
instead of naming ReservedBit0. -/
def ReservedMask : Nat :=
  ReservedBit3 ||| ReservedBit2 ||| ReservedBit1 ||| ReservedBit1

/-- NonReservedMask: the uint32 complement of ReservedMask. -/
def NonReservedMask : Nat := 0xFFFFFFFF ^^^ ReservedMask

/-- ByteIndexMask of cp_errors. -/
def ByteIndexMask : Nat := ReservedBit2 ||| ReservedBit1 ||| ReservedBit0

def BufferErrorsMask : Nat :=
  InvalidBuffer ||| InvalidOffset ||| MisalignedOffset ||| MisalignedLength

/-- bool any() const: (state & NonReservedMask) != 0. -/
def any (s : Nat) : Bool := (s &&& NonReservedMask) != 0

/-- bool any(mask) const: (state & mask) != 0. -/
def anyMask (s m : Nat) : Bool := (s &&& m) != 0

/-- bool none(mask) const. -/
def noneMask (s m : Nat) : Bool := !(anyMask s m)

/-- bool error() const: any hard-error bit set. -/
def isError (s : Nat) : Bool := anyMask s ErrorsMask

/-- bool no_error() const. -/
def no_error (s : Nat) : Bool := !(isError s)

/-- void clear(mask): state &= ~mask, with the complement taken at 32 bits. -/
def clear (s m : Nat) : Nat := s &&& (0xFFFFFFFF ^^^ m)

/-- uint32_t get_byte_index() const. -/
def get_byte_index (s : Nat) : Nat := s &&& ByteIndexMask

/-- void set_byte_index(index): state = (state & ~ByteIndexMask) | (index & ByteIndexMask). -/
def set_byte_index (s index : Nat) : Nat :=
  (s &&& (0xFFFFFFFF ^^^ ByteIndexMask)) ||| (index &&& ByteIndexMask)

end cp_errors

/-! ## The utf_text cursor (utf_std.h) -/

/-- The utf_text stream structure: a byte buffer (none models a NULL
pointer), a length in bytes and a read/write offset. -/
structure utf_text where
  length : Nat
  offset : Nat
  buffer : Option (List Nat)
deriving DecidableEq, Repr

/-- Read buffer[i] (the C++ code only dereferences within the allocation). -/
def byteAt (l : List Nat) (i : Nat) : Nat := l.getD i 0

/-- Write the list bs into buf starting at absolute index i. -/
def writeBytes (buf : List Nat) (i : Nat) (bs : List Nat) : List Nat :=
  match bs with
  | [] => buf
  | b :: rest => writeBytes (buf.set i b) (i + 1) rest

/-- cp_errors get_errors(const utf_text&): NULL buffer and offset checks. -/
def get_errors (t : utf_text) : Nat :=
  let e1 : Nat := if t.buffer = none then cp_errors.Failed ||| cp_errors.InvalidBuffer else 0
  if t.offset > t.length then e1 ||| (cp_errors.Failed ||| cp_errors.InvalidOffset) else e1

/-- cp_errors get_errors(const utf_text&, alignment_mask): adds the
alignment checks on offset and length. -/
def get_errors_aligned (t : utf_text) (alignment_mask : Nat) : Nat :=
  let e1 := get_errors t
  let e2 := if t.offset &&& alignment_mask ≠ 0
    then e1 ||| (cp_errors.Failed ||| cp_errors.MisalignedOffset) else e1
  if t.length &&& alignment_mask ≠ 0
    then e2 ||| (cp_errors.Failed ||| cp_errors.MisalignedLength) else e2

/-- Well-formedness of a cursor as the C++ contract assumes it: a real
buffer whose allocation covers the declared length, byte-valued entries,
and an offset inside the buffer. -/
def wf (t : utf_text) : Prop :=
  t.buffer ≠ none ∧ t.offset ≤ t.length ∧
    t.length ≤ (t.buffer.getD []).length ∧ ∀ b ∈ t.buffer.getD [], b < 256

instance (t : utf_text) : Decidable (wf t) := by
  unfold wf
  infer_instance

/-! ## Encoded code-point length functions (utf_toolkit.cpp lines 642-704) -/

/-- uint32_t lenUTF8(unicode, use_cesu, use_java). -/
def lenUTF8 (unicode : Nat) (use_cesu use_java : Bool) : Nat :=
  if unicode ≤ 0x7fffffff then
    if unicode ≤ 0x0000007f then (if use_java && (unicode == 0) then 2 else 1)
    else if unicode ≤ 0x000007ff then 2
    else if unicode ≤ 0x0000ffff then 3
    else if unicode ≤ 0x0010ffff then (if use_cesu then 6 else 4)
    else if unicode ≤ 0x001fffff then 4
    else if unicode ≤ 0x03ffffff then 5
    else 6
  else 0

/-- uint32_t lenUTF16(unicode, use_ucs2). -/
def lenUTF16 (unicode : Nat) (use_ucs2 : Bool) : Nat :=
  if unicode ≤ 0x0010ffff then
    if unicode ≤ 0x0000ffff then 2
    else if !use_ucs2 then 4
    else 0
  else 0

/-- uint32_t lenUTF32(unicode, use_cesu, use_ucs4). -/
def lenUTF32 (unicode : Nat) (use_cesu use_ucs4 : Bool) : Nat :=
  if unicode ≤ (if use_ucs4 then 0x7fffffff else 0x0010ffff) then
    if use_cesu && decide (0x00010000 ≤ unicode) && decide (unicode ≤ 0x0010ffff)
      then 8 else 4
  else 0

/-! ## Low level code-point encoding functions (utf_toolkit.cpp lines 708-1228)

Conventions for the transcription:

* static_cast to uint8_t is modelled by toByte (reduction mod 256).
* The comparison unicode <= 0x00000000u is kept literally; on the raw
  uint32 view it holds exactly for unicode = 0, which makes the arm that
  sets InvalidPoint unreachable (it would require unicode to be both at
  most 0 and nonzero).
* The arithmetic right shifts of the int32 scalar that feed byte writes
  coincide with the logical shift on the produced byte: for shifts of at
  most 24 bits the sign-extension bits sit above the uint8_t truncation,
  and the one 30-bit shift is immediately ored with 0xfc, which covers all
  sign-extension bits reaching the low byte.
* The expression (surrogate >> 10) | (surrogate << 16) wraps at 32 bits in
  C++; the immediately following mask 0x03ff03ff discards every bit the
  wrap could affect, so the unwrapped natural-number shift is equivalent.
-/

/-- A raw encoder result: the error state, the updated buffer contents and
the written byte count. -/
structure EncodeResult where
  errors : Nat
  buffer : List Nat
  bytes : Nat
deriving DecidableEq, Repr

/-- The uint8_t cast. -/
def toByte (x : Nat) : Nat := x % 256

/-- The scalar-classification block of encodeBYTE (utf_toolkit.cpp lines
714-741), folded over the entry error state. -/
def classifyBYTE (errors unicode : Nat) (use_ascii : Bool) : Nat :=
  if unicode ≤ 0 then
    errors ||| (if unicode ≠ 0 then
        cp_errors.Failed ||| cp_errors.NotEncodable ||| cp_errors.InvalidPoint ||| cp_errors.NotEnoughBits
      else cp_errors.DelimitString)
  else if unicode > (if use_ascii then 0x7f else 0xff) then
    let e := errors ||| (cp_errors.Failed ||| cp_errors.NotEncodable ||| cp_errors.NotEnoughBits)
    if unicode ≥ 0xd800 then
      if unicode > 0x10ffff then e ||| cp_errors.ExtendedUCS4
      else if unicode ≥ 0xfdd0 then
        let e := if unicode ≤ 0xfdef ∨ unicode &&& 0xfffe = 0xfffe
          then e ||| cp_errors.NonCharacter else e
        if unicode > 0xffff then e ||| cp_errors.Supplementary else e
      else if unicode &&& 0xfffff800 = 0xd800 then
        e ||| (if unicode &&& 0x400 ≠ 0 then cp_errors.LowSurrogate else cp_errors.HighSurrogate)
      else e
    else e
  else errors

/-- cp_errors encodeBYTE(text, unicode, bytes&, use_ascii)
(utf_toolkit.cpp lines 708-757). -/
def encodeBYTE (t : utf_text) (unicode : Nat) (use_ascii : Bool) : EncodeResult :=
  let buf := t.buffer.getD []
  let errors := classifyBYTE (get_errors t) unicode use_ascii
  if cp_errors.no_error errors then
    if t.length - t.offset < 1 then
      ⟨errors ||| (cp_errors.Failed ||| cp_errors.WriteOverflow), buf, 0⟩
    else ⟨errors, writeBytes buf t.offset [toByte unicode], 1⟩
  else ⟨errors, buf, 0⟩

/-- The scalar-classification block of encodeUTF8 (utf_toolkit.cpp lines
765-826), folded over the entry error state. -/
def classifyUTF8 (errors unicode : Nat) (use_cesu use_java : Bool) : Nat :=
  if unicode ≤ 0 then
    errors ||| (if unicode ≠ 0 then
        cp_errors.Failed ||| cp_errors.NotEncodable ||| cp_errors.InvalidPoint ||| cp_errors.NotEnoughBits
      else if use_java then cp_errors.ModifiedUTF8 else cp_errors.DelimitString)
  else if unicode ≥ 0xd800 then
    if unicode > 0x10ffff then
      errors ||| (if unicode > 0x1fffff then
          cp_errors.ExtendedUTF8 ||| cp_errors.ExtendedUCS4 ||| cp_errors.IrregularForm
        else cp_errors.ExtendedUCS4 ||| cp_errors.IrregularForm)
    else if unicode ≥ 0xfdd0 then
      let e := if unicode ≤ 0xfdef ∨ unicode &&& 0xfffe = 0xfffe
        then errors ||| cp_errors.NonCharacter else errors
      if unicode > 0xffff then
        e ||| (if use_cesu then cp_errors.Supplementary ||| cp_errors.SurrogatePair
               else cp_errors.Supplementary)
      else e
    else if unicode &&& 0xfffff800 = 0xd800 then
      errors ||| (if unicode &&& 0x400 ≠ 0 then cp_errors.LowSurrogate ||| cp_errors.IrregularForm
                  else cp_errors.HighSurrogate ||| cp_errors.IrregularForm)
    else errors
  else errors

/-- cp_errors encodeUTF8(text, unicode, bytes&, use_cesu, use_java)
(utf_toolkit.cpp lines 759-917). -/
def encodeUTF8 (t : utf_text) (unicode : Nat) (use_cesu use_java : Bool) : EncodeResult :=
  let buf := t.buffer.getD []
  let errors := classifyUTF8 (get_errors t) unicode use_cesu use_java
  if cp_errors.no_error errors then
    let limit := t.length - t.offset
    let o := t.offset
    if unicode ≤ 0x7f then
      if cp_errors.anyMask errors cp_errors.ModifiedUTF8 then
        if limit < 2 then ⟨errors ||| (cp_errors.Failed ||| cp_errors.WriteOverflow), buf, 0⟩
        else ⟨errors, writeBytes buf o [0xc0, 0x80], 2⟩
      else
        if limit < 1 then ⟨errors ||| (cp_errors.Failed ||| cp_errors.WriteOverflow), buf, 0⟩
        else ⟨errors, writeBytes buf o [toByte unicode], 1⟩
    else if unicode ≤ 0x7ff then
      if limit < 2 then ⟨errors ||| (cp_errors.Failed ||| cp_errors.WriteOverflow), buf, 0⟩
      else ⟨errors, writeBytes buf o
        [toByte (unicode >>> 6) ||| 0xc0,
         (toByte unicode &&& 0x3f) ||| 0x80], 2⟩
    else if unicode ≤ 0xffff then
      if limit < 3 then ⟨errors ||| (cp_errors.Failed ||| cp_errors.WriteOverflow), buf, 0⟩
      else ⟨errors, writeBytes buf o
        [toByte (unicode >>> 12) ||| 0xe0,
         (toByte (unicode >>> 6) &&& 0x3f) ||| 0x80,
         (toByte unicode &&& 0x3f) ||| 0x80], 3⟩
    else if unicode ≤ 0x10ffff ∧ cp_errors.anyMask errors cp_errors.SurrogatePair then
      if limit < 6 then ⟨errors ||| (cp_errors.Failed ||| cp_errors.WriteOverflow), buf, 0⟩
      else
        let sur := unicode - 0x00010000
        let sur := (((sur >>> 10) ||| (sur <<< 16)) &&& 0x03ff03ff) ||| 0xdc00d800
        ⟨errors, writeBytes buf o
          [(toByte (sur >>> 12) &&& 0x0f) ||| 0xe0,
           (toByte (sur >>> 6) &&& 0x3f) ||| 0x80,
           (toByte sur &&& 0x3f) ||| 0x80,
           (toByte (sur >>> 28) &&& 0x0f) ||| 0xe0,
           (toByte (sur >>> 22) &&& 0x3f) ||| 0x80,
           (toByte (sur >>> 16) &&& 0x3f) ||| 0x80], 6⟩
    else if unicode ≤ 0x1fffff then
      if limit < 4 then ⟨errors ||| (cp_errors.Failed ||| cp_errors.WriteOverflow), buf, 0⟩
      else ⟨errors, writeBytes buf o
        [toByte (unicode >>> 18) ||| 0xf0,
         (toByte (unicode >>> 12) &&& 0x3f) ||| 0x80,
         (toByte (unicode >>> 6) &&& 0x3f) ||| 0x80,
         (toByte unicode &&& 0x3f) ||| 0x80], 4⟩
    else if unicode ≤ 0x3ffffff then
      if limit < 5 then ⟨errors ||| (cp_errors.Failed ||| cp_errors.WriteOverflow), buf, 0⟩
      else ⟨errors, writeBytes buf o
        [toByte (unicode >>> 24) ||| 0xf8,
         (toByte (unicode >>> 18) &&& 0x3f) ||| 0x80,
         (toByte (unicode >>> 12) &&& 0x3f) ||| 0x80,
         (toByte (unicode >>> 6) &&& 0x3f) ||| 0x80,
         (toByte unicode &&& 0x3f) ||| 0x80], 5⟩
    else
      if limit < 6 then ⟨errors ||| (cp_errors.Failed ||| cp_errors.WriteOverflow), buf, 0⟩
      else ⟨errors, writeBytes buf o
        [toByte (unicode >>> 30) ||| 0xfc,
         (toByte (unicode >>> 24) &&& 0x3f) ||| 0x80,
         (toByte (unicode >>> 18) &&& 0x3f) ||| 0x80,
         (toByte (unicode >>> 12) &&& 0x3f) ||| 0x80,
         (toByte (unicode >>> 6) &&& 0x3f) ||| 0x80,
         (toByte unicode &&& 0x3f) ||| 0x80], 6⟩
  else ⟨errors, buf, 0⟩

/-- The scalar-classification block of encodeUTF16 (utf_toolkit.cpp lines
1004-1046), folded over the entry error state. -/
def classifyUTF16 (errors unicode : Nat) (use_ucs2 : Bool) : Nat :=
  if unicode ≤ 0 then
    errors ||| (if unicode ≠ 0 then
        cp_errors.Failed ||| cp_errors.NotEncodable ||| cp_errors.InvalidPoint ||| cp_errors.NotEnoughBits
      else cp_errors.DelimitString)
  else if unicode ≥ 0xd800 then
    if unicode > 0x10ffff then
      errors ||| (cp_errors.Failed ||| cp_errors.ExtendedUCS4 ||| cp_errors.NotEnoughBits)
    else if unicode ≥ 0xfdd0 then
      let e := if unicode ≤ 0xfdef ∨ unicode &&& 0xfffe = 0xfffe
        then errors ||| cp_errors.NonCharacter else errors
      if unicode > 0xffff then
        e ||| (if use_ucs2 then
            cp_errors.Failed ||| cp_errors.Supplementary ||| cp_errors.NotEnoughBits
          else cp_errors.Supplementary ||| cp_errors.SurrogatePair)
      else e
    else if unicode &&& 0xfffff800 = 0xd800 then
      errors ||| (if unicode &&& 0x400 ≠ 0 then cp_errors.LowSurrogate ||| cp_errors.IrregularForm
                  else cp_errors.HighSurrogate ||| cp_errors.IrregularForm)
    else errors
  else errors

/-- cp_errors encodeUTF16(text, unicode, bytes&, le, use_ucs2)
(utf_toolkit.cpp lines 998-1082). -/
def encodeUTF16 (t : utf_text) (unicode : Nat) (le use_ucs2 : Bool) : EncodeResult :=
  let buf := t.buffer.getD []
  let errors := classifyUTF16 (get_errors_aligned t 1) unicode use_ucs2
  if cp_errors.no_error errors then
    let limit := t.length - t.offset
    let o := t.offset
    if cp_errors.anyMask errors cp_errors.SurrogatePair then
      if limit < 4 then ⟨errors ||| (cp_errors.Failed ||| cp_errors.WriteOverflow), buf, 0⟩
      else
        let sur := unicode - 0x00010000
        let sur := (((sur >>> 10) ||| (sur <<< 16)) &&& 0x03ff03ff) ||| 0xdc00d800
        if le then
          ⟨errors, writeBytes buf o
            [toByte sur, toByte (sur >>> 8), toByte (sur >>> 16), toByte (sur >>> 24)], 4⟩
        else
          ⟨errors, writeBytes buf o
            [toByte (sur >>> 8), toByte sur, toByte (sur >>> 24), toByte (sur >>> 16)], 4⟩
    else
      if limit < 2 then ⟨errors ||| (cp_errors.Failed ||| cp_errors.WriteOverflow), buf, 0⟩
      else if le then
        ⟨errors, writeBytes buf o [toByte unicode, toByte (unicode >>> 8)], 2⟩
      else
        ⟨errors, writeBytes buf o [toByte (unicode >>> 8), toByte unicode], 2⟩
  else ⟨errors, buf, 0⟩

/-- The scalar-classification block of encodeUTF32 (utf_toolkit.cpp lines
1090-1132), folded over the entry error state. -/
def classifyUTF32 (errors unicode : Nat) (use_cesu use_ucs4 : Bool) : Nat :=
  if unicode ≤ 0 then
    errors ||| (if unicode ≠ 0 then cp_errors.InvalidPoint else cp_errors.DelimitString)
  else if unicode ≥ 0xd800 then
    if unicode > 0x10ffff then
      errors ||| (if use_ucs4 then cp_errors.ExtendedUCS4
                  else cp_errors.ExtendedUCS4 ||| cp_errors.IrregularForm)
    else if unicode ≥ 0xfdd0 then
      let e := if unicode ≤ 0xfdef ∨ unicode &&& 0xfffe = 0xfffe
        then errors ||| cp_errors.NonCharacter else errors
      if unicode > 0xffff then
        e ||| (if use_cesu then cp_errors.Supplementary ||| cp_errors.SurrogatePair
               else cp_errors.Supplementary)
      else e
    else if unicode &&& 0xfffff800 = 0xd800 then
      errors ||| (if unicode &&& 0x400 ≠ 0 then cp_errors.LowSurrogate ||| cp_errors.IrregularForm
                  else cp_errors.HighSurrogate ||| cp_errors.IrregularForm)
    else errors
  else errors

/-- cp_errors encodeUTF32(text, unicode, bytes&, le, use_cesu, use_ucs4)
(utf_toolkit.cpp lines 1084-1176). -/
def encodeUTF32 (t : utf_text) (unicode : Nat) (le use_cesu use_ucs4 : Bool) : EncodeResult :=
  let buf := t.buffer.getD []
  let errors := classifyUTF32 (get_errors_aligned t 3) unicode use_cesu use_ucs4
  if cp_errors.no_error errors then
    let limit := t.length - t.offset
    let o := t.offset
    if cp_errors.anyMask errors cp_errors.SurrogatePair then
      if limit < 8 then ⟨errors ||| (cp_errors.Failed ||| cp_errors.WriteOverflow), buf, 0⟩
      else
        let sur := unicode - 0x00010000
        let sur := (((sur >>> 10) ||| (sur <<< 16)) &&& 0x03ff03ff) ||| 0xdc00d800
        if le then
          ⟨errors, writeBytes buf o
            [toByte sur, toByte (sur >>> 8), 0, 0,
             toByte (sur >>> 16), toByte (sur >>> 24), 0, 0], 8⟩
        else
          ⟨errors, writeBytes buf o
            [0, 0, toByte (sur >>> 8), toByte sur,
             0, 0, toByte (sur >>> 24), toByte (sur >>> 16)], 8⟩
    else
      if limit < 4 then ⟨errors ||| (cp_errors.Failed ||| cp_errors.WriteOverflow), buf, 0⟩
      else if le then
        ⟨errors, writeBytes buf o
          [toByte unicode, toByte (unicode >>> 8), toByte (unicode >>> 16), toByte (unicode >>> 24)], 4⟩
      else
        ⟨errors, writeBytes buf o
          [toByte (unicode >>> 24), toByte (unicode >>> 16), toByte (unicode >>> 8), toByte unicode], 4⟩
  else ⟨errors, buf, 0⟩

/-! ## Unicode / Windows code-page 1252 transcoding (unicode_utilities.cpp)

CP1252Strictness is modelled as a Bool, true for StrictUndefined and false
for WindowsCompatible. -/

/-- The 32-entry translation table for bytes 0x80..0x9f. -/
def cp1252Translate : List Nat :=
  [0x20ac, 0x0081, 0x201a, 0x0192, 0x201e, 0x2026, 0x2020, 0x2021,
   0x02c6, 0x2030, 0x0160, 0x2039, 0x0152, 0x008d, 0x017d, 0x008f,
   0x0090, 0x2018, 0x2019, 0x201c, 0x201d, 0x2022, 0x2013, 0x2014,
   0x02dc, 0x2122, 0x0161, 0x203a, 0x0153, 0x009d, 0x017e, 0x0178]

/-- bool isCP1252UndefinedC1(unicode). -/
def isCP1252UndefinedC1 (unicode : Nat) : Bool :=
  unicode == 0x0081 || unicode == 0x008d || unicode == 0x008f ||
  unicode == 0x0090 || unicode == 0x009d

/-- bool cp1252ToUnicode(cp1252, unicode&, strictness): returns
(ok, unicode); the out-parameter is written on both paths. -/
def cp1252ToUnicode (cp1252 : Nat) (strictUndefined : Bool) : Bool × Nat :=
  let index := cp1252 ^^^ 0x80
  let unicode := if index < 32 then byteAt cp1252Translate index else cp1252
  if strictUndefined && isCP1252UndefinedC1 unicode then (false, 0)
  else (true, unicode)

/-- bool unicodeToCP1252(unicode, cp1252&, strictness): returns (ok, cp1252). -/
def unicodeToCP1252 (unicode : Nat) (strictUndefined : Bool) : Bool × Nat :=
  if unicode ≤ 0xff then
    if unicode ≤ 0x7f ∨ 0xa0 ≤ unicode ∨ (!strictUndefined ∧ isCP1252UndefinedC1 unicode) then
      (true, toByte unicode)
    else (false, 0)
  else
    match unicode with
    | 0x0152 => (true, 0x8c) | 0x0153 => (true, 0x9c) | 0x0160 => (true, 0x8a)
    | 0x0161 => (true, 0x9a) | 0x0178 => (true, 0x9f) | 0x017d => (true, 0x8e)
    | 0x017e => (true, 0x9e) | 0x0192 => (true, 0x83) | 0x02c6 => (true, 0x88)
    | 0x02dc => (true, 0x98) | 0x2013 => (true, 0x96) | 0x2014 => (true, 0x97)
    | 0x2018 => (true, 0x91) | 0x2019 => (true, 0x92) | 0x201a => (true, 0x82)
    | 0x201c => (true, 0x93) | 0x201d => (true, 0x94) | 0x201e => (true, 0x84)
    | 0x2020 => (true, 0x86) | 0x2021 => (true, 0x87) | 0x2022 => (true, 0x95)
    | 0x2026 => (true, 0x85) | 0x2030 => (true, 0x89) | 0x2039 => (true, 0x8b)
    | 0x203a => (true, 0x9b) | 0x20ac => (true, 0x80) | 0x2122 => (true, 0x99)
    | _ => (false, 0)

/-- The scalar-classification block of encodeCP1252 (utf_toolkit.cpp lines
1185-1215), folded over the entry error state. -/
def classifyCP1252 (errors unicode : Nat) (strict : Bool) : Nat :=
  if unicode ≤ 0 then
    errors ||| (if unicode ≠ 0 then
        cp_errors.Failed ||| cp_errors.NotEncodable ||| cp_errors.InvalidPoint ||| cp_errors.NotEnoughBits
      else cp_errors.DelimitString)
  else if !(unicodeToCP1252 unicode strict).1 then
    let e := errors ||| (cp_errors.Failed ||| cp_errors.NotEncodable)
    if unicode ≥ 0xd800 then
      if unicode > 0x10ffff then e ||| cp_errors.ExtendedUCS4
      else if unicode ≥ 0xfdd0 then
        let e := if unicode ≤ 0xfdef ∨ unicode &&& 0xfffe = 0xfffe
          then e ||| cp_errors.NonCharacter else e
        if unicode > 0xffff then e ||| cp_errors.Supplementary else e
      else if unicode &&& 0xfffff800 = 0xd800 then
        e ||| (if unicode &&& 0x400 ≠ 0 then cp_errors.LowSurrogate else cp_errors.HighSurrogate)
      else e
    else e
  else errors

/-- cp_errors encodeCP1252(text, unicode, bytes&, strict)
(utf_toolkit.cpp lines 1178-1228). -/
def encodeCP1252 (t : utf_text) (unicode : Nat) (strict : Bool) : EncodeResult :=
  let buf := t.buffer.getD []
  let conv := unicodeToCP1252 unicode strict
  let errors := classifyCP1252 (get_errors t) unicode strict
  if cp_errors.no_error errors then
    if t.length - t.offset < 1 then
      ⟨errors ||| (cp_errors.Failed ||| cp_errors.WriteOverflow), buf, 0⟩
    else ⟨errors, writeBytes buf t.offset [conv.2], 1⟩
  else ⟨errors, buf, 0⟩

/-! ## Low level code-point decoding functions (utf_toolkit.cpp lines 1232-1557) -/

/-- A decoder result: the error state and the unicode / bytes out-parameters. -/
structure DecodeResult where
  errors : Nat
  unicode : Nat
  bytes : Nat
deriving DecidableEq, Repr

/-- The coalescing scan of decodeBYTE (lines 1254-1263): advance from
index to the first byte without the top bit, or to count.  The loop is
driven structurally by the remaining iteration count count - index, so
that it evaluates in the kernel; at zero remaining the index equals the
loop bound count. -/
def byteScanGo (buf : List Nat) : Nat → Nat → Nat
  | index, 0 => index
  | index, remaining + 1 =>
    if (byteAt buf index &&& 0x80) ≠ 0x80 then index
    else byteScanGo buf (index + 1) remaining

def byteScan (buf : List Nat) (count index : Nat) : Nat :=
  byteScanGo buf index (count - index)

/-- cp_errors decodeBYTE(text, unicode&, bytes&, use_ascii, coalesce)
(utf_toolkit.cpp lines 1232-1273). -/
def decodeBYTE (t : utf_text) (use_ascii coalesce : Bool) : DecodeResult :=
  let errors := get_errors t
  if cp_errors.no_error errors then
    let limit := t.length - t.offset
    if limit < 1 then
      ⟨errors ||| (if limit ≠ 0 then cp_errors.Failed ||| cp_errors.ReadTruncated
                   else cp_errors.ReadExhausted), 0, 0⟩
    else
      let buf := (t.buffer.getD []).drop t.offset
      let unicode := byteAt buf 0
      if use_ascii ∧ unicode &&& 0x80 ≠ 0 then
        ⟨errors ||| (cp_errors.Failed ||| cp_errors.NotDecodable ||| cp_errors.DisallowedByte),
          unicode, if coalesce then byteScan buf limit 1 else 1⟩
      else if unicode = 0 then ⟨errors ||| cp_errors.DelimitString, unicode, 1⟩
      else ⟨errors, unicode, 1⟩
  else ⟨errors, 0, 0⟩

/-- The coalescing scan in the invalid-lead branch of internal::fetchUTF8
(lines 121-134): advance from index to the next valid lead byte or to count. -/
def coalesceScanGo (buf : List Nat) : Nat → Nat → Nat
  | index, 0 => index
  | index, remaining + 1 =>
    let byte := byteAt buf index
    if (byte &&& 0xc0) ≠ 0x80 ∧ byte < 0xfe then index
    else coalesceScanGo buf (index + 1) remaining

def coalesceScan (buf : List Nat) (count index : Nat) : Nat :=
  coalesceScanGo buf index (count - index)

/-- The continuation-byte walk of internal::fetchUTF8 (lines 159-171).
Returns the final (count, value, errors): on a byte failing the 10xxxxxx
test it truncates count at that index, clears ReadTruncated, adds the
failure bits and records the byte index. -/
def contWalkGo (buf : List Nat) : Nat → Nat → Nat → Nat → Nat × Nat × Nat
  | index, value, errors, 0 => (index, value, errors)
  | index, value, errors, remaining + 1 =>
    let byte := byteAt buf index
    if (byte &&& 0xc0) ≠ 0x80 then
      (index, value,
        cp_errors.set_byte_index
          (cp_errors.clear errors cp_errors.ReadTruncated |||
            (cp_errors.Failed ||| cp_errors.NotDecodable |||
              (if byte ≥ 0xfe then cp_errors.DisallowedByte else cp_errors.UnexpectedByte)))
          index)
    else contWalkGo buf (index + 1) ((value <<< 6) ||| (byte &&& 0x3f)) errors remaining

def contWalk (buf : List Nat) (count index value errors : Nat) : Nat × Nat × Nat :=
  contWalkGo buf index value errors (count - index)

/-- The continuation walk, scalar assembly and overlong test of
internal::fetchUTF8 (utf_toolkit.cpp lines 158-184), shared by its two
expected-length outcomes.  The expression (n & ((~n) >> 31)) + 7 of the
overlong test is the branch-free form of max(n, 0) + 7 for the int32 n;
Int.toNat performs the same clamp. -/
def fetchAssembleUTF8 (buf : List Nat) (byte count errors : Nat) : DecodeResult :=
  let value := byte &&& ((1 <<< (7 - count)) - 1)
  let w := contWalk buf count 1 value errors
  if cp_errors.no_error w.2.2 then
    if w.1 > 1 then
      let shift := (((w.1 ||| (w.1 <<< 2) : Nat) : Int) - 11).toNat + 7
      if w.2.1 >>> shift = 0 then
        ⟨w.2.2 ||| (if w.2.1 = 0 ∧ w.1 = 2 then cp_errors.ModifiedUTF8 else cp_errors.OverlongUTF8),
          w.2.1, w.1⟩
      else ⟨w.2.2, w.2.1, w.1⟩
    else ⟨w.2.2, w.2.1, w.1⟩
  else ⟨w.2.2, byte, w.1⟩

def fetchUTF8 (buf : List Nat) (size : Nat) (coalesce : Bool) : DecodeResult :=
  if size < 1 then ⟨cp_errors.ReadExhausted, 0, 0⟩
  else
    let byte := byteAt buf 0
    if (byte + 2) % 256 ≤ 0xc1 then
      if byte > 0x7f then
        ⟨cp_errors.Failed ||| cp_errors.NotDecodable |||
            (if byte ≥ 0xfe then cp_errors.DisallowedByte else cp_errors.UnexpectedByte),
          byte, if coalesce then coalesceScan buf size 1 else 1⟩
      else ⟨0, byte, 1⟩
    else
      let count := if byte ≤ 0xef then (byte >>> 5) &&& 3
                   else if byte ≤ 0xf7 then 4
                   else ((byte >>> 2) &&& 7) - 1
      let errors := if byte ≤ 0xf7 then 0 else cp_errors.ExtendedUTF8
      if count > size then
        fetchAssembleUTF8 buf byte size
          (errors ||| (cp_errors.Failed ||| cp_errors.NotDecodable ||| cp_errors.ReadTruncated))
      else fetchAssembleUTF8 buf byte count errors

/-- The scalar classification of decodeUTF8 (utf_toolkit.cpp lines
1287-1343): range and surrogate warnings, the CESU surrogate-pair join and
the NULL delimiter flag, producing the updated (errors, unicode, bytes). -/
def decodeScalarUTF8 (buf : List Nat) (limit : Nat) (use_cesu : Bool)
    (errors unicode bytes : Nat) : Nat × Nat × Nat :=
  if unicode ≥ 0xd800 then
    if unicode > 0x10ffff then (errors ||| cp_errors.ExtendedUCS4, unicode, bytes)
    else if unicode ≥ 0xfdd0 then
      let e := if unicode ≤ 0xfdef ∨ unicode &&& 0xfffe = 0xfffe
        then errors ||| cp_errors.NonCharacter else errors
      (if unicode > 0xffff then e ||| cp_errors.Supplementary else e, unicode, bytes)
    else if unicode &&& 0xfffff800 = 0xd800 then
      if unicode &&& 0x400 ≠ 0 then (errors ||| cp_errors.LowSurrogate, unicode, bytes)
      else
        let e := errors ||| cp_errors.HighSurrogate
        if use_cesu then
          let chk := fetchUTF8 (buf.drop bytes) (limit - bytes) false
          if cp_errors.anyMask chk.errors (cp_errors.ReadTruncated ||| cp_errors.ReadExhausted) then
            (e ||| cp_errors.TruncatedPair, unicode, bytes)
          else if cp_errors.no_error chk.errors then
            if chk.unicode &&& 0xfffffc00 = 0xdc00 then
              let u2 := ((unicode &&& 0x3ff) <<< 10) + (chk.unicode &&& 0x3ff) + 0x10000
              let e2 := (e ||| chk.errors) ^^^
                (cp_errors.SurrogatePair ||| cp_errors.Supplementary ||| cp_errors.HighSurrogate)
              (if u2 &&& 0xfffe = 0xfffe then e2 ||| cp_errors.NonCharacter else e2,
                u2, bytes + chk.bytes)
            else (e, unicode, bytes)
          else (e, unicode, bytes)
        else (e, unicode, bytes)
    else (errors, unicode, bytes)
  else if unicode = 0 ∧
      cp_errors.noneMask errors (cp_errors.ModifiedUTF8 ||| cp_errors.OverlongUTF8) then
    (errors ||| cp_errors.DelimitString, unicode, bytes)
  else (errors, unicode, bytes)

/-- cp_errors decodeUTF8(text, unicode&, bytes&, use_cesu, use_java,
strict, coalesce) (utf_toolkit.cpp lines 1275-1361). -/
def decodeUTF8 (t : utf_text) (use_cesu use_java strict coalesce : Bool) : DecodeResult :=
  let errors := get_errors t
  if cp_errors.no_error errors then
    let limit := t.length - t.offset
    let buf := (t.buffer.getD []).drop t.offset
    let f := fetchUTF8 buf limit (coalesce && !strict)
    let errors := errors ||| f.errors
    if cp_errors.no_error errors then
      let step1 := decodeScalarUTF8 buf limit use_cesu errors f.unicode f.bytes
      -- irregularity folding
      let irregularMask :=
        (if use_java then 0 else cp_errors.ModifiedUTF8) |||
        (cp_errors.OverlongUTF8 ||| cp_errors.ExtendedUTF8 ||| cp_errors.ExtendedUCS4 |||
          cp_errors.HighSurrogate ||| cp_errors.LowSurrogate)
      if cp_errors.anyMask step1.1 irregularMask then
        let e := step1.1 ||| cp_errors.IrregularForm
        if strict then
          ⟨e ||| (cp_errors.Failed ||| cp_errors.NotDecodable), byteAt buf 0, 1⟩
        else ⟨e, step1.2.1, step1.2.2⟩
      else ⟨step1.1, step1.2.1, step1.2.2⟩
    else
      if strict ∧ f.bytes > 1 then ⟨errors, f.unicode, 1⟩
      else ⟨errors, f.unicode, f.bytes⟩
  else ⟨errors, 0, 0⟩

/-- The two-byte word assembly of decodeUTF16 (utf_toolkit.cpp lines
1379-1382): the bytes at offsets i and i+1 combined in the chosen
endianness. -/
def word16 (buf : List Nat) (le : Bool) (i : Nat) : Nat :=
  if le then (byteAt buf (i+1) <<< 8) + byteAt buf i
  else (byteAt buf i <<< 8) + byteAt buf (i+1)

/-- cp_errors decodeUTF16(text, unicode&, bytes&, le, use_ucs2)
(utf_toolkit.cpp lines 1363-1430). -/
def decodeUTF16 (t : utf_text) (le use_ucs2 : Bool) : DecodeResult :=
  let errors := get_errors_aligned t 1
  if cp_errors.no_error errors then
    let limit := t.length - t.offset
    if limit < 2 then
      ⟨errors ||| (if limit ≠ 0 then cp_errors.Failed ||| cp_errors.ReadTruncated
                   else cp_errors.ReadExhausted), 0, 0⟩
    else
      let buf := (t.buffer.getD []).drop t.offset
      let unicode := word16 buf le 0
      if unicode ≥ 0xd800 then
        if unicode ≥ 0xfdd0 then
          ⟨if unicode ≤ 0xfdef ∨ unicode &&& 0xfffe = 0xfffe
            then errors ||| cp_errors.NonCharacter else errors, unicode, 2⟩
        else if unicode &&& 0xfffff800 = 0xd800 then
          let e := errors ||| cp_errors.IrregularForm
          if unicode &&& 0x400 ≠ 0 then ⟨e ||| cp_errors.LowSurrogate, unicode, 2⟩
          else
            let e := e ||| cp_errors.HighSurrogate
            if ¬use_ucs2 then
              if limit < 4 then ⟨e ||| cp_errors.TruncatedPair, unicode, 2⟩
              else
                let lowbits := word16 buf le 2
                if lowbits &&& 0xfffffc00 = 0xdc00 then
                  let unicode := ((unicode &&& 0x3ff) <<< 10) + (lowbits &&& 0x3ff) + 0x10000
                  let e := e ^^^ (cp_errors.SurrogatePair ||| cp_errors.Supplementary |||
                    cp_errors.HighSurrogate ||| cp_errors.IrregularForm)
                  ⟨if unicode &&& 0xfffe = 0xfffe then e ||| cp_errors.NonCharacter else e,
                    unicode, 4⟩
                else ⟨e, unicode, 2⟩
            else ⟨e, unicode, 2⟩
        else ⟨errors, unicode, 2⟩
      else if unicode = 0 then ⟨errors ||| cp_errors.DelimitString, unicode, 2⟩
      else ⟨errors, unicode, 2⟩
  else ⟨errors, 0, 0⟩

/-- The four-byte word assembly of decodeUTF32 (utf_toolkit.cpp lines
1448-1456): the bytes at offsets i..i+3 combined in the chosen
endianness. -/
def word32 (buf : List Nat) (le : Bool) (i : Nat) : Nat :=
  if le then
    (((((byteAt buf (i+3) <<< 8) + byteAt buf (i+2)) <<< 8) + byteAt buf (i+1)) <<< 8) + byteAt buf i
  else
    (((((byteAt buf i <<< 8) + byteAt buf (i+1)) <<< 8) + byteAt buf (i+2)) <<< 8) + byteAt buf (i+3)

/-- cp_errors decodeUTF32(text, unicode&, bytes&, le, use_cesu, use_ucs4)
(utf_toolkit.cpp lines 1432-1511).  The guard unicode <= 0x00000000u is
kept literally: on the raw uint32 view it holds exactly for unicode = 0,
making the InvalidPoint arm unreachable. -/
def decodeUTF32 (t : utf_text) (le use_cesu use_ucs4 : Bool) : DecodeResult :=
  let errors := get_errors_aligned t 3
  if cp_errors.no_error errors then
    let limit := t.length - t.offset
    if limit < 4 then
      ⟨errors ||| (if limit ≠ 0 then cp_errors.Failed ||| cp_errors.ReadTruncated
                   else cp_errors.ReadExhausted), 0, 0⟩
    else
      let buf := (t.buffer.getD []).drop t.offset
      let unicode := word32 buf le 0
      if unicode ≤ 0 then
        ⟨errors ||| (if unicode ≠ 0 then cp_errors.InvalidPoint ||| cp_errors.IrregularForm
                     else cp_errors.DelimitString), unicode, 4⟩
      else if unicode ≥ 0xd800 then
        if unicode > 0x10ffff then
          ⟨errors ||| (if use_ucs4 then cp_errors.ExtendedUCS4
                       else cp_errors.ExtendedUCS4 ||| cp_errors.IrregularForm), unicode, 4⟩
        else if unicode ≥ 0xfdd0 then
          let e := if unicode ≤ 0xfdef ∨ unicode &&& 0xfffe = 0xfffe
            then errors ||| cp_errors.NonCharacter else errors
          ⟨if unicode > 0xffff then e ||| cp_errors.Supplementary else e, unicode, 4⟩
        else if unicode &&& 0xfffff800 = 0xd800 then
          let e := errors ||| cp_errors.IrregularForm
          if unicode &&& 0x400 ≠ 0 then ⟨e ||| cp_errors.LowSurrogate, unicode, 4⟩
          else
            let e := e ||| cp_errors.HighSurrogate
            if use_cesu then
              if limit < 8 then ⟨e ||| cp_errors.TruncatedPair, unicode, 4⟩
              else
                let lowbits := word32 buf le 4
                if lowbits &&& 0xfffffc00 = 0xdc00 then
                  let unicode := ((unicode &&& 0x3ff) <<< 10) + (lowbits &&& 0x3ff) + 0x10000
                  let e := e ^^^ (cp_errors.SurrogatePair ||| cp_errors.Supplementary |||
                    cp_errors.HighSurrogate ||| cp_errors.IrregularForm)
                  ⟨if unicode &&& 0xfffe = 0xfffe then e ||| cp_errors.NonCharacter else e,
                    unicode, 8⟩
                else ⟨e, unicode, 4⟩
            else ⟨e, unicode, 4⟩
        else ⟨errors, unicode, 4⟩
      else ⟨errors, unicode, 4⟩
  else ⟨errors, 0, 0⟩

/-- The coalescing scan of decodeCP1252 (lines 1536-1546), threading the
unicode out-parameter that each cp1252ToUnicode call overwrites.
Returns (bytes, unicode). -/
def cp1252ScanGo (buf : List Nat) (strictUndefined : Bool) : Nat → Nat → Nat → Nat × Nat
  | index, unicode, 0 => (index, unicode)
  | index, _, remaining + 1 =>
    let c := cp1252ToUnicode (byteAt buf index) strictUndefined
    if c.1 then (index, 0)
    else cp1252ScanGo buf strictUndefined (index + 1) c.2 remaining

def cp1252Scan (buf : List Nat) (count index unicode : Nat) (strictUndefined : Bool) : Nat × Nat :=
  cp1252ScanGo buf strictUndefined index unicode (count - index)

/-- cp_errors decodeCP1252(text, unicode&, bytes&, strict, coalesce)
(utf_toolkit.cpp lines 1513-1557). -/
def decodeCP1252 (t : utf_text) (strict coalesce : Bool) : DecodeResult :=
  let errors := get_errors t
  if cp_errors.no_error errors then
    let limit := t.length - t.offset
    if limit < 1 then
      ⟨errors ||| (if limit ≠ 0 then cp_errors.Failed ||| cp_errors.ReadTruncated
                   else cp_errors.ReadExhausted), 0, 0⟩
    else
      let buf := (t.buffer.getD []).drop t.offset
      let c := cp1252ToUnicode (byteAt buf 0) strict
      if ¬c.1 then
        let e := errors ||| (cp_errors.Failed ||| cp_errors.NotDecodable)
        if coalesce then
          let s := cp1252Scan buf limit 1 c.2 strict
          ⟨e, s.2, s.1⟩
        else ⟨e, c.2, 1⟩
      else if c.2 = 0 then ⟨errors ||| cp_errors.DelimitString, c.2, 1⟩
      else ⟨errors, c.2, 1⟩
  else ⟨errors, 0, 0⟩

/-! ## Forward skip functions for UTF8 (utf_toolkit.cpp lines 336-492,
569-636 and 1838-1886)

The sequence scanners receive the base buffer pointer and an offset.  The
lead byte and the walked continuation bytes are addressed from the offset,
but — exactly as in the source — the CESU verification reads
(buffer[1], buffer[2], ..., verify = buffer + bytes) are addressed from the
base of the buffer, not from the offset.  The trailing scans can read one
recognised-sequence length beyond offset + limit when the walk overshot;
those reads are modelled by byteAt returning 0 past the end of the list. -/

/-- The trailing scan of internal::stepSeqUTF8st (lines 624-633): count
invalid bytes up to the next strict lead byte, reading buffer[index]. -/
def stepScanStGo (buf : List Nat) : Nat → Nat → Nat → Nat
  | count, _, 0 => count
  | count, index, remaining + 1 =>
    let byte := byteAt buf index
    if (byte &&& 0xc0) ≠ 0x80 ∧ byte ≤ 0xf7 then count
    else stepScanStGo buf (count + 1) (index + 1) remaining

def stepScanSt (buf : List Nat) (limit count index : Nat) : Nat :=
  stepScanStGo buf count index (limit - count)

/-- void internal::stepSeqUTF8st(buffer, offset, limit, bytes&, extra&,
use_cesu, use_java) (utf_toolkit.cpp lines 569-636).  Returns (bytes, extra). -/
def stepSeqUTF8st (buf : List Nat) (offset limit : Nat) (use_cesu use_java : Bool) : Nat × Nat :=
  if limit = 0 then (0, 0)
  else
    let byte := byteAt buf offset
    let bytes :=
      if (byte &&& 0xc0) ≠ 0x80 ∧ byte ≤ 0xf7 then
        if byte ≤ 0x7f then 1
        else if 2 ≤ limit ∧ (byteAt buf 1 &&& 0xc0) = 0x80 then
          let leading := (byte <<< 8) ||| byteAt buf 1
          if byte ≤ 0xdf then
            if 0xc280 ≤ leading ∨ (use_java ∧ leading = 0xc080) then 2 else 0
          else if 3 ≤ limit ∧ (byteAt buf 2 &&& 0xc0) = 0x80 then
            if byte ≤ 0xef then
              if 0xe0a0 ≤ leading then
                if (leading &&& 0xffe0) ≠ 0xeda0 then 3
                else if use_cesu ∧ (leading &&& 0xfff0) = 0xeda0 ∧ 6 ≤ limit then
                  if byteAt buf 3 = 0xed ∧ (byteAt buf 4 &&& 0xf0) = 0xa0 ∧
                      (byteAt buf 5 &&& 0xc0) = 0x80
                  then 6 else 0
                else 0
              else 0
            else if 4 ≤ limit ∧ (byteAt buf 3 &&& 0xc0) = 0x80 then
              if 0xf090 ≤ leading ∧ leading ≤ 0xf48f then 4 else 0
            else 0
          else 0
        else 0
      else 0
    let start := if bytes ≠ 0 then bytes else 1
    let count := stepScanSt buf limit start (offset + start)
    (bytes, count - bytes)

/-- The first walk of internal::stepSeqUTF8 (lines 348-356): count the
lead byte and its continuation run. -/
def stepWalkGo (buf : List Nat) : Nat → Nat → Nat → Nat
  | count, _, 0 => count
  | count, index, remaining + 1 =>
    if (byteAt buf index &&& 0xc0) ≠ 0x80 then count
    else stepWalkGo buf (count + 1) (index + 1) remaining

def stepWalk (buf : List Nat) (limit count index : Nat) : Nat :=
  stepWalkGo buf count index (limit - count)

/-- The trailing scan of internal::stepSeqUTF8 (lines 480-489): count
invalid bytes up to the next permissive lead byte. -/
def stepScanGo (buf : List Nat) : Nat → Nat → Nat → Nat
  | count, _, 0 => count
  | count, index, remaining + 1 =>
    let byte := byteAt buf index
    if (byte &&& 0xc0) ≠ 0x80 ∧ byte ≤ 0xfd then count
    else stepScanGo buf (count + 1) (index + 1) remaining

def stepScan (buf : List Nat) (limit count index : Nat) : Nat :=
  stepScanGo buf count index (limit - count)

/-- void internal::stepSeqUTF8(buffer, offset, limit, bytes&, extra&,
use_cesu) (utf_toolkit.cpp lines 336-492).  Returns (bytes, extra). -/
def stepSeqUTF8 (buf : List Nat) (offset limit : Nat) (use_cesu : Bool) : Nat × Nat :=
  if limit = 0 then (0, 0)
  else
    let byte := byteAt buf offset
    if (byte &&& 0xc0) ≠ 0x80 ∧ byte ≤ 0xfd then
      let check := stepWalk buf limit 1 (offset + 1)
      let bytes :=
        if use_cesu then
          if byte ≤ 0x7f then 1
          else if byte ≤ 0xdf then (if 2 ≤ limit then 2 else check)
          else
            let bw : Bool × Nat :=
              if byte ≤ 0xef then
                if 3 ≤ check then
                  (byte == 0xed && (byteAt buf 1 &&& 0xf0) == 0xa0, 3)
                else (false, check)
              else if byte ≤ 0xf7 then
                if 4 ≤ check then
                  (byte == 0xf0 && byteAt buf 1 == 0x8d && (byteAt buf 2 &&& 0xf0) == 0xa0, 4)
                else (false, check)
              else if byte ≤ 0xfb then
                if 5 ≤ check then
                  (byte == 0xf8 && byteAt buf 2 == 0x8d && (byteAt buf 3 &&& 0xf0) == 0xa0, 5)
                else (false, check)
              else
                if 6 ≤ check then
                  (byte == 0xfc && byteAt buf 3 == 0x8d && (byteAt buf 4 &&& 0xf0) == 0xa0, 6)
                else (false, check)
            if bw.1 then
              let rest := limit - bw.2
              if 3 ≤ rest then
                let v0 := byteAt buf bw.2
                let attach :=
                  if v0 = 0xed then 3
                  else if v0 = 0xf0 then
                    (if 4 ≤ rest ∧ byteAt buf (bw.2 + 1) = 0x8d then 4 else 0)
                  else if v0 = 0xf8 then
                    (if 5 ≤ rest ∧ (byteAt buf (bw.2 + 1) &&& 0xc0) = 0x80 ∧
                        byteAt buf (bw.2 + 2) = 0x8d then 5 else 0)
                  else if v0 = 0xfc then
                    (if 6 ≤ rest ∧ (byteAt buf (bw.2 + 1) &&& 0xc0) = 0x80 ∧
                        (byteAt buf (bw.2 + 2) &&& 0xc0) = 0x80 ∧
                        byteAt buf (bw.2 + 3) = 0x8d then 6 else 0)
                  else 0
                if attach ≠ 0 ∧ (byteAt buf (bw.2 + attach - 2) &&& 0xf0) = 0xb0 ∧
                    (byteAt buf (bw.2 + attach - 1) &&& 0xc0) = 0x80 then
                  bw.2 + attach
                else bw.2
              else bw.2
            else bw.2
        else
          let seqlen :=
            if byte ≤ 0xdf then (if byte ≤ 0x7f then 1 else 2)
            else if byte ≤ 0xf7 then (if byte ≤ 0xef then 3 else 4)
            else (if byte ≤ 0xfb then 5 else 6)
          if seqlen > check then check else seqlen
      -- after the recognised code point the scan continues from the walked
      -- position with count = check - bytes pending invalid bytes; count is a
      -- uint32, and the subtraction wraps when the CESU branch grants bytes = 2
      -- from limit >= 2 while the walk only reached check = 1
      let pending := (check + 0x100000000 - bytes) % 0x100000000
      let count := stepScan buf limit pending (offset + check)
      (bytes, count)
    else
      let count := stepScan buf limit 1 (offset + 1)
      (0, count)

/-- The loop of stepUTF8 (lines 1848-1882), with the stepper chosen by the
strict flag.  State is (points, offset, limit, extra); the fuel argument
dominates the iteration count, which is below 2 * (count + limit) + 2. -/
def stepUTF8Loop (buf : List Nat) (count : Nat) (use_cesu use_java strict coalesce : Bool) :
    Nat → Nat → Nat → Nat → Nat → Nat × Nat
  | 0, points, offset, _, _ => (points, offset)
  | fuel + 1, points, offset, limit, extra =>
    if points < count ∧ 0 < limit then
      if extra ≠ 0 then
        if coalesce ∧ ¬strict then
          stepUTF8Loop buf count use_cesu use_java strict coalesce fuel
            (points + 1) (offset + extra) (limit - extra) 0
        else
          let points := points + extra
          let offset := offset + extra
          let limit := limit - extra
          if points > count then
            stepUTF8Loop buf count use_cesu use_java strict coalesce fuel
              count (offset - (points - count)) limit 0
          else
            stepUTF8Loop buf count use_cesu use_java strict coalesce fuel
              points offset limit 0
      else
        let se := if strict then stepSeqUTF8st buf offset limit use_cesu use_java
                  else stepSeqUTF8 buf offset limit use_cesu
        if se.1 ≠ 0 then
          stepUTF8Loop buf count use_cesu use_java strict coalesce fuel
            (points + 1) (offset + se.1) (limit - se.1) se.2
        else
          stepUTF8Loop buf count use_cesu use_java strict coalesce fuel
            points offset limit se.2
    else (points, offset)

/-- uint32_t stepUTF8(text&, count, use_cesu, use_java, strict, coalesce)
(utf_toolkit.cpp lines 1838-1886).  Returns (points, updated text). -/
def stepUTF8 (t : utf_text) (count : Nat) (use_cesu use_java strict coalesce : Bool) :
    Nat × utf_text :=
  if count ≠ 0 ∧ cp_errors.no_error (get_errors t) then
    let buf := t.buffer.getD []
    let limit := t.length - t.offset
    let r := stepUTF8Loop buf count use_cesu use_java strict coalesce
      (2 * (count + limit) + 2) 0 t.offset limit 0
    (r.1, { t with offset := r.2 })
  else (0, t)

/-! ## UTF8 overlong encoding index functions (utf_toolkit.cpp lines 2178-2262)

The source guards overlongToIndexUTF8 with the comparison
unicode >= 0x00000000u, which under the uint32 conversion always holds, so
it is not part of the model. -/

/-- bool overlongToIndexUTF8(unicode, bytes, index&): returns (ok, index). -/
def overlongToIndexUTF8 (unicode bytes : Nat) : Bool × Nat :=
  if bytes == 2 then
    if unicode < 0x00000080 then (true, unicode) else (false, 0)
  else if bytes == 3 then
    if unicode < 0x00000800 then (true, unicode + 0x00000080) else (false, 0)
  else if bytes == 4 then
    if unicode < 0x00010000 then (true, unicode + 0x00000880) else (false, 0)
  else if bytes == 5 then
    if unicode < 0x00200000 then (true, unicode + 0x00010880) else (false, 0)
  else if bytes == 6 then
    if unicode < 0x04000000 then (true, unicode + 0x00210880) else (false, 0)
  else (false, 0)

/-- bool indexToOverlongUTF8(index, unicode&, bytes&): returns (ok, unicode, bytes). -/
def indexToOverlongUTF8 (index : Nat) : Bool × Nat × Nat :=
  if index < 0x00000080 then (true, index, 2)
  else if index < 0x00000880 then (true, index - 0x00000080, 3)
  else if index < 0x00010880 then (true, index - 0x00000880, 4)
  else if index < 0x00210880 then (true, index - 0x00010880, 5)
  else if index < 0x04210880 then (true, index - 0x00210880, 6)
  else (false, 0, 0)

/-! ## Handler dispatch (utf_toolkit.cpp lines 2407-2949)

One concrete handler per UTF_SUB_TYPE; each is a wrapper over the
primitives with a fixed flag combination.  The len, get and set members
are transcribed below; the step and back members of the UTF8-family
handlers pass their flags to stepUTF8/backUTF8 positionally and are
examined directly through stepUTF8 in the theorems about them. -/

inductive UTF_SUB_TYPE where
  | UTF8 | UTF8ns | UTF8st | JUTF8 | JUTF8ns | JUTF8st
  | CESU8 | CESU8ns | CESU8st | JCESU8 | JCESU8ns | JCESU8st
  | UTF16le | UTF16be | UCS2le | UCS2be
  | UTF32le | UTF32be | UCS4le | UCS4be
  | CESU32le | CESU32be | CESU4le | CESU4be
  | BYTE | BYTEns | ASCII | ASCIIns
  | CP1252 | CP1252ns | CP1252st
deriving DecidableEq, Repr

/-- The len member of each handler. -/
def handlerLen (tag : UTF_SUB_TYPE) (unicode : Nat) : Nat :=
  match tag with
  | .UTF8 | .UTF8ns | .UTF8st => lenUTF8 unicode false false
  | .JUTF8 | .JUTF8ns | .JUTF8st => lenUTF8 unicode false true
  | .CESU8 | .CESU8ns | .CESU8st => lenUTF8 unicode true false
  | .JCESU8 | .JCESU8ns | .JCESU8st => lenUTF8 unicode true true
  | .UTF16le | .UTF16be => lenUTF16 unicode false
  | .UCS2le | .UCS2be => lenUTF16 unicode true
  | .UTF32le | .UTF32be => lenUTF32 unicode false false
  | .UCS4le | .UCS4be => lenUTF32 unicode false true
  | .CESU32le | .CESU32be => lenUTF32 unicode true false
  | .CESU4le | .CESU4be => lenUTF32 unicode true true
  | .BYTE | .BYTEns => if unicode &&& 0xff = unicode then 1 else 0
  | .ASCII | .ASCIIns => if unicode &&& 0x7f = unicode then 1 else 0
  | .CP1252 | .CP1252ns | .CP1252st => if unicode &&& 0x7f = unicode then 1 else 0

/-- The get member of each handler. -/
def handlerGet (tag : UTF_SUB_TYPE) (t : utf_text) : DecodeResult :=
  match tag with
  | .UTF8 => decodeUTF8 t false false false true
  | .UTF8ns => decodeUTF8 t false false false false
  | .UTF8st => decodeUTF8 t false false true false
  | .JUTF8 => decodeUTF8 t false true false true
  | .JUTF8ns => decodeUTF8 t false true false false
  | .JUTF8st => decodeUTF8 t false true true false
  | .CESU8 => decodeUTF8 t true false false true
  | .CESU8ns => decodeUTF8 t true false false false
  | .CESU8st => decodeUTF8 t true false true false
  | .JCESU8 => decodeUTF8 t true true false true
  | .JCESU8ns => decodeUTF8 t true true false false
  | .JCESU8st => decodeUTF8 t true true true false
  | .UTF16le => decodeUTF16 t true false
  | .UTF16be => decodeUTF16 t false false
  | .UCS2le => decodeUTF16 t true true
  | .UCS2be => decodeUTF16 t false true
  | .UTF32le => decodeUTF32 t true false false
  | .UTF32be => decodeUTF32 t false false false
  | .UCS4le => decodeUTF32 t true false true
  | .UCS4be => decodeUTF32 t false false true
  | .CESU32le => decodeUTF32 t true true false
  | .CESU32be => decodeUTF32 t false true false
  | .CESU4le => decodeUTF32 t true true true
  | .CESU4be => decodeUTF32 t false true true
  | .BYTE => decodeBYTE t false true
  | .BYTEns => decodeBYTE t false false
  | .ASCII => decodeBYTE t true true
  | .ASCIIns => decodeBYTE t true false
  | .CP1252 => decodeCP1252 t false true
  | .CP1252ns => decodeCP1252 t false false
  | .CP1252st => decodeCP1252 t true false

/-- The set member of each handler. -/
def handlerSet (tag : UTF_SUB_TYPE) (t : utf_text) (unicode : Nat) : EncodeResult :=
  match tag with
  | .UTF8 | .UTF8ns | .UTF8st => encodeUTF8 t unicode false false
  | .JUTF8 | .JUTF8ns | .JUTF8st => encodeUTF8 t unicode false true
  | .CESU8 | .CESU8ns | .CESU8st => encodeUTF8 t unicode true false
  | .JCESU8 | .JCESU8ns | .JCESU8st => encodeUTF8 t unicode true true
  | .UTF16le => encodeUTF16 t unicode true false
  | .UTF16be => encodeUTF16 t unicode false false
  | .UCS2le => encodeUTF16 t unicode true true
  | .UCS2be => encodeUTF16 t unicode false true
  | .UTF32le => encodeUTF32 t unicode true false false
  | .UTF32be => encodeUTF32 t unicode false false false
  | .UCS4le => encodeUTF32 t unicode true false true
  | .UCS4be => encodeUTF32 t unicode false false true
  | .CESU32le => encodeUTF32 t unicode true true false
  | .CESU32be => encodeUTF32 t unicode false true false
  | .CESU4le => encodeUTF32 t unicode true true true
  | .CESU4be => encodeUTF32 t unicode false true true
  | .BYTE | .BYTEns => encodeBYTE t unicode false
  | .ASCII | .ASCIIns => encodeBYTE t unicode true
  | .CP1252 | .CP1252ns => encodeCP1252 t unicode false
  | .CP1252st => encodeCP1252 t unicode true

/-- cp_errors IUTFTK::read(text&, unicode&) (utf_toolkit.cpp lines
2266-2272): get, then advance the offset by the reported byte count,
unconditionally.  Returns (errors, unicode, updated text). -/
def IUTFTK_read (tag : UTF_SUB_TYPE) (t : utf_text) : Nat × Nat × utf_text :=
  let r := handlerGet tag t
  (r.errors, r.unicode, { t with offset := t.offset + r.bytes })

/-- e is a sub-mask of m: every set bit of e lies in m. -/
def BitsIn (e m : Nat) : Prop := e &&& m = e

instance (e m : Nat) : Decidable (BitsIn e m) := by
  unfold BitsIn
  infer_instance

/-- The bits fetchUTF8 can report on a successful fetch. -/
def FetchWarnBits : Nat :=
  cp_errors.ReadExhausted ||| cp_errors.ExtendedUTF8 |||
    cp_errors.ModifiedUTF8 ||| cp_errors.OverlongUTF8

/-- Every warning bit except IrregularForm: what a successful decodeUTF8
can carry before the irregularity folding step. -/
def NonIrrWarnBits : Nat := cp_errors.WarningsMask ^^^ cp_errors.IrregularForm

/-! ## Bitwise toolkit -/

theorem lor_eq_zero_iff (a b : Nat) : (a ||| b) = 0 ↔ a = 0 ∧ b = 0 := by
  constructor
  · intro h
    refine ⟨Nat.eq_of_testBit_eq fun i => ?_, Nat.eq_of_testBit_eq fun i => ?_⟩ <;>
    · have := congrArg (Nat.testBit · i) h
      simp only [Nat.testBit_or, Nat.zero_testBit, Bool.or_eq_false_iff] at this
      simp [this.1, this.2, Nat.zero_testBit]
  · rintro ⟨rfl, rfl⟩
    rfl

theorem lor_eq_add_of_and_eq_zero (a b : Nat) (h : a &&& b = 0) : a ||| b = a + b := by
  induction a using Nat.strong_induction_on generalizing b with
  | _ a ih =>
    match a with
    | 0 => simp
    | (a' + 1) =>
      set a := a' + 1 with ha
      have hd : a / 2 ||| b / 2 = a / 2 + b / 2 := by
        apply ih
        · omega
        · rw [← Nat.and_div_two, h]
      have hb0 : ¬(a.testBit 0 = true ∧ b.testBit 0 = true) := by
        intro ⟨h1, h2⟩
        have hx : (a &&& b).testBit 0 = true := by
          rw [Nat.testBit_and, h1, h2]
          rfl
        rw [h] at hx
        simp at hx
      have hm : (a ||| b) % 2 = a % 2 + b % 2 := by
        have t1 : ∀ x : Nat, x % 2 = (x.testBit 0).toNat := by
          intro x
          have := Nat.toNat_testBit x 0
          simpa using this.symm
        rw [t1, t1, t1, Nat.testBit_or]
        rcases Bool.eq_false_or_eq_true (a.testBit 0) with h1 | h1 <;>
          rcases Bool.eq_false_or_eq_true (b.testBit 0) with h2 | h2 <;>
          simp [h1, h2] at hb0 ⊢
      have hdiv2 : (a ||| b) / 2 = a / 2 + b / 2 := by rw [Nat.or_div_two, hd]
      omega

theorem bitsIn_zero (m : Nat) : BitsIn 0 m := Nat.zero_and m

theorem bitsIn_lor {a b m : Nat} (ha : BitsIn a m) (hb : BitsIn b m) :
    BitsIn (a ||| b) m := by
  unfold BitsIn at *
  rw [Nat.and_distrib_right, ha, hb]

theorem bitsIn_xor {a b m : Nat} (ha : BitsIn a m) (hb : BitsIn b m) :
    BitsIn (a ^^^ b) m := by
  unfold BitsIn at *
  rw [Nat.and_xor_distrib_right, ha, hb]

theorem bitsIn_mono {a m mm : Nat} (ha : BitsIn a m) (hm : BitsIn m mm) :
    BitsIn a mm := by
  unfold BitsIn at *
  rw [← ha, Nat.and_assoc, hm]

theorem bitsIn_and_eq_zero {e s m : Nat} (he : BitsIn e s) (hsm : s &&& m = 0) :
    e &&& m = 0 := by
  rw [← he, Nat.and_assoc, hsm, Nat.and_zero]

theorem bitsIn_anyMask_false {e s m : Nat} (he : BitsIn e s) (hsm : s &&& m = 0) :
    cp_errors.anyMask e m = false := by
  unfold cp_errors.anyMask
  simp [bitsIn_and_eq_zero he hsm]

theorem anyMask_lor (a b m : Nat) :
    cp_errors.anyMask (a ||| b) m = (cp_errors.anyMask a m || cp_errors.anyMask b m) := by
  unfold cp_errors.anyMask
  rw [Nat.and_distrib_right]
  by_cases h1 : a &&& m = 0 <;> by_cases h2 : b &&& m = 0
  · simp [h1, h2]
  · simp [h1]
  · simp [h2]
  · have hq : ¬(a &&& m ||| b &&& m) = 0 := fun hc => h1 ((lor_eq_zero_iff _ _).mp hc).1
    rw [Bool.eq_iff_iff]
    simp [bne_iff_ne, hq, h1]

theorem isError_lor (a b : Nat) :
    cp_errors.isError (a ||| b) = (cp_errors.isError a || cp_errors.isError b) := by
  unfold cp_errors.isError
  exact anyMask_lor a b _

theorem no_error_lor (a b : Nat) :
    cp_errors.no_error (a ||| b) = (cp_errors.no_error a && cp_errors.no_error b) := by
  unfold cp_errors.no_error
  rw [isError_lor]
  cases cp_errors.isError a <;> cases cp_errors.isError b <;> rfl

theorem no_error_eq_true_of_lor {a b : Nat}
    (h : cp_errors.no_error (a ||| b) = true) :
    cp_errors.no_error a = true ∧ cp_errors.no_error b = true := by
  rw [no_error_lor] at h
  exact Bool.and_eq_true_iff.mp h

/-- no_error over a preflight value forces it to zero: the two get_errors
functions only ever produce hard-error bits. -/
theorem get_errors_no_error_eq_zero {t : utf_text}
    (h : cp_errors.no_error (get_errors t) = true) : get_errors t = 0 := by
  unfold get_errors at h ⊢
  split_ifs at h ⊢ <;> revert h <;> decide

theorem get_errors_aligned_no_error_eq_zero {t : utf_text} {m : Nat}
    (h : cp_errors.no_error (get_errors_aligned t m) = true) :
    get_errors_aligned t m = 0 := by
  have hg : get_errors t = 0 := by
    apply get_errors_no_error_eq_zero
    revert h
    unfold get_errors_aligned
    simp only
    split_ifs <;> intro h
    · rcases no_error_eq_true_of_lor h with ⟨h1, _⟩
      exact (no_error_eq_true_of_lor h1).1
    · exact (no_error_eq_true_of_lor h).1
    · exact (no_error_eq_true_of_lor h).1
    · exact h
  revert h
  unfold get_errors_aligned
  simp only [hg]
  split_ifs <;> revert hg <;> intro _ <;> decide

/-! ## Characterization of internal::fetchUTF8 -/

theorem isError_set_byte_index (s i : Nat) :
    cp_errors.isError (cp_errors.set_byte_index s i) = cp_errors.isError s := by
  unfold cp_errors.set_byte_index cp_errors.isError cp_errors.anyMask
  rw [Nat.and_distrib_right, Nat.and_assoc, Nat.and_assoc]
  have hK : (0xFFFFFFFF ^^^ cp_errors.ByteIndexMask) &&& cp_errors.ErrorsMask =
      cp_errors.ErrorsMask := by decide
  have h7 : cp_errors.ByteIndexMask &&& cp_errors.ErrorsMask = 0 := by decide
  rw [hK, h7, Nat.and_zero, Nat.or_zero]

theorem testBit_imp_of_bitsIn {a m : Nat} (h : BitsIn a m) (i : Nat)
    (hi : a.testBit i = true) : m.testBit i = true := by
  have hb := congrArg (Nat.testBit · i) h
  simp only [Nat.testBit_and, hi, Bool.true_and] at hb
  exact hb

theorem bitsIn_or_self_left (a b : Nat) : BitsIn a (a ||| b) := by
  apply Nat.eq_of_testBit_eq
  intro i
  simp only [Nat.testBit_and, Nat.testBit_or]
  cases a.testBit i <;> simp

theorem bitsIn_or_introR {a b m : Nat} (h : BitsIn a m) : BitsIn a (b ||| m) := by
  apply Nat.eq_of_testBit_eq
  intro i
  simp only [Nat.testBit_and, Nat.testBit_or]
  cases hi : a.testBit i
  · simp
  · simp [testBit_imp_of_bitsIn h i hi]

theorem bitsIn_or_introL {a b m : Nat} (h : BitsIn a m) : BitsIn a (m ||| b) := by
  apply Nat.eq_of_testBit_eq
  intro i
  simp only [Nat.testBit_and, Nat.testBit_or]
  cases hi : a.testBit i
  · simp
  · simp [testBit_imp_of_bitsIn h i hi]

theorem coalesceScanGo_ge (buf : List Nat) (rem index : Nat) :
    index ≤ coalesceScanGo buf index rem := by
  induction rem generalizing index with
  | zero => exact Nat.le_refl index
  | succ n ih =>
    unfold coalesceScanGo
    dsimp only
    split_ifs
    · exact Nat.le_refl index
    · exact Nat.le_trans (Nat.le_succ index) (ih (index + 1))

theorem contWalkGo_spec (buf : List Nat) (rem index value errors : Nat) :
    ((contWalkGo buf index value errors rem).2.2 = errors ∧
      (contWalkGo buf index value errors rem).1 = index + rem) ∨
    (cp_errors.isError (contWalkGo buf index value errors rem).2.2 = true ∧
      index ≤ (contWalkGo buf index value errors rem).1) := by
  induction rem generalizing index value with
  | zero => exact Or.inl ⟨rfl, rfl⟩
  | succ n ih =>
    unfold contWalkGo
    dsimp only
    split_ifs with h1 h2
    · refine Or.inr ⟨?_, Nat.le_refl index⟩
      rw [isError_set_byte_index, isError_lor]
      have hd : cp_errors.isError (cp_errors.Failed ||| cp_errors.NotDecodable |||
          cp_errors.DisallowedByte) = true := by decide
      rw [hd, Bool.or_true]
    · refine Or.inr ⟨?_, Nat.le_refl index⟩
      rw [isError_set_byte_index, isError_lor]
      have hd : cp_errors.isError (cp_errors.Failed ||| cp_errors.NotDecodable |||
          cp_errors.UnexpectedByte) = true := by decide
      rw [hd, Bool.or_true]
    · rcases ih (index + 1) ((value <<< 6) ||| (byteAt buf index &&& 0x3f)) with hcase | hcase
      · refine Or.inl ⟨hcase.1, ?_⟩
        rw [hcase.2]
        omega
      · exact Or.inr ⟨hcase.1, Nat.le_trans (Nat.le_succ index) hcase.2⟩

theorem contWalk_spec (buf : List Nat) (count index value errors : Nat) :
    ((contWalk buf count index value errors).2.2 = errors ∧
      (contWalk buf count index value errors).1 = index + (count - index)) ∨
    (cp_errors.isError (contWalk buf count index value errors).2.2 = true ∧
      index ≤ (contWalk buf count index value errors).1) := by
  unfold contWalk
  exact contWalkGo_spec buf (count - index) index value errors

theorem no_error_iff_not_isError (x : Nat) :
    cp_errors.no_error x = true ↔ cp_errors.isError x = false := by
  unfold cp_errors.no_error
  cases cp_errors.isError x <;> simp

theorem bitsIn_self (a : Nat) : BitsIn a a := Nat.and_self a

theorem fetchAssembleUTF8_spec (buf : List Nat) (byte count errors : Nat) :
    (cp_errors.isError (fetchAssembleUTF8 buf byte count errors).errors = true →
      (fetchAssembleUTF8 buf byte count errors).unicode = byte ∧
      1 ≤ (fetchAssembleUTF8 buf byte count errors).bytes) ∧
    (cp_errors.no_error (fetchAssembleUTF8 buf byte count errors).errors = true →
      cp_errors.no_error errors = true ∧
      BitsIn (fetchAssembleUTF8 buf byte count errors).errors
        (errors ||| cp_errors.ModifiedUTF8 ||| cp_errors.OverlongUTF8)) := by
  unfold fetchAssembleUTF8
  dsimp only
  rcases contWalk_spec buf count 1 (byte &&& ((1 <<< (7 - count)) - 1)) errors with hc | hc
  · rw [hc.1]
    split_ifs with hne hgt hov hmod
    · constructor
      · intro h
        exfalso
        rw [isError_lor] at h
        rw [no_error_iff_not_isError] at hne
        rw [hne] at h
        revert h
        decide
      · intro _
        exact ⟨hne, bitsIn_lor (bitsIn_or_introL (bitsIn_or_self_left errors _))
          (bitsIn_or_introL (bitsIn_or_introR (bitsIn_self _)))⟩
    · constructor
      · intro h
        exfalso
        rw [isError_lor] at h
        rw [no_error_iff_not_isError] at hne
        rw [hne] at h
        revert h
        decide
      · intro _
        exact ⟨hne, bitsIn_lor (bitsIn_or_introL (bitsIn_or_self_left errors _))
          (bitsIn_or_introR (bitsIn_self _))⟩
    · constructor
      · intro h
        exfalso
        rw [no_error_iff_not_isError] at hne
        rw [hne] at h
        exact Bool.false_ne_true h
      · intro _
        exact ⟨hne, bitsIn_or_introL (bitsIn_or_self_left errors _)⟩
    · constructor
      · intro h
        exfalso
        rw [no_error_iff_not_isError] at hne
        rw [hne] at h
        exact Bool.false_ne_true h
      · intro _
        exact ⟨hne, bitsIn_or_introL (bitsIn_or_self_left errors _)⟩
    · constructor
      · intro _
        refine ⟨rfl, ?_⟩
        dsimp only
        rw [hc.2]
        omega
      · intro h
        exact absurd h hne
  · have hfalse : cp_errors.no_error
        ((contWalk buf count 1 (byte &&& ((1 <<< (7 - count)) - 1)) errors).2.2) = false := by
      unfold cp_errors.no_error
      rw [hc.1]
      rfl
    rw [if_neg (by simp [hfalse])]
    constructor
    · intro _
      exact ⟨rfl, hc.2⟩
    · intro h
      rw [h] at hfalse
      exact absurd hfalse (by decide)

theorem fetchUTF8_spec (buf : List Nat) (size : Nat) (c : Bool) :
    (cp_errors.isError (fetchUTF8 buf size c).errors = true →
      (fetchUTF8 buf size c).unicode = byteAt buf 0 ∧ 1 ≤ (fetchUTF8 buf size c).bytes) ∧
    (cp_errors.no_error (fetchUTF8 buf size c).errors = true →
      BitsIn (fetchUTF8 buf size c).errors FetchWarnBits) := by
  by_cases h1 : size < 1
  · have he : fetchUTF8 buf size c = ⟨cp_errors.ReadExhausted, 0, 0⟩ := by
      unfold fetchUTF8
      rw [if_pos h1]
    rw [he]
    exact ⟨fun h => absurd h (by decide), fun _ => by decide⟩
  · by_cases h2 : (byteAt buf 0 + 2) % 256 ≤ 0xc1
    · by_cases h3 : byteAt buf 0 > 0x7f
      · have he : fetchUTF8 buf size c = ⟨cp_errors.Failed ||| cp_errors.NotDecodable |||
            (if byteAt buf 0 ≥ 0xfe then cp_errors.DisallowedByte else cp_errors.UnexpectedByte),
            byteAt buf 0, if c then coalesceScan buf size 1 else 1⟩ := by
          unfold fetchUTF8
          rw [if_neg h1]
          dsimp only
          rw [if_pos h2, if_pos h3]
        rw [he]
        constructor
        · intro _
          refine ⟨rfl, ?_⟩
          dsimp only
          cases c
          · rw [if_neg (by decide)]
          · rw [if_pos rfl]
            unfold coalesceScan
            exact coalesceScanGo_ge buf (size - 1) 1
        · intro h
          exfalso
          revert h
          dsimp only
          by_cases h4 : byteAt buf 0 ≥ 0xfe
          · rw [if_pos h4]
            decide
          · rw [if_neg h4]
            decide
      · have he : fetchUTF8 buf size c = ⟨0, byteAt buf 0, 1⟩ := by
          unfold fetchUTF8
          rw [if_neg h1]
          dsimp only
          rw [if_pos h2, if_neg h3]
        rw [he]
        constructor
        · intro h
          exfalso
          revert h
          dsimp only
          decide
        · intro _
          exact bitsIn_zero _
    · -- multi-byte expected-length path
      have he : fetchUTF8 buf size c =
          (if (if byteAt buf 0 ≤ 0xef then (byteAt buf 0 >>> 5) &&& 3
               else if byteAt buf 0 ≤ 0xf7 then 4
               else ((byteAt buf 0 >>> 2) &&& 7) - 1) > size then
            fetchAssembleUTF8 buf (byteAt buf 0) size
              ((if byteAt buf 0 ≤ 0xf7 then 0 else cp_errors.ExtendedUTF8) |||
                (cp_errors.Failed ||| cp_errors.NotDecodable ||| cp_errors.ReadTruncated))
          else
            fetchAssembleUTF8 buf (byteAt buf 0)
              (if byteAt buf 0 ≤ 0xef then (byteAt buf 0 >>> 5) &&& 3
               else if byteAt buf 0 ≤ 0xf7 then 4
               else ((byteAt buf 0 >>> 2) &&& 7) - 1)
              (if byteAt buf 0 ≤ 0xf7 then 0 else cp_errors.ExtendedUTF8)) := by
        unfold fetchUTF8
        rw [if_neg h1]
        dsimp only
        rw [if_neg h2]
      generalize hcnt : (if byteAt buf 0 ≤ 0xef then (byteAt buf 0 >>> 5) &&& 3
          else if byteAt buf 0 ≤ 0xf7 then 4
          else ((byteAt buf 0 >>> 2) &&& 7) - 1) = cnt at he
      have he0 : (if byteAt buf 0 ≤ 0xf7 then 0 else cp_errors.ExtendedUTF8) = 0 ∨
          (if byteAt buf 0 ≤ 0xf7 then 0 else cp_errors.ExtendedUTF8) = cp_errors.ExtendedUTF8 := by
        split_ifs
        · exact Or.inl rfl
        · exact Or.inr rfl
      generalize hgen : (if byteAt buf 0 ≤ 0xf7 then 0 else cp_errors.ExtendedUTF8) = e0 at he he0
      rw [he]
      by_cases h4 : cnt > size
      · rw [if_pos h4]
        constructor
        · exact fun h => (fetchAssembleUTF8_spec buf (byteAt buf 0) size _).1 h
        · intro h
          exfalso
          rcases (fetchAssembleUTF8_spec buf (byteAt buf 0) size _).2 h with ⟨hne, _⟩
          rcases no_error_eq_true_of_lor hne with ⟨_, hne2⟩
          revert hne2
          decide
      · rw [if_neg h4]
        constructor
        · exact fun h => (fetchAssembleUTF8_spec buf (byteAt buf 0) cnt e0).1 h
        · intro h
          rcases (fetchAssembleUTF8_spec buf (byteAt buf 0) cnt e0).2 h with ⟨_, hb⟩
          apply bitsIn_mono hb
          rcases he0 with he0 | he0 <;> rw [he0] <;> decide

/-! ## Characterization of decodeUTF8 -/

theorem fst_ite_triple {c : Prop} [Decidable c] (a b : Nat × Nat × Nat) :
    (if c then a else b).1 = if c then a.1 else b.1 :=
  apply_ite _ c a b

set_option maxHeartbeats 2000000 in
theorem decodeScalarUTF8_spec (buf : List Nat) (limit : Nat) (cesu : Bool)
    (errors unicode bytes : Nat) (he : BitsIn errors NonIrrWarnBits) :
    BitsIn (decodeScalarUTF8 buf limit cesu errors unicode bytes).1 NonIrrWarnBits := by
  have hchk := (fetchUTF8_spec (buf.drop bytes) (limit - bytes) false).2
  unfold decodeScalarUTF8
  dsimp only
  simp only [fst_ite_triple]
  generalize fetchUTF8 (List.drop bytes buf) (limit - bytes) false = chk at hchk ⊢
  split_ifs
  all_goals
    repeat
      first
        | exact he
        | exact bitsIn_mono (hchk (by assumption)) (by decide)
        | decide
        | apply bitsIn_lor
        | apply bitsIn_xor

/-- The shared failure/strictness behaviour of decodeUTF8 on a well-formed
cursor: on any hard failure the returned scalar is the first byte of the
offending sequence, and under strict mode any failed or irregular decode
reports exactly one byte. -/
theorem decodeUTF8_failure_spec (t : utf_text) (cesu java strict coalesce : Bool)
    (hb : t.buffer ≠ none) (ho : t.offset ≤ t.length) :
    (cp_errors.isError (decodeUTF8 t cesu java strict coalesce).errors = true →
      (decodeUTF8 t cesu java strict coalesce).unicode =
        byteAt ((t.buffer.getD []).drop t.offset) 0) ∧
    (strict = true →
      (cp_errors.isError (decodeUTF8 t cesu java strict coalesce).errors = true ∨
        cp_errors.anyMask (decodeUTF8 t cesu java strict coalesce).errors
          cp_errors.IrregularForm = true) →
      (decodeUTF8 t cesu java strict coalesce).bytes = 1) := by
  have hge : get_errors t = 0 := by
    unfold get_errors
    rw [if_neg (by omega)]
    simp [hb]
  have hfs := fetchUTF8_spec ((t.buffer.getD []).drop t.offset) (t.length - t.offset)
    (coalesce && !strict)
  unfold decodeUTF8
  rw [hge]
  dsimp only
  rw [if_pos (by decide), Nat.zero_or]
  by_cases hf : cp_errors.no_error
      (fetchUTF8 ((t.buffer.getD []).drop t.offset) (t.length - t.offset)
        (coalesce && !strict)).errors = true
  · rw [if_pos hf]
    have hin : BitsIn (fetchUTF8 ((t.buffer.getD []).drop t.offset) (t.length - t.offset)
        (coalesce && !strict)).errors NonIrrWarnBits :=
      bitsIn_mono (hfs.2 hf) (by decide)
    have hstep := decodeScalarUTF8_spec ((t.buffer.getD []).drop t.offset)
      (t.length - t.offset) cesu _
      (fetchUTF8 ((t.buffer.getD []).drop t.offset) (t.length - t.offset)
        (coalesce && !strict)).unicode
      (fetchUTF8 ((t.buffer.getD []).drop t.offset) (t.length - t.offset)
        (coalesce && !strict)).bytes hin
    by_cases hirr : cp_errors.anyMask
        (decodeScalarUTF8 ((t.buffer.getD []).drop t.offset) (t.length - t.offset) cesu
          (fetchUTF8 ((t.buffer.getD []).drop t.offset) (t.length - t.offset)
            (coalesce && !strict)).errors
          (fetchUTF8 ((t.buffer.getD []).drop t.offset) (t.length - t.offset)
            (coalesce && !strict)).unicode
          (fetchUTF8 ((t.buffer.getD []).drop t.offset) (t.length - t.offset)
            (coalesce && !strict)).bytes).1
        ((if java then 0 else cp_errors.ModifiedUTF8) |||
          (cp_errors.OverlongUTF8 ||| cp_errors.ExtendedUTF8 ||| cp_errors.ExtendedUCS4 |||
            cp_errors.HighSurrogate ||| cp_errors.LowSurrogate)) = true
    · rw [if_pos hirr]
      cases strict
      · constructor
        · intro h
          exfalso
          rw [if_neg (by decide : ¬ (false = true))] at h
          dsimp only at h
          rw [isError_lor] at h
          have hz := bitsIn_and_eq_zero hstep
            (show NonIrrWarnBits &&& cp_errors.ErrorsMask = 0 by decide)
          unfold cp_errors.isError cp_errors.anyMask at h
          rw [hz] at h
          revert h
          decide
        · intro hs
          exact absurd hs (by decide)
      · constructor
        · intro _
          rfl
        · intro _ _
          rfl
    · rw [if_neg hirr]
      have herr : cp_errors.isError
          (decodeScalarUTF8 ((t.buffer.getD []).drop t.offset) (t.length - t.offset) cesu
            (fetchUTF8 ((t.buffer.getD []).drop t.offset) (t.length - t.offset)
              (coalesce && !strict)).errors
            (fetchUTF8 ((t.buffer.getD []).drop t.offset) (t.length - t.offset)
              (coalesce && !strict)).unicode
            (fetchUTF8 ((t.buffer.getD []).drop t.offset) (t.length - t.offset)
              (coalesce && !strict)).bytes).1 = false := by
        have := bitsIn_and_eq_zero hstep
          (show NonIrrWarnBits &&& cp_errors.ErrorsMask = 0 by decide)
        unfold cp_errors.isError cp_errors.anyMask
        simp [this]
      have hirrf : cp_errors.anyMask
          (decodeScalarUTF8 ((t.buffer.getD []).drop t.offset) (t.length - t.offset) cesu
            (fetchUTF8 ((t.buffer.getD []).drop t.offset) (t.length - t.offset)
              (coalesce && !strict)).errors
            (fetchUTF8 ((t.buffer.getD []).drop t.offset) (t.length - t.offset)
              (coalesce && !strict)).unicode
            (fetchUTF8 ((t.buffer.getD []).drop t.offset) (t.length - t.offset)
              (coalesce && !strict)).bytes).1 cp_errors.IrregularForm = false :=
        bitsIn_anyMask_false hstep (by decide)
      constructor
      · intro h
        dsimp only at h
        rw [herr] at h
        exact absurd h (by decide)
      · intro _ h
        dsimp only at h
        rcases h with h | h
        · rw [herr] at h
          exact absurd h (by decide)
        · rw [hirrf] at h
          exact absurd h (by decide)
  · rw [if_neg hf]
    have hferr : cp_errors.isError
        (fetchUTF8 ((t.buffer.getD []).drop t.offset) (t.length - t.offset)
          (coalesce && !strict)).errors = true := by
      rcases Bool.eq_false_or_eq_true (cp_errors.isError
        (fetchUTF8 ((t.buffer.getD []).drop t.offset) (t.length - t.offset)
          (coalesce && !strict)).errors) with hx | hx
      · exact hx
      · exact absurd ((no_error_iff_not_isError _).mpr hx) hf
    rcases hfs.1 hferr with ⟨hu, hbytes⟩
    by_cases hsb : strict = true ∧
        (fetchUTF8 ((t.buffer.getD []).drop t.offset) (t.length - t.offset)
          (coalesce && !strict)).bytes > 1
    · rw [if_pos hsb]
      exact ⟨fun _ => hu, fun _ _ => rfl⟩
    · rw [if_neg hsb]
      constructor
      · intro _
        exact hu
      · intro hs _
        dsimp only
        rcases Nat.lt_or_ge 1 ((fetchUTF8 ((t.buffer.getD []).drop t.offset)
            (t.length - t.offset) (coalesce && !strict)).bytes) with hgt | hle
        · exact absurd ⟨hs, hgt⟩ hsb
        · omega

/-! ## Failure scalars of the remaining decoders -/

theorem errors_ite {c : Prop} [Decidable c] (a b : DecodeResult) :
    (if c then a else b).errors = if c then a.errors else b.errors :=
  apply_ite _ c a b

theorem decodeBYTE_failure_unicode (t : utf_text) (ascii coalesce : Bool)
    (hb : t.buffer ≠ none) (ho : t.offset ≤ t.length)
    (h : cp_errors.isError (decodeBYTE t ascii coalesce).errors = true) :
    (decodeBYTE t ascii coalesce).unicode = byteAt ((t.buffer.getD []).drop t.offset) 0 := by
  have hge : get_errors t = 0 := by
    unfold get_errors
    rw [if_neg (by omega)]
    simp [hb]
  unfold decodeBYTE at h ⊢
  rw [hge] at h ⊢
  rw [if_pos (show cp_errors.no_error 0 = true from by decide)] at h ⊢
  dsimp only at h ⊢
  by_cases hlim : t.length - t.offset < 1
  · exfalso
    rw [if_pos hlim] at h
    rw [if_neg (show ¬ (t.length - t.offset ≠ 0) by omega)] at h
    revert h
    decide
  · rw [if_neg hlim] at h ⊢
    split_ifs <;> rfl

theorem decodeUTF16_failure_unicode (t : utf_text) (le ucs2 : Bool)
    (h : cp_errors.isError (decodeUTF16 t le ucs2).errors = true) :
    (decodeUTF16 t le ucs2).unicode = 0 := by
  by_cases h0 : cp_errors.no_error (get_errors_aligned t 1) = true
  · have hz := get_errors_aligned_no_error_eq_zero h0
    unfold decodeUTF16 at h ⊢
    rw [hz] at h ⊢
    rw [if_pos (show cp_errors.no_error 0 = true from by decide)] at h ⊢
    dsimp only at h ⊢
    by_cases hlim : t.length - t.offset < 2
    · rw [if_pos hlim]
    · rw [if_neg hlim] at h ⊢
      exfalso
      revert h
      simp only [errors_ite]
      split_ifs <;> decide
  · unfold decodeUTF16 at h ⊢
    rw [if_neg h0] at h ⊢

set_option maxHeartbeats 1600000 in
theorem decodeUTF32_failure_unicode (t : utf_text) (le cesu ucs4 : Bool)
    (h : cp_errors.isError (decodeUTF32 t le cesu ucs4).errors = true) :
    (decodeUTF32 t le cesu ucs4).unicode = 0 := by
  by_cases h0 : cp_errors.no_error (get_errors_aligned t 3) = true
  · have hz := get_errors_aligned_no_error_eq_zero h0
    unfold decodeUTF32 at h ⊢
    rw [hz] at h ⊢
    rw [if_pos (show cp_errors.no_error 0 = true from by decide)] at h ⊢
    dsimp only at h ⊢
    by_cases hlim : t.length - t.offset < 4
    · rw [if_pos hlim]
    · rw [if_neg hlim] at h ⊢
      exfalso
      generalize word32 ((t.buffer.getD []).drop t.offset) le 0 = u at h
      generalize word32 ((t.buffer.getD []).drop t.offset) le 4 = v at h
      revert h
      simp only [errors_ite]
      split_ifs <;> decide
  · unfold decodeUTF32 at h ⊢
    rw [if_neg h0] at h ⊢

theorem cp1252ToUnicode_not_ok (b : Nat) (s : Bool)
    (h : (cp1252ToUnicode b s).1 = false) : (cp1252ToUnicode b s).2 = 0 := by
  unfold cp1252ToUnicode at h ⊢
  dsimp only at h ⊢
  split_ifs at h ⊢ <;> first | rfl | simp at h

theorem cp1252ScanGo_snd_zero (buf : List Nat) (s : Bool) :
    ∀ rem idx, (cp1252ScanGo buf s idx 0 rem).2 = 0 := by
  intro rem
  induction rem with
  | zero => intro idx; rfl
  | succ n ih =>
    intro idx
    unfold cp1252ScanGo
    dsimp only
    by_cases hc : (cp1252ToUnicode (byteAt buf idx) s).1 = true
    · rw [if_pos hc]
    · rw [if_neg hc]
      rw [cp1252ToUnicode_not_ok _ _ (Bool.eq_false_iff.mpr hc)]
      exact ih (idx + 1)

theorem decodeCP1252_failure_unicode (t : utf_text) (strict coalesce : Bool)
    (h : cp_errors.isError (decodeCP1252 t strict coalesce).errors = true) :
    (decodeCP1252 t strict coalesce).unicode = 0 := by
  by_cases h0 : cp_errors.no_error (get_errors t) = true
  · have hz := get_errors_no_error_eq_zero h0
    unfold decodeCP1252 at h ⊢
    rw [hz] at h ⊢
    rw [if_pos (show cp_errors.no_error 0 = true from by decide)] at h ⊢
    dsimp only at h ⊢
    by_cases hlim : t.length - t.offset < 1
    · rw [if_pos hlim]
    · rw [if_neg hlim] at h ⊢
      by_cases hc : (cp1252ToUnicode
          (byteAt ((t.buffer.getD []).drop t.offset) 0) strict).1 = true
      · exfalso
        rw [if_neg (not_not_intro hc)] at h
        revert h
        simp only [errors_ite]
        split_ifs <;> decide
      · rw [if_pos hc] at h ⊢
        have hc2 := cp1252ToUnicode_not_ok _ _ (Bool.eq_false_iff.mpr hc)
        by_cases hco : coalesce = true
        · rw [if_pos hco]
          dsimp only
          unfold cp1252Scan
          rw [hc2]
          exact cp1252ScanGo_snd_zero _ _ _ _
        · rw [if_neg hco]
          exact hc2
  · unfold decodeCP1252 at h ⊢
    rw [if_neg h0] at h ⊢

/-! ## Encoder / length consistency -/

theorem errorsE_ite {c : Prop} [Decidable c] (a b : EncodeResult) :
    (if c then a else b).errors = if c then a.errors else b.errors :=
  apply_ite _ c a b

theorem get_errors_NE (t : utf_text) :
    cp_errors.anyMask (get_errors t) cp_errors.NotEncodable = false := by
  unfold get_errors
  dsimp only
  split_ifs <;> decide

theorem get_errors_aligned_NE (t : utf_text) (m : Nat) :
    cp_errors.anyMask (get_errors_aligned t m) cp_errors.NotEncodable = false := by
  unfold get_errors_aligned
  dsimp only
  have h := get_errors_NE t
  split_ifs <;> simp only [anyMask_lor, h] <;> decide

theorem classifyUTF8_no_error (s : Nat) (cesu java : Bool) :
    cp_errors.no_error (classifyUTF8 0 s cesu java) = true := by
  unfold classifyUTF8
  dsimp only
  split_ifs <;> first | decide | (exfalso; omega)

theorem classifyUTF8_surpair_supp (s : Nat) (cesu java : Bool)
    (h1 : 0x10000 ≤ s) (h2 : s ≤ 0x10ffff) :
    cp_errors.anyMask (classifyUTF8 0 s cesu java) cp_errors.SurrogatePair = cesu := by
  unfold classifyUTF8
  rw [if_neg (by omega), if_pos (by omega : s ≥ 0xd800),
      if_neg (by omega : ¬ s > 0x10ffff), if_pos (by omega : s ≥ 0xfdd0)]
  dsimp only
  rw [if_pos (by omega : s > 0xffff), anyMask_lor]
  have hnc : cp_errors.anyMask
      (if s ≤ 0xfdef ∨ s &&& 0xfffe = 0xfffe then 0 ||| cp_errors.NonCharacter else 0)
      cp_errors.SurrogatePair = false := by
    split_ifs <;> decide
  rw [hnc]
  cases cesu <;> decide

theorem classifyUTF8_NE (e s : Nat) (cesu java : Bool)
    (he : cp_errors.anyMask e cp_errors.NotEncodable = false) :
    cp_errors.anyMask (classifyUTF8 e s cesu java) cp_errors.NotEncodable = false := by
  unfold classifyUTF8
  dsimp only
  split_ifs <;> first
    | exact he
    | (exfalso; omega)
    | (simp only [anyMask_lor, he]; decide)

theorem encodeUTF8_NE (t : utf_text) (s : Nat) (cesu java : Bool) :
    cp_errors.anyMask (encodeUTF8 t s cesu java).errors cp_errors.NotEncodable = false := by
  have hcl := classifyUTF8_NE (get_errors t) s cesu java (get_errors_NE t)
  unfold encodeUTF8
  dsimp only
  generalize classifyUTF8 (get_errors t) s cesu java = E at hcl
  by_cases hno : cp_errors.no_error E = true
  · rw [if_pos hno]
    simp only [errorsE_ite]
    split_ifs <;> first
      | exact hcl
      | (simp only [anyMask_lor, hcl]; decide)
  · rw [if_neg hno]
    exact hcl

theorem encodeUTF8_C2 (s : Nat) (cesu java : Bool) :
    (lenUTF8 s cesu java ≠ 0 →
      (encodeUTF8 ⟨lenUTF8 s cesu java, 0,
          some (List.replicate (lenUTF8 s cesu java) 0)⟩ s cesu java).bytes =
        lenUTF8 s cesu java) ∧
    (cp_errors.anyMask (encodeUTF8 ⟨lenUTF8 s cesu java, 0,
          some (List.replicate (lenUTF8 s cesu java) 0)⟩ s cesu java).errors
        cp_errors.NotEncodable = true →
      lenUTF8 s cesu java = 0) := by
  refine ⟨fun hne => ?_, fun hNE => absurd hNE (by rw [encodeUTF8_NE]; decide)⟩
  by_cases h31 : s ≤ 0x7fffffff
  case neg =>
    exact absurd (by unfold lenUTF8; rw [if_neg h31]) hne
  by_cases hs0 : s = 0
  · subst hs0
    cases cesu <;> cases java <;> decide
  by_cases h7f : s ≤ 0x7f
  · have hl : lenUTF8 s cesu java = 1 := by
      unfold lenUTF8
      rw [if_pos h31, if_pos h7f,
          if_neg (by simp only [Bool.and_eq_true, beq_iff_eq]; rintro ⟨-, h⟩; exact hs0 h)]
    rw [hl]
    have hcl : classifyUTF8 0 s cesu java = 0 := by
      unfold classifyUTF8
      rw [if_neg (by omega), if_neg (by omega : ¬ s ≥ 0xd800)]
    unfold encodeUTF8
    rw [show get_errors ⟨1, 0, some (List.replicate 1 0)⟩ = 0 from by decide, hcl,
        if_pos (show cp_errors.no_error 0 = true from by decide)]
    dsimp only
    rw [if_pos h7f,
        if_neg (show ¬ cp_errors.anyMask 0 cp_errors.ModifiedUTF8 = true from by decide),
        if_neg (show ¬ (1 - 0 < 1) from by omega)]
  by_cases h7ff : s ≤ 0x7ff
  · have hl : lenUTF8 s cesu java = 2 := by
      unfold lenUTF8
      rw [if_pos h31, if_neg h7f, if_pos h7ff]
    rw [hl]
    have hcl : classifyUTF8 0 s cesu java = 0 := by
      unfold classifyUTF8
      rw [if_neg (by omega), if_neg (by omega : ¬ s ≥ 0xd800)]
    unfold encodeUTF8
    rw [show get_errors ⟨2, 0, some (List.replicate 2 0)⟩ = 0 from by decide, hcl,
        if_pos (show cp_errors.no_error 0 = true from by decide)]
    dsimp only
    rw [if_neg h7f, if_pos h7ff, if_neg (show ¬ (2 - 0 < 2) from by omega)]
  by_cases hffff : s ≤ 0xffff
  · have hl : lenUTF8 s cesu java = 3 := by
      unfold lenUTF8
      rw [if_pos h31, if_neg h7f, if_neg h7ff, if_pos hffff]
    rw [hl]
    unfold encodeUTF8
    rw [show get_errors ⟨3, 0, some (List.replicate 3 0)⟩ = 0 from by decide,
        if_pos (classifyUTF8_no_error s cesu java)]
    dsimp only
    rw [if_neg h7f, if_neg h7ff, if_pos hffff, if_neg (show ¬ (3 - 0 < 3) from by omega)]
  by_cases h10 : s ≤ 0x10ffff
  · cases cesu
    · have hl : lenUTF8 s false java = 4 := by
        unfold lenUTF8
        rw [if_pos h31, if_neg h7f, if_neg h7ff, if_neg hffff, if_pos h10,
            if_neg (by decide)]
      rw [hl]
      unfold encodeUTF8
      rw [show get_errors ⟨4, 0, some (List.replicate 4 0)⟩ = 0 from by decide,
          if_pos (classifyUTF8_no_error s false java)]
      dsimp only
      rw [if_neg h7f, if_neg h7ff, if_neg hffff,
          if_neg (show ¬ (s ≤ 0x10ffff ∧ cp_errors.anyMask (classifyUTF8 0 s false java)
              cp_errors.SurrogatePair = true) by
            rintro ⟨-, hsp⟩
            rw [classifyUTF8_surpair_supp s false java (by omega) h10] at hsp
            exact absurd hsp (by decide)),
          if_pos (by omega : s ≤ 0x1fffff), if_neg (show ¬ (4 - 0 < 4) from by omega)]
    · have hl : lenUTF8 s true java = 6 := by
        unfold lenUTF8
        rw [if_pos h31, if_neg h7f, if_neg h7ff, if_neg hffff, if_pos h10, if_pos rfl]
      rw [hl]
      unfold encodeUTF8
      rw [show get_errors ⟨6, 0, some (List.replicate 6 0)⟩ = 0 from by decide,
          if_pos (classifyUTF8_no_error s true java)]
      dsimp only
      rw [if_neg h7f, if_neg h7ff, if_neg hffff,
          if_pos (show s ≤ 0x10ffff ∧ cp_errors.anyMask (classifyUTF8 0 s true java)
              cp_errors.SurrogatePair = true from
            ⟨h10, by rw [classifyUTF8_surpair_supp s true java (by omega) h10]⟩),
          if_neg (show ¬ (6 - 0 < 6) from by omega)]
  by_cases h1f : s ≤ 0x1fffff
  · have hl : lenUTF8 s cesu java = 4 := by
      unfold lenUTF8
      rw [if_pos h31, if_neg h7f, if_neg h7ff, if_neg hffff, if_neg h10, if_pos h1f]
    rw [hl]
    unfold encodeUTF8
    rw [show get_errors ⟨4, 0, some (List.replicate 4 0)⟩ = 0 from by decide,
        if_pos (classifyUTF8_no_error s cesu java)]
    dsimp only
    rw [if_neg h7f, if_neg h7ff, if_neg hffff,
        if_neg (show ¬ (s ≤ 0x10ffff ∧ cp_errors.anyMask (classifyUTF8 0 s cesu java)
            cp_errors.SurrogatePair = true) by rintro ⟨hx, -⟩; omega),
        if_pos h1f, if_neg (show ¬ (4 - 0 < 4) from by omega)]
  by_cases h3ff : s ≤ 0x3ffffff
  · have hl : lenUTF8 s cesu java = 5 := by
      unfold lenUTF8
      rw [if_pos h31, if_neg h7f, if_neg h7ff, if_neg hffff, if_neg h10, if_neg h1f,
          if_pos h3ff]
    rw [hl]
    unfold encodeUTF8
    rw [show get_errors ⟨5, 0, some (List.replicate 5 0)⟩ = 0 from by decide,
        if_pos (classifyUTF8_no_error s cesu java)]
    dsimp only
    rw [if_neg h7f, if_neg h7ff, if_neg hffff,
        if_neg (show ¬ (s ≤ 0x10ffff ∧ cp_errors.anyMask (classifyUTF8 0 s cesu java)
            cp_errors.SurrogatePair = true) by rintro ⟨hx, -⟩; omega),
        if_neg h1f, if_pos h3ff, if_neg (show ¬ (5 - 0 < 5) from by omega)]
  · have hl : lenUTF8 s cesu java = 6 := by
      unfold lenUTF8
      rw [if_pos h31, if_neg h7f, if_neg h7ff, if_neg hffff, if_neg h10, if_neg h1f,
          if_neg h3ff]
    rw [hl]
    unfold encodeUTF8
    rw [show get_errors ⟨6, 0, some (List.replicate 6 0)⟩ = 0 from by decide,
        if_pos (classifyUTF8_no_error s cesu java)]
    dsimp only
    rw [if_neg h7f, if_neg h7ff, if_neg hffff,
        if_neg (show ¬ (s ≤ 0x10ffff ∧ cp_errors.anyMask (classifyUTF8 0 s cesu java)
            cp_errors.SurrogatePair = true) by rintro ⟨hx, -⟩; omega),
        if_neg h1f, if_neg h3ff, if_neg (show ¬ (6 - 0 < 6) from by omega)]

theorem classifyUTF16_no_error_le (s : Nat) (ucs2 : Bool) (h : s ≤ 0xffff) :
    cp_errors.no_error (classifyUTF16 0 s ucs2) = true := by
  unfold classifyUTF16
  dsimp only
  split_ifs <;> first | decide | (exfalso; omega)

theorem classifyUTF16_SP_le (s : Nat) (ucs2 : Bool) (h : s ≤ 0xffff) :
    cp_errors.anyMask (classifyUTF16 0 s ucs2) cp_errors.SurrogatePair = false := by
  unfold classifyUTF16
  dsimp only
  split_ifs <;> first | decide | (exfalso; omega)

theorem classifyUTF16_no_error_supp (s : Nat) (h1 : 0x10000 ≤ s) (h2 : s ≤ 0x10ffff) :
    cp_errors.no_error (classifyUTF16 0 s false) = true := by
  unfold classifyUTF16
  rw [if_neg (by omega), if_pos (by omega : s ≥ 0xd800),
      if_neg (by omega : ¬ s > 0x10ffff), if_pos (by omega : s ≥ 0xfdd0)]
  dsimp only
  rw [if_pos (by omega : s > 0xffff), if_neg (by decide : ¬ ((false : Bool) = true))]
  have h1 : cp_errors.no_error
      (if s ≤ 0xfdef ∨ s &&& 0xfffe = 0xfffe then 0 ||| cp_errors.NonCharacter else 0) = true := by
    split_ifs <;> decide
  rw [no_error_lor, h1]
  decide

theorem classifyUTF16_SP_supp (s : Nat) (h1 : 0x10000 ≤ s) (h2 : s ≤ 0x10ffff) :
    cp_errors.anyMask (classifyUTF16 0 s false) cp_errors.SurrogatePair = true := by
  unfold classifyUTF16
  rw [if_neg (by omega), if_pos (by omega : s ≥ 0xd800),
      if_neg (by omega : ¬ s > 0x10ffff), if_pos (by omega : s ≥ 0xfdd0)]
  dsimp only
  rw [if_pos (by omega : s > 0xffff), if_neg (by decide : ¬ ((false : Bool) = true)),
      anyMask_lor]
  have h1 : cp_errors.anyMask
      (if s ≤ 0xfdef ∨ s &&& 0xfffe = 0xfffe then 0 ||| cp_errors.NonCharacter else 0)
      cp_errors.SurrogatePair = false := by
    split_ifs <;> decide
  rw [h1]
  decide

theorem classifyUTF16_NE (e s : Nat) (ucs2 : Bool)
    (he : cp_errors.anyMask e cp_errors.NotEncodable = false) :
    cp_errors.anyMask (classifyUTF16 e s ucs2) cp_errors.NotEncodable = false := by
  unfold classifyUTF16
  dsimp only
  split_ifs <;> first
    | exact he
    | (exfalso; omega)
    | (simp only [anyMask_lor, he]; decide)

theorem encodeUTF16_NE (t : utf_text) (s : Nat) (le ucs2 : Bool) :
    cp_errors.anyMask (encodeUTF16 t s le ucs2).errors cp_errors.NotEncodable = false := by
  have hcl := classifyUTF16_NE (get_errors_aligned t 1) s ucs2 (get_errors_aligned_NE t 1)
  unfold encodeUTF16
  dsimp only
  generalize classifyUTF16 (get_errors_aligned t 1) s ucs2 = E at hcl
  by_cases hno : cp_errors.no_error E = true
  · rw [if_pos hno]
    simp only [errorsE_ite]
    split_ifs <;> first
      | exact hcl
      | (simp only [anyMask_lor, hcl]; decide)
  · rw [if_neg hno]
    exact hcl

theorem encodeUTF16_C2 (s : Nat) (le ucs2 : Bool) :
    (lenUTF16 s ucs2 ≠ 0 →
      (encodeUTF16 ⟨lenUTF16 s ucs2, 0,
          some (List.replicate (lenUTF16 s ucs2) 0)⟩ s le ucs2).bytes =
        lenUTF16 s ucs2) ∧
    (cp_errors.anyMask (encodeUTF16 ⟨lenUTF16 s ucs2, 0,
          some (List.replicate (lenUTF16 s ucs2) 0)⟩ s le ucs2).errors
        cp_errors.NotEncodable = true →
      lenUTF16 s ucs2 = 0) := by
  refine ⟨fun hne => ?_, fun hNE => absurd hNE (by rw [encodeUTF16_NE]; decide)⟩
  by_cases hs0 : s = 0
  · subst hs0
    cases le <;> cases ucs2 <;> decide
  by_cases hffff : s ≤ 0xffff
  · have hl : lenUTF16 s ucs2 = 2 := by
      unfold lenUTF16
      rw [if_pos (by omega), if_pos hffff]
    rw [hl]
    unfold encodeUTF16
    rw [show get_errors_aligned ⟨2, 0, some (List.replicate 2 0)⟩ 1 = 0 from by decide,
        if_pos (classifyUTF16_no_error_le s ucs2 hffff)]
    dsimp only
    rw [if_neg (show ¬ cp_errors.anyMask (classifyUTF16 0 s ucs2)
          cp_errors.SurrogatePair = true from by
        rw [classifyUTF16_SP_le s ucs2 hffff]; decide),
        if_neg (show ¬ (2 - 0 < 2) from by omega)]
    split_ifs <;> rfl
  by_cases h10 : s ≤ 0x10ffff
  · cases ucs2
    · have hl : lenUTF16 s false = 4 := by
        unfold lenUTF16
        rw [if_pos h10, if_neg hffff, if_pos (by decide : (!false) = true)]
      rw [hl]
      unfold encodeUTF16
      rw [show get_errors_aligned ⟨4, 0, some (List.replicate 4 0)⟩ 1 = 0 from by decide,
          if_pos (classifyUTF16_no_error_supp s (by omega) h10)]
      dsimp only
      rw [if_pos (classifyUTF16_SP_supp s (by omega) h10),
          if_neg (show ¬ (4 - 0 < 4) from by omega)]
      split_ifs <;> rfl
    · have hl : lenUTF16 s true = 0 := by
        unfold lenUTF16
        rw [if_pos h10, if_neg hffff, if_neg (by decide : ¬ (!true) = true)]
      exact absurd hl hne
  · have hl : lenUTF16 s ucs2 = 0 := by
      unfold lenUTF16
      rw [if_neg h10]
    exact absurd hl hne

theorem classifyUTF32_no_error (s : Nat) (cesu ucs4 : Bool) :
    cp_errors.no_error (classifyUTF32 0 s cesu ucs4) = true := by
  unfold classifyUTF32
  dsimp only
  split_ifs <;> decide

theorem classifyUTF32_SP_le (s : Nat) (cesu ucs4 : Bool) (h : s ≤ 0xffff) :
    cp_errors.anyMask (classifyUTF32 0 s cesu ucs4) cp_errors.SurrogatePair = false := by
  unfold classifyUTF32
  dsimp only
  split_ifs <;> first | decide | (exfalso; omega)

theorem classifyUTF32_SP_supp (s : Nat) (cesu ucs4 : Bool)
    (h1 : 0x10000 ≤ s) (h2 : s ≤ 0x10ffff) :
    cp_errors.anyMask (classifyUTF32 0 s cesu ucs4) cp_errors.SurrogatePair = cesu := by
  unfold classifyUTF32
  rw [if_neg (by omega), if_pos (by omega : s ≥ 0xd800),
      if_neg (by omega : ¬ s > 0x10ffff), if_pos (by omega : s ≥ 0xfdd0)]
  dsimp only
  rw [if_pos (by omega : s > 0xffff), anyMask_lor]
  have hnc : cp_errors.anyMask
      (if s ≤ 0xfdef ∨ s &&& 0xfffe = 0xfffe then 0 ||| cp_errors.NonCharacter else 0)
      cp_errors.SurrogatePair = false := by
    split_ifs <;> decide
  rw [hnc]
  cases cesu <;> decide

theorem classifyUTF32_SP_above (s : Nat) (cesu ucs4 : Bool) (h : 0x10ffff < s) :
    cp_errors.anyMask (classifyUTF32 0 s cesu ucs4) cp_errors.SurrogatePair = false := by
  unfold classifyUTF32
  rw [if_neg (by omega), if_pos (by omega : s ≥ 0xd800), if_pos (by omega : s > 0x10ffff)]
  split_ifs <;> decide

theorem classifyUTF32_NE (e s : Nat) (cesu ucs4 : Bool)
    (he : cp_errors.anyMask e cp_errors.NotEncodable = false) :
    cp_errors.anyMask (classifyUTF32 e s cesu ucs4) cp_errors.NotEncodable = false := by
  unfold classifyUTF32
  dsimp only
  split_ifs <;> first
    | exact he
    | (simp only [anyMask_lor, he]; decide)

theorem encodeUTF32_NE (t : utf_text) (s : Nat) (le cesu ucs4 : Bool) :
    cp_errors.anyMask (encodeUTF32 t s le cesu ucs4).errors cp_errors.NotEncodable = false := by
  have hcl := classifyUTF32_NE (get_errors_aligned t 3) s cesu ucs4 (get_errors_aligned_NE t 3)
  unfold encodeUTF32
  dsimp only
  generalize classifyUTF32 (get_errors_aligned t 3) s cesu ucs4 = E at hcl
  by_cases hno : cp_errors.no_error E = true
  · rw [if_pos hno]
    simp only [errorsE_ite]
    split_ifs <;> first
      | exact hcl
      | (simp only [anyMask_lor, hcl]; decide)
  · rw [if_neg hno]
    exact hcl

theorem encodeUTF32_C2 (s : Nat) (le cesu ucs4 : Bool) :
    (lenUTF32 s cesu ucs4 ≠ 0 →
      (encodeUTF32 ⟨lenUTF32 s cesu ucs4, 0,
          some (List.replicate (lenUTF32 s cesu ucs4) 0)⟩ s le cesu ucs4).bytes =
        lenUTF32 s cesu ucs4) ∧
    (cp_errors.anyMask (encodeUTF32 ⟨lenUTF32 s cesu ucs4, 0,
          some (List.replicate (lenUTF32 s cesu ucs4) 0)⟩ s le cesu ucs4).errors
        cp_errors.NotEncodable = true →
      lenUTF32 s cesu ucs4 = 0) := by
  refine ⟨fun hne => ?_, fun hNE => absurd hNE (by rw [encodeUTF32_NE]; decide)⟩
  by_cases hs0 : s = 0
  · subst hs0
    cases le <;> cases cesu <;> cases ucs4 <;> decide
  by_cases hffff : s ≤ 0xffff
  · have hl : lenUTF32 s cesu ucs4 = 4 := by
      unfold lenUTF32
      rw [if_pos (by split_ifs <;> omega),
          if_neg (show ¬ (cesu && decide (0x00010000 ≤ s) && decide (s ≤ 0x0010ffff)) = true by
            simp only [Bool.and_eq_true, decide_eq_true_eq]
            rintro ⟨⟨-, h⟩, -⟩
            omega)]
    rw [hl]
    unfold encodeUTF32
    rw [show get_errors_aligned ⟨4, 0, some (List.replicate 4 0)⟩ 3 = 0 from by decide,
        if_pos (classifyUTF32_no_error s cesu ucs4)]
    dsimp only
    rw [if_neg (show ¬ cp_errors.anyMask (classifyUTF32 0 s cesu ucs4)
          cp_errors.SurrogatePair = true from by
        rw [classifyUTF32_SP_le s cesu ucs4 hffff]; decide),
        if_neg (show ¬ (4 - 0 < 4) from by omega)]
    split_ifs <;> rfl
  by_cases h10 : s ≤ 0x10ffff
  · cases cesu
    · have hl : lenUTF32 s false ucs4 = 4 := by
        unfold lenUTF32
        rw [if_pos (by split_ifs <;> omega),
            if_neg (show ¬ (false && decide (0x00010000 ≤ s) && decide (s ≤ 0x0010ffff)) = true by
              simp)]
      rw [hl]
      unfold encodeUTF32
      rw [show get_errors_aligned ⟨4, 0, some (List.replicate 4 0)⟩ 3 = 0 from by decide,
          if_pos (classifyUTF32_no_error s false ucs4)]
      dsimp only
      rw [if_neg (show ¬ cp_errors.anyMask (classifyUTF32 0 s false ucs4)
            cp_errors.SurrogatePair = true from by
          rw [classifyUTF32_SP_supp s false ucs4 (by omega) h10]; decide),
          if_neg (show ¬ (4 - 0 < 4) from by omega)]
      split_ifs <;> rfl
    · have hl : lenUTF32 s true ucs4 = 8 := by
        unfold lenUTF32
        rw [if_pos (by split_ifs <;> omega),
            if_pos (show (true && decide (0x00010000 ≤ s) && decide (s ≤ 0x0010ffff)) = true by
              simp only [Bool.true_and, Bool.and_eq_true, decide_eq_true_eq]
              exact ⟨by omega, h10⟩)]
      rw [hl]
      unfold encodeUTF32
      rw [show get_errors_aligned ⟨8, 0, some (List.replicate 8 0)⟩ 3 = 0 from by decide,
          if_pos (classifyUTF32_no_error s true ucs4)]
      dsimp only
      rw [if_pos (classifyUTF32_SP_supp s true ucs4 (by omega) h10),
          if_neg (show ¬ (8 - 0 < 8) from by omega)]
      split_ifs <;> rfl
  by_cases h31 : s ≤ 0x7fffffff
  · cases ucs4
    · have hl : lenUTF32 s cesu false = 0 := by
        unfold lenUTF32
        rw [if_neg (show ¬ s ≤ (if (false : Bool) = true then 0x7fffffff else 0x0010ffff) by
          rw [if_neg (by decide : ¬ ((false : Bool) = true))]; omega)]
      exact absurd hl hne
    · have hl : lenUTF32 s cesu true = 4 := by
        unfold lenUTF32
        rw [if_pos (show s ≤ (if (true : Bool) = true then 0x7fffffff else 0x0010ffff) by
            rw [if_pos rfl]; omega),
            if_neg (show ¬ (cesu && decide (0x00010000 ≤ s) && decide (s ≤ 0x0010ffff)) = true by
              simp only [Bool.and_eq_true, decide_eq_true_eq]
              rintro ⟨-, h⟩
              omega)]
      rw [hl]
      unfold encodeUTF32
      rw [show get_errors_aligned ⟨4, 0, some (List.replicate 4 0)⟩ 3 = 0 from by decide,
          if_pos (classifyUTF32_no_error s cesu true)]
      dsimp only
      rw [if_neg (show ¬ cp_errors.anyMask (classifyUTF32 0 s cesu true)
            cp_errors.SurrogatePair = true from by
          rw [classifyUTF32_SP_above s cesu true (by omega)]; decide),
          if_neg (show ¬ (4 - 0 < 4) from by omega)]
      split_ifs <;> rfl
  · have hl : lenUTF32 s cesu ucs4 = 0 := by
      unfold lenUTF32
      rw [if_neg (by split_ifs <;> omega)]
    exact absurd hl hne

theorem encodeBYTE_C2 (s : Nat) (ascii : Bool) :
    ((if s &&& (if ascii then 0x7f else 0xff) = s then 1 else 0) ≠ 0 →
      (encodeBYTE ⟨(if s &&& (if ascii then 0x7f else 0xff) = s then 1 else 0), 0,
          some (List.replicate
            (if s &&& (if ascii then 0x7f else 0xff) = s then 1 else 0) 0)⟩
        s ascii).bytes =
        (if s &&& (if ascii then 0x7f else 0xff) = s then 1 else 0)) ∧
    (cp_errors.anyMask
        (encodeBYTE ⟨(if s &&& (if ascii then 0x7f else 0xff) = s then 1 else 0), 0,
          some (List.replicate
            (if s &&& (if ascii then 0x7f else 0xff) = s then 1 else 0) 0)⟩
          s ascii).errors cp_errors.NotEncodable = true →
      (if s &&& (if ascii then 0x7f else 0xff) = s then 1 else 0) = 0) := by
  by_cases hs : s &&& (if ascii then 0x7f else 0xff) = s
  · have hle : s ≤ (if ascii then (0x7f : Nat) else 0xff) := by
      rw [← hs]; exact Nat.and_le_right
    rw [if_pos hs]
    by_cases hs0 : s = 0
    · subst hs0
      cases ascii <;> decide
    · have hcl : classifyBYTE 0 s ascii = 0 := by
        unfold classifyBYTE
        rw [if_neg (by omega), if_neg (not_lt.mpr hle)]
      have he : encodeBYTE ⟨1, 0, some (List.replicate 1 0)⟩ s ascii =
          ⟨0, writeBytes (List.replicate 1 0) 0 [toByte s], 1⟩ := by
        unfold encodeBYTE
        rw [show get_errors ⟨1, 0, some (List.replicate 1 0)⟩ = 0 from by decide, hcl,
            if_pos (show cp_errors.no_error 0 = true from by decide)]
        dsimp only
        rw [if_neg (show ¬ (1 - 0 < 1) from by omega)]
        rfl
      rw [he]
      exact ⟨fun _ => rfl, fun hNE => absurd hNE
        (show ¬ cp_errors.anyMask 0 cp_errors.NotEncodable = true from by decide)⟩
  · rw [if_neg hs]
    exact ⟨fun hne => absurd rfl hne, fun _ => rfl⟩

theorem unicodeToCP1252_ok_le (s : Nat) (strict : Bool) (h : s ≤ 0x7f) :
    (unicodeToCP1252 s strict).1 = true := by
  unfold unicodeToCP1252
  rw [if_pos (by omega : s ≤ 0xff), if_pos (Or.inl h)]

theorem encodeCP1252_C2 (s : Nat) (strict : Bool) :
    ((if s &&& 0x7f = s then 1 else 0) ≠ 0 →
      (encodeCP1252 ⟨(if s &&& 0x7f = s then 1 else 0), 0,
          some (List.replicate (if s &&& 0x7f = s then 1 else 0) 0)⟩ s strict).bytes =
        (if s &&& 0x7f = s then 1 else 0)) ∧
    (cp_errors.anyMask
        (encodeCP1252 ⟨(if s &&& 0x7f = s then 1 else 0), 0,
          some (List.replicate (if s &&& 0x7f = s then 1 else 0) 0)⟩ s strict).errors
        cp_errors.NotEncodable = true →
      (if s &&& 0x7f = s then 1 else 0) = 0) := by
  by_cases hs : s &&& 0x7f = s
  · have hle : s ≤ 0x7f := by
      rw [← hs]; exact Nat.and_le_right
    rw [if_pos hs]
    by_cases hs0 : s = 0
    · subst hs0
      cases strict <;> decide
    · have hcl : classifyCP1252 0 s strict = 0 := by
        unfold classifyCP1252
        rw [if_neg (by omega),
            if_neg (show ¬ (!(unicodeToCP1252 s strict).1) = true from by
              rw [unicodeToCP1252_ok_le s strict hle]; decide)]
      have he : encodeCP1252 ⟨1, 0, some (List.replicate 1 0)⟩ s strict =
          ⟨0, writeBytes (List.replicate 1 0) 0 [(unicodeToCP1252 s strict).2], 1⟩ := by
        unfold encodeCP1252
        rw [show get_errors ⟨1, 0, some (List.replicate 1 0)⟩ = 0 from by decide, hcl,
            if_pos (show cp_errors.no_error 0 = true from by decide)]
        dsimp only
        rw [if_neg (show ¬ (1 - 0 < 1) from by omega)]
        rfl
      rw [he]
      exact ⟨fun _ => rfl, fun hNE => absurd hNE
        (show ¬ cp_errors.anyMask 0 cp_errors.NotEncodable = true from by decide)⟩
  · rw [if_neg hs]
    exact ⟨fun hne => absurd rfl hne, fun _ => rfl⟩

/-! ## Arithmetic toolkit for the encode / decode round trip -/

theorem byteAt_cons_zero (a : Nat) (l : List Nat) : byteAt (a :: l) 0 = a := rfl

theorem byteAt_cons_succ (a : Nat) (l : List Nat) (i : Nat) :
    byteAt (a :: l) (i + 1) = byteAt l i := rfl

theorem writeBytes_shift (x : Nat) (l : List Nat) :
    ∀ (buf : List Nat) (i : Nat), writeBytes (x :: buf) (i + 1) l = x :: writeBytes buf i l := by
  induction l with
  | nil => intro buf i; rfl
  | cons b rest ih =>
    intro buf i
    show writeBytes (x :: buf.set i b) (i + 1 + 1) rest = x :: writeBytes (buf.set i b) (i + 1) rest
    exact ih (buf.set i b) (i + 1)

theorem writeBytes_fill : ∀ (l : List Nat), writeBytes (List.replicate l.length 0) 0 l = l := by
  intro l
  induction l with
  | nil => rfl
  | cons b rest ih =>
    show writeBytes (b :: List.replicate rest.length 0) (0 + 1) rest = b :: rest
    rw [writeBytes_shift, ih]

theorem and3_eq (y : Nat) : y &&& 3 = y % 4 := by
  have h := Nat.and_pow_two_sub_one_eq_mod y 2
  norm_num at h
  exact h

theorem and7_eq (y : Nat) : y &&& 7 = y % 8 := by
  have h := Nat.and_pow_two_sub_one_eq_mod y 3
  norm_num at h
  exact h

theorem and15_eq (y : Nat) : y &&& 15 = y % 16 := by
  have h := Nat.and_pow_two_sub_one_eq_mod y 4
  norm_num at h
  exact h

theorem and31_eq (y : Nat) : y &&& 31 = y % 32 := by
  have h := Nat.and_pow_two_sub_one_eq_mod y 5
  norm_num at h
  exact h

theorem and63_eq (y : Nat) : y &&& 63 = y % 64 := by
  have h := Nat.and_pow_two_sub_one_eq_mod y 6
  norm_num at h
  exact h

theorem and255_eq (y : Nat) : y &&& 255 = y % 256 := by
  have h := Nat.and_pow_two_sub_one_eq_mod y 8
  norm_num at h
  exact h

theorem and1023_eq (y : Nat) : y &&& 1023 = y % 1024 := by
  have h := Nat.and_pow_two_sub_one_eq_mod y 10
  norm_num at h
  exact h

theorem toByte_eq (y : Nat) : toByte y = y % 256 := rfl

/-- Masking with a block of w bits starting at bit k extracts those bits in
place. -/
theorem and_shift_mask (s k w : Nat) :
    s &&& ((2 ^ w - 1) <<< k) = s / 2 ^ k % 2 ^ w * 2 ^ k := by
  have h : s / 2 ^ k % 2 ^ w * 2 ^ k = ((s >>> k) &&& (2 ^ w - 1)) <<< k := by
    rw [Nat.and_pow_two_sub_one_eq_mod, Nat.shiftRight_eq_div_pow, Nat.shiftLeft_eq]
  rw [h]
  apply Nat.eq_of_testBit_eq
  intro i
  rw [Nat.testBit_and, Nat.testBit_shiftLeft, Nat.testBit_shiftLeft, Nat.testBit_and,
      Nat.testBit_shiftRight, Nat.testBit_two_pow_sub_one]
  by_cases hik : k ≤ i
  · rw [Nat.add_sub_cancel' hik, Bool.and_left_comm]
  · rw [decide_eq_false (by omega : ¬ i ≥ k)]
    simp

theorem shiftLeft_and_eq_zero (a b k : Nat) (h : b < 2 ^ k) : (a <<< k) &&& b = 0 := by
  apply Nat.eq_of_testBit_eq
  intro i
  rcases Nat.lt_or_ge i k with hik | hik
  · simp [Nat.testBit_and, Nat.zero_testBit, Nat.testBit_shiftLeft, Nat.not_le.mpr hik]
  · simp [Nat.testBit_and, Nat.zero_testBit,
      Nat.testBit_lt_two_pow (lt_of_lt_of_le h (Nat.pow_le_pow_right (by omega) hik))]

theorem lor_shift_add (a b k : Nat) (h : b < 2 ^ k) : (a <<< k) ||| b = a * 2 ^ k + b := by
  rw [lor_eq_add_of_and_eq_zero _ _ (shiftLeft_and_eq_zero a b k h), Nat.shiftLeft_eq]

theorem add_lor_shift (a b k : Nat) (h : b < 2 ^ k) : b ||| (a <<< k) = b + a * 2 ^ k := by
  rw [Nat.lor_comm, lor_shift_add a b k h, Nat.add_comm]

/-- Or-ing a value below 2^k with a constant whose low k bits are clear is
addition. -/
theorem lor_high_const (x c k : Nat) (hx : x < 2 ^ k) (hc : c % 2 ^ k = 0) :
    x ||| c = x + c := by
  rw [Nat.lor_comm, lor_eq_add_of_and_eq_zero _ _ (by
    have h1 : c = (c / 2 ^ k) <<< k := by
      rw [Nat.shiftLeft_eq]
      exact (Nat.div_mul_cancel (Nat.dvd_of_mod_eq_zero hc)).symm
    rw [h1]
    exact shiftLeft_and_eq_zero _ _ _ hx), Nat.add_comm]

/-! ## Round-trip evaluation of fetchUTF8 on canonically encoded bytes -/

theorem get_errors_some (n : Nat) (L : List Nat) : get_errors ⟨n, 0, some L⟩ = 0 := by
  unfold get_errors
  rw [if_neg (by omega : ¬ (0 : Nat) > n), if_neg (by simp : ¬ (some L = none))]

theorem contByte_eq (y : Nat) : (y &&& 0x3f) ||| 0x80 = y % 64 + 128 := by
  rw [and63_eq]
  exact lor_high_const _ _ 7 (by omega) (by norm_num)

theorem contByte_c0 (y : Nat) : (y % 64 + 128) &&& 0xc0 = 0x80 := by
  rw [show (0xc0 : Nat) = (2 ^ 2 - 1) <<< 6 from by decide, and_shift_mask]
  omega

theorem contByte_3f (y : Nat) : (y % 64 + 128) &&& 0x3f = y % 64 := by
  rw [and63_eq]
  omega

theorem fetchAssembleUTF8_two (rest : List Nat) (s : Nat)
    (h1 : 0x80 ≤ s) (h2 : s ≤ 0x7ff) :
    fetchAssembleUTF8 ((s >>> 6 + 0xc0) :: (s % 64 + 128) :: rest)
      (s >>> 6 + 0xc0) 2 0 = ⟨0, s, 2⟩ := by
  have hw : contWalk ((s >>> 6 + 0xc0) :: (s % 64 + 128) :: rest) 2 1 (s >>> 6) 0 =
      (2, s, 0) := by
    unfold contWalk
    rw [show (2 - 1 : Nat) = 1 from rfl]
    unfold contWalkGo
    dsimp only
    rw [byteAt_cons_succ, byteAt_cons_zero, contByte_c0,
        if_neg (show ¬ (0x80 : Nat) ≠ 0x80 from by omega), contByte_3f,
        show (s >>> 6) <<< 6 ||| s % 64 = s from by
          rw [lor_shift_add _ _ 6 (by omega)]; omega]
    rfl
  unfold fetchAssembleUTF8
  dsimp only
  rw [show (1 <<< (7 - 2) - 1 : Nat) = 31 from by decide, and31_eq,
      show (s >>> 6 + 0xc0) % 32 = s >>> 6 from by omega, hw]
  dsimp only
  rw [if_pos (show cp_errors.no_error 0 = true from by decide),
      if_pos (show (2 : Nat) > 1 from by omega),
      if_neg (show ¬ s >>> ((((2 ||| 2 <<< 2 : Nat) : Int) - 11).toNat + 7) = 0 from by
        rw [show ((((2 ||| 2 <<< 2 : Nat) : Int) - 11).toNat + 7) = 7 from by decide]
        omega)]

theorem fetchUTF8_two (rest : List Nat) (s n : Nat) (c : Bool)
    (h1 : 0x80 ≤ s) (h2 : s ≤ 0x7ff) (hn : 2 ≤ n) :
    fetchUTF8 ((s >>> 6 + 0xc0) :: (s % 64 + 128) :: rest) n c = ⟨0, s, 2⟩ := by
  unfold fetchUTF8
  rw [if_neg (by omega : ¬ n < 1)]
  dsimp only
  rw [byteAt_cons_zero,
      if_neg (show ¬ (s >>> 6 + 0xc0 + 2) % 256 ≤ 0xc1 from by omega),
      if_pos (show s >>> 6 + 0xc0 ≤ 0xef from by omega),
      if_pos (show s >>> 6 + 0xc0 ≤ 0xf7 from by omega),
      show (s >>> 6 + 0xc0) >>> 5 &&& 3 = 2 from by rw [and3_eq]; omega,
      if_neg (show ¬ (2 : Nat) > n from by omega)]
  exact fetchAssembleUTF8_two rest s h1 h2

theorem fetchAssembleUTF8_three (rest : List Nat) (s : Nat)
    (h1 : 0x800 ≤ s) (h2 : s ≤ 0xffff) :
    fetchAssembleUTF8
      ((s >>> 12 + 0xe0) :: ((s >>> 6) % 64 + 128) :: (s % 64 + 128) :: rest)
      (s >>> 12 + 0xe0) 3 0 = ⟨0, s, 3⟩ := by
  have hw : contWalk
      ((s >>> 12 + 0xe0) :: ((s >>> 6) % 64 + 128) :: (s % 64 + 128) :: rest)
      3 1 (s >>> 12) 0 = (3, s, 0) := by
    unfold contWalk
    rw [show (3 - 1 : Nat) = 2 from rfl]
    unfold contWalkGo
    dsimp only
    rw [byteAt_cons_succ, byteAt_cons_zero, contByte_c0,
        if_neg (show ¬ (0x80 : Nat) ≠ 0x80 from by omega), contByte_3f]
    unfold contWalkGo
    dsimp only
    rw [byteAt_cons_succ, byteAt_cons_succ, byteAt_cons_zero, contByte_c0,
        if_neg (show ¬ (0x80 : Nat) ≠ 0x80 from by omega), contByte_3f,
        show ((s >>> 12) <<< 6 ||| (s >>> 6) % 64) <<< 6 ||| s % 64 = s from by
          rw [lor_shift_add _ _ 6 (by omega), lor_shift_add _ _ 6 (by omega)]; omega]
    rfl
  unfold fetchAssembleUTF8
  dsimp only
  rw [show (1 <<< (7 - 3) - 1 : Nat) = 15 from by decide, and15_eq,
      show (s >>> 12 + 0xe0) % 16 = s >>> 12 from by omega, hw]
  dsimp only
  rw [if_pos (show cp_errors.no_error 0 = true from by decide),
      if_pos (show (3 : Nat) > 1 from by omega),
      if_neg (show ¬ s >>> ((((3 ||| 3 <<< 2 : Nat) : Int) - 11).toNat + 7) = 0 from by
        rw [show ((((3 ||| 3 <<< 2 : Nat) : Int) - 11).toNat + 7) = 11 from by decide]
        omega)]

theorem fetchUTF8_three (rest : List Nat) (s n : Nat) (c : Bool)
    (h1 : 0x800 ≤ s) (h2 : s ≤ 0xffff) (hn : 3 ≤ n) :
    fetchUTF8 ((s >>> 12 + 0xe0) :: ((s >>> 6) % 64 + 128) :: (s % 64 + 128) :: rest)
      n c = ⟨0, s, 3⟩ := by
  unfold fetchUTF8
  rw [if_neg (by omega : ¬ n < 1)]
  dsimp only
  rw [byteAt_cons_zero,
      if_neg (show ¬ (s >>> 12 + 0xe0 + 2) % 256 ≤ 0xc1 from by omega),
      if_pos (show s >>> 12 + 0xe0 ≤ 0xef from by omega),
      if_pos (show s >>> 12 + 0xe0 ≤ 0xf7 from by omega),
      show (s >>> 12 + 0xe0) >>> 5 &&& 3 = 3 from by rw [and3_eq]; omega,
      if_neg (show ¬ (3 : Nat) > n from by omega)]
  exact fetchAssembleUTF8_three rest s h1 h2

theorem fetchAssembleUTF8_four (rest : List Nat) (s : Nat)
    (h1 : 0x10000 ≤ s) (h2 : s ≤ 0x10ffff) :
    fetchAssembleUTF8
      ((s >>> 18 + 0xf0) :: ((s >>> 12) % 64 + 128) :: ((s >>> 6) % 64 + 128) ::
        (s % 64 + 128) :: rest)
      (s >>> 18 + 0xf0) 4 0 = ⟨0, s, 4⟩ := by
  have hw : contWalk
      ((s >>> 18 + 0xf0) :: ((s >>> 12) % 64 + 128) :: ((s >>> 6) % 64 + 128) ::
        (s % 64 + 128) :: rest)
      4 1 (s >>> 18) 0 = (4, s, 0) := by
    unfold contWalk
    rw [show (4 - 1 : Nat) = 3 from rfl]
    unfold contWalkGo
    dsimp only
    rw [byteAt_cons_succ, byteAt_cons_zero, contByte_c0,
        if_neg (show ¬ (0x80 : Nat) ≠ 0x80 from by omega), contByte_3f]
    unfold contWalkGo
    dsimp only
    rw [byteAt_cons_succ, byteAt_cons_succ, byteAt_cons_zero, contByte_c0,
        if_neg (show ¬ (0x80 : Nat) ≠ 0x80 from by omega), contByte_3f]
    unfold contWalkGo
    dsimp only
    rw [byteAt_cons_succ, byteAt_cons_succ, byteAt_cons_succ, byteAt_cons_zero, contByte_c0,
        if_neg (show ¬ (0x80 : Nat) ≠ 0x80 from by omega), contByte_3f,
        show (((s >>> 18) <<< 6 ||| (s >>> 12) % 64) <<< 6 ||| (s >>> 6) % 64) <<< 6 |||
            s % 64 = s from by
          rw [lor_shift_add _ _ 6 (by omega), lor_shift_add _ _ 6 (by omega),
              lor_shift_add _ _ 6 (by omega)]
          omega]
    rfl
  unfold fetchAssembleUTF8
  dsimp only
  rw [show (1 <<< (7 - 4) - 1 : Nat) = 7 from by decide, and7_eq,
      show (s >>> 18 + 0xf0) % 8 = s >>> 18 from by omega, hw]
  dsimp only
  rw [if_pos (show cp_errors.no_error 0 = true from by decide),
      if_pos (show (4 : Nat) > 1 from by omega),
      if_neg (show ¬ s >>> ((((4 ||| 4 <<< 2 : Nat) : Int) - 11).toNat + 7) = 0 from by
        rw [show ((((4 ||| 4 <<< 2 : Nat) : Int) - 11).toNat + 7) = 16 from by decide]
        omega)]

theorem fetchUTF8_four (rest : List Nat) (s n : Nat) (c : Bool)
    (h1 : 0x10000 ≤ s) (h2 : s ≤ 0x10ffff) (hn : 4 ≤ n) :
    fetchUTF8
      ((s >>> 18 + 0xf0) :: ((s >>> 12) % 64 + 128) :: ((s >>> 6) % 64 + 128) ::
        (s % 64 + 128) :: rest) n c = ⟨0, s, 4⟩ := by
  unfold fetchUTF8
  rw [if_neg (by omega : ¬ n < 1)]
  dsimp only
  rw [byteAt_cons_zero,
      if_neg (show ¬ (s >>> 18 + 0xf0 + 2) % 256 ≤ 0xc1 from by omega),
      if_neg (show ¬ s >>> 18 + 0xf0 ≤ 0xef from by omega),
      if_pos (show s >>> 18 + 0xf0 ≤ 0xf7 from by omega),
      if_pos (show s >>> 18 + 0xf0 ≤ 0xf7 from by omega),
      if_neg (show ¬ (4 : Nat) > n from by omega)]
  exact fetchAssembleUTF8_four rest s h1 h2

theorem fetchUTF8_ascii (rest : List Nat) (s n : Nat) (c : Bool)
    (hs : s ≤ 0x7f) (hn : 1 ≤ n) :
    fetchUTF8 (s :: rest) n c = ⟨0, s, 1⟩ := by
  unfold fetchUTF8
  rw [if_neg (by omega : ¬ n < 1)]
  dsimp only
  rw [byteAt_cons_zero,
      if_pos (show (s + 2) % 256 ≤ 0xc1 from by omega),
      if_neg (show ¬ s > 0x7f from by omega)]

theorem bitsIn_and_mask (y M : Nat) : BitsIn (y &&& M) M := by
  unfold BitsIn
  rw [Nat.and_assoc, Nat.and_self]

/-- The scalar warnings a clean decode of a valid non-surrogate scalar can
carry. -/
def RoundWarnBits : Nat :=
  cp_errors.NonCharacter ||| cp_errors.Supplementary ||| cp_errors.SurrogatePair

theorem decodeScalarUTF8_regular (buf : List Nat) (limit : Nat) (cesu : Bool)
    (s k : Nat) (h1 : 1 ≤ s) (h2 : s ≤ 0x10ffff) (hsur : ¬ (0xd800 ≤ s ∧ s ≤ 0xdfff)) :
    BitsIn (decodeScalarUTF8 buf limit cesu 0 s k).1 RoundWarnBits ∧
    (decodeScalarUTF8 buf limit cesu 0 s k).2.1 = s ∧
    (decodeScalarUTF8 buf limit cesu 0 s k).2.2 = k := by
  unfold decodeScalarUTF8
  by_cases hd : s ≥ 0xd800
  · rw [if_pos hd, if_neg (by omega : ¬ s > 0x10ffff)]
    by_cases hf : s ≥ 0xfdd0
    · rw [if_pos hf]
      dsimp only
      exact ⟨by split_ifs <;> decide, rfl, rfl⟩
    · rw [if_neg hf, if_neg (show ¬ s &&& 0xfffff800 = 0xd800 from by
        rw [show (0xfffff800 : Nat) = (2 ^ 21 - 1) <<< 11 from by decide, and_shift_mask]
        omega)]
      exact ⟨show BitsIn 0 RoundWarnBits from by decide, rfl, rfl⟩
  · rw [if_neg hd, if_neg (by rintro ⟨h0, -⟩; omega)]
    exact ⟨show BitsIn 0 RoundWarnBits from by decide, rfl, rfl⟩

/-- The common shape of a clean decodeUTF8 run: a successful fetch followed
by a scalar step confined to round-trip warnings. -/
theorem decodeUTF8_round (L : List Nat) (n : Nat) (cesu java strict coalesce : Bool)
    (s k u b : Nat)
    (hf : fetchUTF8 L n (coalesce && !strict) = ⟨0, s, k⟩)
    (hstep1 : BitsIn (decodeScalarUTF8 L n cesu 0 s k).1 RoundWarnBits)
    (hstep2 : (decodeScalarUTF8 L n cesu 0 s k).2.1 = u)
    (hstep3 : (decodeScalarUTF8 L n cesu 0 s k).2.2 = b) :
    (decodeUTF8 ⟨n, 0, some L⟩ cesu java strict coalesce).unicode = u ∧
    (decodeUTF8 ⟨n, 0, some L⟩ cesu java strict coalesce).bytes = b ∧
    cp_errors.isError (decodeUTF8 ⟨n, 0, some L⟩ cesu java strict coalesce).errors = false := by
  unfold decodeUTF8
  rw [get_errors_some, if_pos (show cp_errors.no_error 0 = true from by decide)]
  dsimp only
  simp only [Option.getD_some, List.drop_zero, Nat.sub_zero]
  rw [hf]
  dsimp only
  rw [show (0 ||| 0 : Nat) = 0 from rfl,
      if_pos (show cp_errors.no_error 0 = true from by decide)]
  have hirr : cp_errors.anyMask (decodeScalarUTF8 L n cesu 0 s k).1
      ((if java = true then 0 else cp_errors.ModifiedUTF8) |||
        (cp_errors.OverlongUTF8 ||| cp_errors.ExtendedUTF8 ||| cp_errors.ExtendedUCS4 |||
          cp_errors.HighSurrogate ||| cp_errors.LowSurrogate)) = false :=
    bitsIn_anyMask_false hstep1 (by cases java <;> decide)
  rw [if_neg (show ¬ cp_errors.anyMask (decodeScalarUTF8 L n cesu 0 s k).1 _ = true from by
    rw [hirr]; decide)]
  refine ⟨hstep2, hstep3, ?_⟩
  have hz := bitsIn_and_eq_zero hstep1
    (show RoundWarnBits &&& cp_errors.ErrorsMask = 0 from by decide)
  unfold cp_errors.isError cp_errors.anyMask
  simp [hz]

/-! ## Canonical UTF8 encodings of the valid scalar ranges -/

theorem writeBytes_fill1 (a : Nat) :
    writeBytes (List.replicate 1 0) 0 [a] = [a] := writeBytes_fill [a]

theorem writeBytes_fill2 (a b : Nat) :
    writeBytes (List.replicate 2 0) 0 [a, b] = [a, b] := writeBytes_fill [a, b]

theorem writeBytes_fill3 (a b c : Nat) :
    writeBytes (List.replicate 3 0) 0 [a, b, c] = [a, b, c] := writeBytes_fill [a, b, c]

theorem writeBytes_fill4 (a b c d : Nat) :
    writeBytes (List.replicate 4 0) 0 [a, b, c, d] = [a, b, c, d] :=
  writeBytes_fill [a, b, c, d]

theorem writeBytes_fill6 (a b c d e f : Nat) :
    writeBytes (List.replicate 6 0) 0 [a, b, c, d, e, f] = [a, b, c, d, e, f] :=
  writeBytes_fill [a, b, c, d, e, f]

theorem writeBytes_fill8 (a b c d e f g h : Nat) :
    writeBytes (List.replicate 8 0) 0 [a, b, c, d, e, f, g, h] =
      [a, b, c, d, e, f, g, h] :=
  writeBytes_fill [a, b, c, d, e, f, g, h]

theorem encodeUTF8_one_eq (s : Nat) (cesu java : Bool) (h1 : 1 ≤ s) (h2 : s ≤ 0x7f) :
    encodeUTF8 ⟨1, 0, some (List.replicate 1 0)⟩ s cesu java = ⟨0, [s], 1⟩ := by
  have hcl : classifyUTF8 0 s cesu java = 0 := by
    unfold classifyUTF8
    rw [if_neg (by omega), if_neg (by omega : ¬ s ≥ 0xd800)]
  unfold encodeUTF8
  rw [show get_errors ⟨1, 0, some (List.replicate 1 0)⟩ = 0 from by decide, hcl,
      if_pos (show cp_errors.no_error 0 = true from by decide)]
  dsimp only
  rw [if_pos (by omega : s ≤ 0x7f),
      if_neg (show ¬ cp_errors.anyMask 0 cp_errors.ModifiedUTF8 = true from by decide),
      if_neg (show ¬ (1 - 0 < 1) from by omega),
      show toByte s = s from by rw [toByte_eq]; omega]
  rfl

theorem encodeUTF8_two_eq (s : Nat) (cesu java : Bool) (h1 : 0x80 ≤ s) (h2 : s ≤ 0x7ff) :
    encodeUTF8 ⟨2, 0, some (List.replicate 2 0)⟩ s cesu java =
      ⟨0, [s >>> 6 + 0xc0, s % 64 + 128], 2⟩ := by
  have hcl : classifyUTF8 0 s cesu java = 0 := by
    unfold classifyUTF8
    rw [if_neg (by omega), if_neg (by omega : ¬ s ≥ 0xd800)]
  unfold encodeUTF8
  rw [show get_errors ⟨2, 0, some (List.replicate 2 0)⟩ = 0 from by decide, hcl,
      if_pos (show cp_errors.no_error 0 = true from by decide)]
  dsimp only
  rw [if_neg (by omega : ¬ s ≤ 0x7f), if_pos (by omega : s ≤ 0x7ff),
      if_neg (show ¬ (2 - 0 < 2) from by omega),
      show toByte (s >>> 6) ||| 0xc0 = s >>> 6 + 0xc0 from by
        rw [toByte_eq, show s >>> 6 % 256 = s >>> 6 from by omega]
        exact lor_high_const _ _ 6 (by omega) (by norm_num),
      show (toByte s &&& 0x3f) ||| 0x80 = s % 64 + 128 from by
        rw [toByte_eq, and63_eq, show s % 256 % 64 = s % 64 from by omega]
        exact lor_high_const _ _ 7 (by omega) (by norm_num)]
  rfl

theorem encodeUTF8_three_eq (s : Nat) (cesu java : Bool)
    (h1 : 0x800 ≤ s) (h2 : s ≤ 0xffff) :
    encodeUTF8 ⟨3, 0, some (List.replicate 3 0)⟩ s cesu java =
      ⟨classifyUTF8 0 s cesu java,
        [s >>> 12 + 0xe0, (s >>> 6) % 64 + 128, s % 64 + 128], 3⟩ := by
  unfold encodeUTF8
  rw [show get_errors ⟨3, 0, some (List.replicate 3 0)⟩ = 0 from by decide,
      if_pos (classifyUTF8_no_error s cesu java)]
  dsimp only
  rw [if_neg (by omega : ¬ s ≤ 0x7f), if_neg (by omega : ¬ s ≤ 0x7ff),
      if_pos (by omega : s ≤ 0xffff),
      if_neg (show ¬ (3 - 0 < 3) from by omega),
      show toByte (s >>> 12) ||| 0xe0 = s >>> 12 + 0xe0 from by
        rw [toByte_eq, show s >>> 12 % 256 = s >>> 12 from by omega]
        exact lor_high_const _ _ 5 (by omega) (by norm_num),
      show (toByte (s >>> 6) &&& 0x3f) ||| 0x80 = (s >>> 6) % 64 + 128 from by
        rw [toByte_eq, and63_eq, show s >>> 6 % 256 % 64 = s >>> 6 % 64 from by omega]
        exact lor_high_const _ _ 7 (by omega) (by norm_num),
      show (toByte s &&& 0x3f) ||| 0x80 = s % 64 + 128 from by
        rw [toByte_eq, and63_eq, show s % 256 % 64 = s % 64 from by omega]
        exact lor_high_const _ _ 7 (by omega) (by norm_num)]
  rfl

theorem encodeUTF8_four_eq (s : Nat) (java : Bool)
    (h1 : 0x10000 ≤ s) (h2 : s ≤ 0x10ffff) :
    encodeUTF8 ⟨4, 0, some (List.replicate 4 0)⟩ s false java =
      ⟨classifyUTF8 0 s false java,
        [s >>> 18 + 0xf0, (s >>> 12) % 64 + 128, (s >>> 6) % 64 + 128, s % 64 + 128],
        4⟩ := by
  unfold encodeUTF8
  rw [show get_errors ⟨4, 0, some (List.replicate 4 0)⟩ = 0 from by decide,
      if_pos (classifyUTF8_no_error s false java)]
  dsimp only
  rw [if_neg (by omega : ¬ s ≤ 0x7f), if_neg (by omega : ¬ s ≤ 0x7ff),
      if_neg (by omega : ¬ s ≤ 0xffff),
      if_neg (show ¬ (s ≤ 0x10ffff ∧ cp_errors.anyMask (classifyUTF8 0 s false java)
          cp_errors.SurrogatePair = true) by
        rintro ⟨-, hsp⟩
        rw [classifyUTF8_surpair_supp s false java (by omega) h2] at hsp
        exact absurd hsp (by decide)),
      if_pos (by omega : s ≤ 0x1fffff),
      if_neg (show ¬ (4 - 0 < 4) from by omega),
      show toByte (s >>> 18) ||| 0xf0 = s >>> 18 + 0xf0 from by
        rw [toByte_eq, show s >>> 18 % 256 = s >>> 18 from by omega]
        exact lor_high_const _ _ 4 (by omega) (by norm_num),
      show (toByte (s >>> 12) &&& 0x3f) ||| 0x80 = (s >>> 12) % 64 + 128 from by
        rw [toByte_eq, and63_eq, show s >>> 12 % 256 % 64 = s >>> 12 % 64 from by omega]
        exact lor_high_const _ _ 7 (by omega) (by norm_num),
      show (toByte (s >>> 6) &&& 0x3f) ||| 0x80 = (s >>> 6) % 64 + 128 from by
        rw [toByte_eq, and63_eq, show s >>> 6 % 256 % 64 = s >>> 6 % 64 from by omega]
        exact lor_high_const _ _ 7 (by omega) (by norm_num),
      show (toByte s &&& 0x3f) ||| 0x80 = s % 64 + 128 from by
        rw [toByte_eq, and63_eq, show s % 256 % 64 = s % 64 from by omega]
        exact lor_high_const _ _ 7 (by omega) (by norm_num)]
  rfl

/-! ## The CESU-8 surrogate pair round trip -/

theorem high_low_and_zero (a b k : Nat) (ha : a % 2 ^ k = 0) (hb : b < 2 ^ k) :
    a &&& b = 0 := by
  rw [show a = (a / 2 ^ k) <<< k from by
    rw [Nat.shiftLeft_eq]
    exact (Nat.div_mul_cancel (Nat.dvd_of_mod_eq_zero ha)).symm]
  exact shiftLeft_and_eq_zero _ _ _ hb

/-- The packed surrogate word of the CESU/UTF-16 encoders: the masked
rotation equals high surrogate plus low surrogate shifted 16. -/
theorem surrogate_word_eq (s : Nat) (h1 : 0x10000 ≤ s) (h2 : s ≤ 0x10ffff) :
    ((((s - 0x10000) >>> 10) ||| ((s - 0x10000) <<< 16)) &&& 0x03ff03ff) ||| 0xdc00d800 =
      (0xd800 + (s - 0x10000) >>> 10) + (0xdc00 + (s - 0x10000) % 1024) * 65536 := by
  have hz : ((((s - 0x10000) >>> 10) ||| ((s - 0x10000) <<< 16)) &&& 0x03ff03ff) &&&
      0xdc00d800 = 0 :=
    bitsIn_and_eq_zero (bitsIn_and_mask _ _) (by decide)
  have e1 : ((s - 0x10000) >>> 10) ||| ((s - 0x10000) <<< 16) =
      (s - 0x10000) >>> 10 + (s - 0x10000) * 65536 := by
    have h := add_lor_shift (s - 0x10000) ((s - 0x10000) >>> 10) 16 (by omega)
    norm_num at h
    exact h
  have hmask : ((((s - 0x10000) >>> 10) ||| ((s - 0x10000) <<< 16)) &&& 0x03ff03ff) =
      (s - 0x10000) >>> 10 + (s - 0x10000) % 1024 * 65536 := by
    rw [e1, show (0x03ff03ff : Nat) = 0x3ff ||| 0x03ff0000 from by decide,
        Nat.and_or_distrib_left, and1023_eq,
        show (0x03ff0000 : Nat) = (2 ^ 10 - 1) <<< 16 from by decide, and_shift_mask]
    rw [lor_eq_add_of_and_eq_zero _ _ (by
      rw [Nat.and_comm]
      exact high_low_and_zero _ _ 16 (by omega) (by omega)),
      show (2 : Nat) ^ 16 = 65536 from by norm_num,
      show (2 : Nat) ^ 10 = 1024 from by norm_num]
    simp only [Nat.shiftRight_eq_div_pow,
      show (2 : Nat) ^ 6 = 64 from by norm_num,
      show (2 : Nat) ^ 10 = 1024 from by norm_num,
      show (2 : Nat) ^ 12 = 4096 from by norm_num,
      show (2 : Nat) ^ 16 = 65536 from by norm_num,
      show (2 : Nat) ^ 22 = 4194304 from by norm_num,
      show (2 : Nat) ^ 28 = 268435456 from by norm_num]
    have hA : ((s - 0x10000) / 1024 + (s - 0x10000) * 65536) % 1024 =
        (s - 0x10000) / 1024 := by omega
    have hB : ((s - 0x10000) / 1024 + (s - 0x10000) * 65536) / 65536 = s - 0x10000 := by
      omega
    rw [hA, hB]
  rw [lor_eq_add_of_and_eq_zero _ _ hz, hmask]
  omega

theorem encodeUTF8_cesu_eq (s : Nat) (java : Bool)
    (h1 : 0x10000 ≤ s) (h2 : s ≤ 0x10ffff) :
    encodeUTF8 ⟨6, 0, some (List.replicate 6 0)⟩ s true java =
      ⟨classifyUTF8 0 s true java,
        [(0xd800 + (s - 0x10000) >>> 10) >>> 12 + 0xe0,
         ((0xd800 + (s - 0x10000) >>> 10) >>> 6) % 64 + 128,
         (0xd800 + (s - 0x10000) >>> 10) % 64 + 128,
         (0xdc00 + (s - 0x10000) % 1024) >>> 12 + 0xe0,
         ((0xdc00 + (s - 0x10000) % 1024) >>> 6) % 64 + 128,
         (0xdc00 + (s - 0x10000) % 1024) % 64 + 128], 6⟩ := by
  unfold encodeUTF8
  rw [show get_errors ⟨6, 0, some (List.replicate 6 0)⟩ = 0 from by decide,
      if_pos (classifyUTF8_no_error s true java)]
  dsimp only
  rw [if_neg (by omega : ¬ s ≤ 0x7f), if_neg (by omega : ¬ s ≤ 0x7ff),
      if_neg (by omega : ¬ s ≤ 0xffff),
      if_pos (show s ≤ 0x10ffff ∧ cp_errors.anyMask (classifyUTF8 0 s true java)
          cp_errors.SurrogatePair = true from
        ⟨h2, by rw [classifyUTF8_surpair_supp s true java (by omega) h2]⟩),
      if_neg (show ¬ (6 - 0 < 6) from by omega)]
  rw [surrogate_word_eq s h1 h2]
  rw [show (toByte (((0xd800 + (s - 0x10000) >>> 10) +
          (0xdc00 + (s - 0x10000) % 1024) * 65536) >>> 12) &&& 0x0f) ||| 0xe0 =
        (0xd800 + (s - 0x10000) >>> 10) >>> 12 + 0xe0 from by
      rw [toByte_eq, and15_eq, lor_high_const _ _ 5 (by omega) (by norm_num)]
      simp only [Nat.shiftRight_eq_div_pow,
      show (2 : Nat) ^ 6 = 64 from by norm_num,
      show (2 : Nat) ^ 10 = 1024 from by norm_num,
      show (2 : Nat) ^ 12 = 4096 from by norm_num,
      show (2 : Nat) ^ 16 = 65536 from by norm_num,
      show (2 : Nat) ^ 22 = 4194304 from by norm_num,
      show (2 : Nat) ^ 28 = 268435456 from by norm_num]
      have hb : (0xd800 + (s - 0x10000) / 1024 + (0xdc00 + (s - 0x10000) % 1024) * 65536) /
          4096 = 13 + (0xdc00 + (s - 0x10000) % 1024) * 16 := by omega
      have hb2 : (0xd800 + (s - 0x10000) / 1024) / 4096 = 13 := by omega
      rw [hb, hb2]
      omega,
    show (toByte (((0xd800 + (s - 0x10000) >>> 10) +
          (0xdc00 + (s - 0x10000) % 1024) * 65536) >>> 6) &&& 0x3f) ||| 0x80 =
        ((0xd800 + (s - 0x10000) >>> 10) >>> 6) % 64 + 128 from by
      rw [toByte_eq, and63_eq, lor_high_const _ _ 7 (by omega) (by norm_num)]
      simp only [Nat.shiftRight_eq_div_pow,
      show (2 : Nat) ^ 6 = 64 from by norm_num,
      show (2 : Nat) ^ 10 = 1024 from by norm_num,
      show (2 : Nat) ^ 12 = 4096 from by norm_num,
      show (2 : Nat) ^ 16 = 65536 from by norm_num,
      show (2 : Nat) ^ 22 = 4194304 from by norm_num,
      show (2 : Nat) ^ 28 = 268435456 from by norm_num]
      have hb : (0xd800 + (s - 0x10000) / 1024 + (0xdc00 + (s - 0x10000) % 1024) * 65536) /
          64 = (0xd800 + (s - 0x10000) / 1024) / 64 +
            (0xdc00 + (s - 0x10000) % 1024) * 1024 := by omega
      rw [hb]
      omega,
    show (toByte ((0xd800 + (s - 0x10000) >>> 10) +
          (0xdc00 + (s - 0x10000) % 1024) * 65536) &&& 0x3f) ||| 0x80 =
        (0xd800 + (s - 0x10000) >>> 10) % 64 + 128 from by
      rw [toByte_eq, and63_eq, lor_high_const _ _ 7 (by omega) (by norm_num)]
      simp only [Nat.shiftRight_eq_div_pow,
      show (2 : Nat) ^ 6 = 64 from by norm_num,
      show (2 : Nat) ^ 10 = 1024 from by norm_num,
      show (2 : Nat) ^ 12 = 4096 from by norm_num,
      show (2 : Nat) ^ 16 = 65536 from by norm_num,
      show (2 : Nat) ^ 22 = 4194304 from by norm_num,
      show (2 : Nat) ^ 28 = 268435456 from by norm_num]
      have hb : (0xd800 + (s - 0x10000) / 1024 + (0xdc00 + (s - 0x10000) % 1024) * 65536) %
          256 = (0xd800 + (s - 0x10000) / 1024) % 256 := by omega
      rw [hb]
      omega,
    show (toByte (((0xd800 + (s - 0x10000) >>> 10) +
          (0xdc00 + (s - 0x10000) % 1024) * 65536) >>> 28) &&& 0x0f) ||| 0xe0 =
        (0xdc00 + (s - 0x10000) % 1024) >>> 12 + 0xe0 from by
      rw [toByte_eq, and15_eq, lor_high_const _ _ 5 (by omega) (by norm_num)]
      simp only [Nat.shiftRight_eq_div_pow,
      show (2 : Nat) ^ 6 = 64 from by norm_num,
      show (2 : Nat) ^ 10 = 1024 from by norm_num,
      show (2 : Nat) ^ 12 = 4096 from by norm_num,
      show (2 : Nat) ^ 16 = 65536 from by norm_num,
      show (2 : Nat) ^ 22 = 4194304 from by norm_num,
      show (2 : Nat) ^ 28 = 268435456 from by norm_num]
      have hb : (0xd800 + (s - 0x10000) / 1024 + (0xdc00 + (s - 0x10000) % 1024) * 65536) /
          268435456 = (0xdc00 + (s - 0x10000) % 1024) / 4096 := by omega
      have hb2 : (0xdc00 + (s - 0x10000) % 1024) / 4096 = 13 := by omega
      rw [hb, hb2],
    show (toByte (((0xd800 + (s - 0x10000) >>> 10) +
          (0xdc00 + (s - 0x10000) % 1024) * 65536) >>> 22) &&& 0x3f) ||| 0x80 =
        ((0xdc00 + (s - 0x10000) % 1024) >>> 6) % 64 + 128 from by
      rw [toByte_eq, and63_eq, lor_high_const _ _ 7 (by omega) (by norm_num)]
      simp only [Nat.shiftRight_eq_div_pow,
      show (2 : Nat) ^ 6 = 64 from by norm_num,
      show (2 : Nat) ^ 10 = 1024 from by norm_num,
      show (2 : Nat) ^ 12 = 4096 from by norm_num,
      show (2 : Nat) ^ 16 = 65536 from by norm_num,
      show (2 : Nat) ^ 22 = 4194304 from by norm_num,
      show (2 : Nat) ^ 28 = 268435456 from by norm_num]
      have hb : (0xd800 + (s - 0x10000) / 1024 + (0xdc00 + (s - 0x10000) % 1024) * 65536) /
          4194304 = (0xdc00 + (s - 0x10000) % 1024) / 64 := by omega
      rw [hb]
      omega,
    show (toByte (((0xd800 + (s - 0x10000) >>> 10) +
          (0xdc00 + (s - 0x10000) % 1024) * 65536) >>> 16) &&& 0x3f) ||| 0x80 =
        (0xdc00 + (s - 0x10000) % 1024) % 64 + 128 from by
      rw [toByte_eq, and63_eq, lor_high_const _ _ 7 (by omega) (by norm_num)]
      simp only [Nat.shiftRight_eq_div_pow,
      show (2 : Nat) ^ 6 = 64 from by norm_num,
      show (2 : Nat) ^ 10 = 1024 from by norm_num,
      show (2 : Nat) ^ 12 = 4096 from by norm_num,
      show (2 : Nat) ^ 16 = 65536 from by norm_num,
      show (2 : Nat) ^ 22 = 4194304 from by norm_num,
      show (2 : Nat) ^ 28 = 268435456 from by norm_num]
      have hb : (0xd800 + (s - 0x10000) / 1024 + (0xdc00 + (s - 0x10000) % 1024) * 65536) /
          65536 = 0xdc00 + (s - 0x10000) % 1024 := by omega
      rw [hb]
      omega]
  simp only [Option.getD_some]
  rw [writeBytes_fill6]

theorem decodeScalarUTF8_cesu_pair (H L : Nat) (hH1 : 0xd800 ≤ H) (hH2 : H ≤ 0xdbff)
    (hL1 : 0xdc00 ≤ L) (hL2 : L ≤ 0xdfff) :
    BitsIn (decodeScalarUTF8
        [H >>> 12 + 0xe0, (H >>> 6) % 64 + 128, H % 64 + 128,
         L >>> 12 + 0xe0, (L >>> 6) % 64 + 128, L % 64 + 128]
        6 true 0 H 3).1 RoundWarnBits ∧
    (decodeScalarUTF8
        [H >>> 12 + 0xe0, (H >>> 6) % 64 + 128, H % 64 + 128,
         L >>> 12 + 0xe0, (L >>> 6) % 64 + 128, L % 64 + 128]
        6 true 0 H 3).2.1 = (H &&& 0x3ff) <<< 10 + (L &&& 0x3ff) + 0x10000 ∧
    (decodeScalarUTF8
        [H >>> 12 + 0xe0, (H >>> 6) % 64 + 128, H % 64 + 128,
         L >>> 12 + 0xe0, (L >>> 6) % 64 + 128, L % 64 + 128]
        6 true 0 H 3).2.2 = 6 := by
  have hfetch2 : fetchUTF8 [L >>> 12 + 0xe0, (L >>> 6) % 64 + 128, L % 64 + 128] 3 false =
      ⟨0, L, 3⟩ :=
    fetchUTF8_three [] L 3 false (by omega) (by omega) (by omega)
  unfold decodeScalarUTF8
  rw [if_pos (by omega : H ≥ 0xd800),
      if_neg (by omega : ¬ H > 0x10ffff),
      if_neg (by omega : ¬ H ≥ 0xfdd0),
      if_pos (show H &&& 0xfffff800 = 0xd800 from by
        rw [show (0xfffff800 : Nat) = (2 ^ 21 - 1) <<< 11 from by decide, and_shift_mask]
        omega),
      if_neg (show ¬ H &&& 0x400 ≠ 0 from by
        rw [show (0x400 : Nat) = (2 ^ 1 - 1) <<< 10 from by decide, and_shift_mask]
        omega)]
  dsimp only
  rw [if_pos rfl]
  rw [show List.drop 3
        [H >>> 12 + 0xe0, (H >>> 6) % 64 + 128, H % 64 + 128,
         L >>> 12 + 0xe0, (L >>> 6) % 64 + 128, L % 64 + 128] =
        [L >>> 12 + 0xe0, (L >>> 6) % 64 + 128, L % 64 + 128] from rfl,
      show (6 - 3 : Nat) = 3 from rfl, hfetch2]
  dsimp only
  rw [if_neg (show ¬ cp_errors.anyMask 0
        (cp_errors.ReadTruncated ||| cp_errors.ReadExhausted) = true from by decide),
      if_pos (show cp_errors.no_error 0 = true from by decide),
      if_pos (show L &&& 0xfffffc00 = 0xdc00 from by
        rw [show (0xfffffc00 : Nat) = (2 ^ 22 - 1) <<< 10 from by decide, and_shift_mask]
        omega)]
  dsimp only
  rw [show ((0 ||| cp_errors.HighSurrogate) ||| (0 : Nat)) ^^^
        (cp_errors.SurrogatePair ||| cp_errors.Supplementary |||
          cp_errors.HighSurrogate) =
        cp_errors.SurrogatePair ||| cp_errors.Supplementary from by decide]
  exact ⟨by split_ifs <;> decide, rfl, rfl⟩

theorem decodeScalarUTF8_cesu (s : Nat) (h1 : 0x10000 ≤ s) (h2 : s ≤ 0x10ffff) :
    BitsIn (decodeScalarUTF8
        [(0xd800 + (s - 0x10000) >>> 10) >>> 12 + 0xe0,
         ((0xd800 + (s - 0x10000) >>> 10) >>> 6) % 64 + 128,
         (0xd800 + (s - 0x10000) >>> 10) % 64 + 128,
         (0xdc00 + (s - 0x10000) % 1024) >>> 12 + 0xe0,
         ((0xdc00 + (s - 0x10000) % 1024) >>> 6) % 64 + 128,
         (0xdc00 + (s - 0x10000) % 1024) % 64 + 128]
        6 true 0 (0xd800 + (s - 0x10000) >>> 10) 3).1 RoundWarnBits ∧
    (decodeScalarUTF8
        [(0xd800 + (s - 0x10000) >>> 10) >>> 12 + 0xe0,
         ((0xd800 + (s - 0x10000) >>> 10) >>> 6) % 64 + 128,
         (0xd800 + (s - 0x10000) >>> 10) % 64 + 128,
         (0xdc00 + (s - 0x10000) % 1024) >>> 12 + 0xe0,
         ((0xdc00 + (s - 0x10000) % 1024) >>> 6) % 64 + 128,
         (0xdc00 + (s - 0x10000) % 1024) % 64 + 128]
        6 true 0 (0xd800 + (s - 0x10000) >>> 10) 3).2.1 = s ∧
    (decodeScalarUTF8
        [(0xd800 + (s - 0x10000) >>> 10) >>> 12 + 0xe0,
         ((0xd800 + (s - 0x10000) >>> 10) >>> 6) % 64 + 128,
         (0xd800 + (s - 0x10000) >>> 10) % 64 + 128,
         (0xdc00 + (s - 0x10000) % 1024) >>> 12 + 0xe0,
         ((0xdc00 + (s - 0x10000) % 1024) >>> 6) % 64 + 128,
         (0xdc00 + (s - 0x10000) % 1024) % 64 + 128]
        6 true 0 (0xd800 + (s - 0x10000) >>> 10) 3).2.2 = 6 := by
  have h := decodeScalarUTF8_cesu_pair (0xd800 + (s - 0x10000) >>> 10)
      (0xdc00 + (s - 0x10000) % 1024)
      (by omega)
      (by simp only [Nat.shiftRight_eq_div_pow,
            show (2:Nat) ^ 10 = 1024 from by norm_num]; omega)
      (by omega) (by omega)
  refine ⟨h.1, ?_, h.2.2⟩
  have e1 : (0xd800 + (s - 0x10000) >>> 10) &&& 0x3ff = (s - 0x10000) >>> 10 := by
    rw [and1023_eq]
    simp only [Nat.shiftRight_eq_div_pow, show (2:Nat) ^ 10 = 1024 from by norm_num]
    omega
  have e2 : (0xdc00 + (s - 0x10000) % 1024) &&& 0x3ff = (s - 0x10000) % 1024 := by
    rw [and1023_eq]
    omega
  rw [h.2.1, e1, e2, Nat.shiftLeft_eq]
  simp only [Nat.shiftRight_eq_div_pow, show (2:Nat) ^ 10 = 1024 from by norm_num]
  omega

/-! ## Round-trip support for every handler family (claim C6) -/

theorem xor_eq_lor_of_and_eq_zero (a b : Nat) (h : a &&& b = 0) : a ^^^ b = a ||| b := by
  apply Nat.eq_of_testBit_eq
  intro i
  have hz := congrArg (Nat.testBit · i) h
  simp only [Nat.testBit_and, Nat.zero_testBit, Bool.and_eq_false_iff] at hz
  simp only [Nat.testBit_xor, Nat.testBit_or]
  rcases hz with h1 | h1 <;> simp [h1]

theorem and127_eq (y : Nat) : y &&& 127 = y % 128 := by
  have h := Nat.and_pow_two_sub_one_eq_mod y 7
  norm_num at h
  exact h

theorem get_errors_aligned_some (n m : Nat) (L : List Nat) (h : n &&& m = 0) :
    get_errors_aligned ⟨n, 0, some L⟩ m = 0 := by
  unfold get_errors_aligned
  dsimp only
  rw [get_errors_some,
      if_neg (show ¬ ((0 : Nat) &&& m ≠ 0) from by rw [Nat.zero_and]; omega),
      if_neg (show ¬ (n &&& m ≠ 0) from by rw [h]; omega)]

/-- Reassembling the two bytes of a 16-bit word. -/
theorem bytes16_eq (s : Nat) (h : s < 65536) :
    toByte (s >>> 8) <<< 8 + toByte s = s := by
  unfold toByte
  simp only [Nat.shiftLeft_eq, Nat.shiftRight_eq_div_pow,
    show (2:Nat) ^ 8 = 256 from by norm_num]
  omega

/-- Reassembling the four bytes of a 32-bit word. -/
theorem bytes32_eq (s : Nat) (h : s < 4294967296) :
    ((toByte (s >>> 24) <<< 8 + toByte (s >>> 16)) <<< 8 + toByte (s >>> 8)) <<< 8 +
      toByte s = s := by
  unfold toByte
  simp only [Nat.shiftLeft_eq, Nat.shiftRight_eq_div_pow,
    show (2:Nat) ^ 8 = 256 from by norm_num,
    show (2:Nat) ^ 16 = 65536 from by norm_num,
    show (2:Nat) ^ 24 = 16777216 from by norm_num]
  omega

/-- The low 16-bit half of a packed surrogate word, read back bytewise. -/
theorem word_split_low (H L : Nat) (hH : H < 65536) :
    toByte ((H + L * 65536) >>> 8) <<< 8 + toByte (H + L * 65536) = H := by
  unfold toByte
  simp only [Nat.shiftLeft_eq, Nat.shiftRight_eq_div_pow,
    show (2:Nat) ^ 8 = 256 from by norm_num]
  omega

/-- The high 16-bit half of a packed surrogate word, read back bytewise. -/
theorem word_split_high (H L : Nat) (hH : H < 65536) (hL : L < 65536) :
    toByte ((H + L * 65536) >>> 24) <<< 8 + toByte ((H + L * 65536) >>> 16) = L := by
  unfold toByte
  simp only [Nat.shiftLeft_eq, Nat.shiftRight_eq_div_pow,
    show (2:Nat) ^ 8 = 256 from by norm_num,
    show (2:Nat) ^ 16 = 65536 from by norm_num,
    show (2:Nat) ^ 24 = 16777216 from by norm_num]
  omega

/-- The low half through the zero-padded UTF-32 byte layout. -/
theorem pair_low32 (H L : Nat) (hH : H < 65536) :
    (((0 : Nat) <<< 8 + 0) <<< 8 + toByte ((H + L * 65536) >>> 8)) <<< 8 +
      toByte (H + L * 65536) = H := by
  unfold toByte
  simp only [Nat.shiftLeft_eq, Nat.shiftRight_eq_div_pow,
    show (2:Nat) ^ 8 = 256 from by norm_num]
  omega

/-- The high half through the zero-padded UTF-32 byte layout. -/
theorem pair_high32 (H L : Nat) (hH : H < 65536) (hL : L < 65536) :
    (((0 : Nat) <<< 8 + 0) <<< 8 + toByte ((H + L * 65536) >>> 24)) <<< 8 +
      toByte ((H + L * 65536) >>> 16) = L := by
  unfold toByte
  simp only [Nat.shiftLeft_eq, Nat.shiftRight_eq_div_pow,
    show (2:Nat) ^ 8 = 256 from by norm_num,
    show (2:Nat) ^ 16 = 65536 from by norm_num,
    show (2:Nat) ^ 24 = 16777216 from by norm_num]
  omega

/-- word16 of a buffer at index 0 and 2, little and big endian, with the
bytes as opaque list elements (so the kernel never unfolds byteAt on large
payloads). -/
theorem word16_le_zero (x y : Nat) (r : List Nat) :
    word16 (x :: y :: r) true 0 = y <<< 8 + x := rfl

theorem word16_be_zero (x y : Nat) (r : List Nat) :
    word16 (x :: y :: r) false 0 = x <<< 8 + y := rfl

theorem word16_le_two (a b x y : Nat) (r : List Nat) :
    word16 (a :: b :: x :: y :: r) true 2 = y <<< 8 + x := rfl

theorem word16_be_two (a b x y : Nat) (r : List Nat) :
    word16 (a :: b :: x :: y :: r) false 2 = x <<< 8 + y := rfl

/-- word32 of a buffer at index 0 and 4, little and big endian, with the
bytes as opaque list elements. -/
theorem word32_le_zero (b0 b1 b2 b3 : Nat) (r : List Nat) :
    word32 (b0 :: b1 :: b2 :: b3 :: r) true 0 =
      ((b3 <<< 8 + b2) <<< 8 + b1) <<< 8 + b0 := rfl

theorem word32_be_zero (b0 b1 b2 b3 : Nat) (r : List Nat) :
    word32 (b0 :: b1 :: b2 :: b3 :: r) false 0 =
      ((b0 <<< 8 + b1) <<< 8 + b2) <<< 8 + b3 := rfl

theorem word32_le_four (a b c d b0 b1 b2 b3 : Nat) (r : List Nat) :
    word32 (a :: b :: c :: d :: b0 :: b1 :: b2 :: b3 :: r) true 4 =
      ((b3 <<< 8 + b2) <<< 8 + b1) <<< 8 + b0 := rfl

theorem word32_be_four (a b c d b0 b1 b2 b3 : Nat) (r : List Nat) :
    word32 (a :: b :: c :: d :: b0 :: b1 :: b2 :: b3 :: r) false 4 =
      ((b0 <<< 8 + b1) <<< 8 + b2) <<< 8 + b3 := rfl

theorem classifyUTF16_facts (s : Nat) (ucs2 : Bool) (h1 : 1 ≤ s) (h2 : s ≤ 0xffff)
    (hsur : ¬ (0xd800 ≤ s ∧ s ≤ 0xdfff)) :
    cp_errors.no_error (classifyUTF16 0 s ucs2) = true ∧
    cp_errors.anyMask (classifyUTF16 0 s ucs2) cp_errors.SurrogatePair = false := by
  unfold classifyUTF16
  rw [if_neg (by omega : ¬ s ≤ 0)]
  by_cases hd : s ≥ 0xd800
  · rw [if_pos hd, if_neg (by omega : ¬ s > 0x10ffff)]
    by_cases hf : s ≥ 0xfdd0
    · rw [if_pos hf]
      dsimp only
      rw [if_neg (by omega : ¬ s > 0xffff)]
      split_ifs <;> exact ⟨by decide, by decide⟩
    · rw [if_neg hf,
          if_neg (show ¬ s &&& 0xfffff800 = 0xd800 from by
            rw [show (0xfffff800 : Nat) = (2 ^ 21 - 1) <<< 11 from by decide, and_shift_mask]
            omega)]
      exact ⟨by decide, by decide⟩
  · rw [if_neg hd]
    exact ⟨by decide, by decide⟩

theorem classifyUTF16_supp (s : Nat) (h1 : 0x10000 ≤ s) (h2 : s ≤ 0x10ffff) :
    classifyUTF16 0 s false =
      (if s ≤ 0xfdef ∨ s &&& 0xfffe = 0xfffe then 0 ||| cp_errors.NonCharacter else 0) |||
        (cp_errors.Supplementary ||| cp_errors.SurrogatePair) := by
  unfold classifyUTF16
  rw [if_neg (by omega : ¬ s ≤ 0), if_pos (by omega : s ≥ 0xd800),
      if_neg (by omega : ¬ s > 0x10ffff), if_pos (by omega : s ≥ 0xfdd0)]
  dsimp only
  rw [if_pos (by omega : s > 0xffff),
      if_neg (show ¬ (false = true) from by decide)]

theorem classifyUTF32_facts (s : Nat) (cesu ucs4 : Bool) (h1 : 1 ≤ s) (h2 : s ≤ 0x10ffff)
    (hsur : ¬ (0xd800 ≤ s ∧ s ≤ 0xdfff)) (hns : cesu = true → s ≤ 0xffff) :
    cp_errors.no_error (classifyUTF32 0 s cesu ucs4) = true ∧
    cp_errors.anyMask (classifyUTF32 0 s cesu ucs4) cp_errors.SurrogatePair = false := by
  unfold classifyUTF32
  rw [if_neg (by omega : ¬ s ≤ 0)]
  by_cases hd : s ≥ 0xd800
  · rw [if_pos hd, if_neg (by omega : ¬ s > 0x10ffff)]
    by_cases hf : s ≥ 0xfdd0
    · rw [if_pos hf]
      dsimp only
      by_cases hx : s > 0xffff
      · have hc : cesu = false := by
          cases cesu
          · rfl
          · exact absurd (hns rfl) (by omega)
        rw [if_pos hx, hc, if_neg (show ¬ (false = true) from by decide)]
        split_ifs <;> exact ⟨by decide, by decide⟩
      · rw [if_neg hx]
        split_ifs <;> exact ⟨by decide, by decide⟩
    · rw [if_neg hf,
          if_neg (show ¬ s &&& 0xfffff800 = 0xd800 from by
            rw [show (0xfffff800 : Nat) = (2 ^ 21 - 1) <<< 11 from by decide, and_shift_mask]
            omega)]
      exact ⟨by decide, by decide⟩
  · rw [if_neg hd]
    exact ⟨by decide, by decide⟩

theorem classifyUTF32_supp_cesu (s : Nat) (ucs4 : Bool) (h1 : 0x10000 ≤ s)
    (h2 : s ≤ 0x10ffff) :
    classifyUTF32 0 s true ucs4 =
      (if s ≤ 0xfdef ∨ s &&& 0xfffe = 0xfffe then 0 ||| cp_errors.NonCharacter else 0) |||
        (cp_errors.Supplementary ||| cp_errors.SurrogatePair) := by
  unfold classifyUTF32
  rw [if_neg (by omega : ¬ s ≤ 0), if_pos (by omega : s ≥ 0xd800),
      if_neg (by omega : ¬ s > 0x10ffff), if_pos (by omega : s ≥ 0xfdd0)]
  dsimp only
  rw [if_pos (by omega : s > 0xffff), if_pos (show (true = true) from rfl)]

theorem encodeUTF16_two_buffer (s : Nat) (le ucs2 : Bool) (h1 : 1 ≤ s) (h2 : s ≤ 0xffff)
    (hsur : ¬ (0xd800 ≤ s ∧ s ≤ 0xdfff)) :
    (encodeUTF16 ⟨2, 0, some (List.replicate 2 0)⟩ s le ucs2).buffer =
      if le then [toByte s, toByte (s >>> 8)] else [toByte (s >>> 8), toByte s] := by
  obtain ⟨hne, hsp⟩ := classifyUTF16_facts s ucs2 h1 h2 hsur
  unfold encodeUTF16
  rw [get_errors_aligned_some 2 1 (List.replicate 2 0) (by decide), if_pos hne]
  dsimp only
  rw [if_neg (show ¬ cp_errors.anyMask (classifyUTF16 0 s ucs2)
        cp_errors.SurrogatePair = true from by rw [hsp]; decide),
      if_neg (show ¬ (2 - 0 : Nat) < 2 from by decide)]
  cases le
  · rw [if_neg (show ¬ (false = true) from by decide),
        if_neg (show ¬ (false = true) from by decide)]
    dsimp only
    simp only [Option.getD_some]
    rw [writeBytes_fill2]
  · rw [if_pos (show (true = true) from rfl), if_pos (show (true = true) from rfl)]
    dsimp only
    simp only [Option.getD_some]
    rw [writeBytes_fill2]

theorem decodeUTF16_bmp (L : List Nat) (le ucs2 : Bool) (s : Nat) (hw : word16 L le 0 = s)
    (h1 : 1 ≤ s) (h2 : s ≤ 0xffff) (hsur : ¬ (0xd800 ≤ s ∧ s ≤ 0xdfff)) :
    (decodeUTF16 ⟨2, 0, some L⟩ le ucs2).unicode = s ∧
    (decodeUTF16 ⟨2, 0, some L⟩ le ucs2).bytes = 2 ∧
    cp_errors.isError (decodeUTF16 ⟨2, 0, some L⟩ le ucs2).errors = false := by
  unfold decodeUTF16
  rw [get_errors_aligned_some 2 1 L (by decide),
      if_pos (show cp_errors.no_error 0 = true from by decide)]
  dsimp only
  rw [if_neg (show ¬ (2 - 0 : Nat) < 2 from by decide)]
  simp only [Option.getD_some, List.drop_zero]
  simp only [hw]
  by_cases hd : 0xd800 ≤ s
  · rw [if_pos (show s ≥ 0xd800 from hd)]
    by_cases hf : 0xfdd0 ≤ s
    · rw [if_pos (show s ≥ 0xfdd0 from hf)]
      refine ⟨rfl, rfl, ?_⟩
      split_ifs
      · exact (by decide : cp_errors.isError (0 ||| cp_errors.NonCharacter) = false)
      · exact (by decide : cp_errors.isError 0 = false)
    · rw [if_neg (show ¬ s ≥ 0xfdd0 from hf),
          if_neg (show ¬ s &&& 0xfffff800 = 0xd800 from by
            rw [show (0xfffff800 : Nat) = (2 ^ 21 - 1) <<< 11 from by decide, and_shift_mask]
            omega)]
      exact ⟨rfl, rfl, (by decide : cp_errors.isError 0 = false)⟩
  · rw [if_neg (show ¬ s ≥ 0xd800 from hd), if_neg (by omega : ¬ s = 0)]
    exact ⟨rfl, rfl, (by decide : cp_errors.isError 0 = false)⟩

theorem utf16_roundtrip_two (s : Nat) (le ucs2 : Bool) (h1 : 1 ≤ s) (h2 : s ≤ 0xffff)
    (hsur : ¬ (0xd800 ≤ s ∧ s ≤ 0xdfff)) :
    (decodeUTF16 ⟨2, 0,
        some (encodeUTF16 ⟨2, 0, some (List.replicate 2 0)⟩ s le ucs2).buffer⟩
        le ucs2).unicode = s ∧
    (decodeUTF16 ⟨2, 0,
        some (encodeUTF16 ⟨2, 0, some (List.replicate 2 0)⟩ s le ucs2).buffer⟩
        le ucs2).bytes = 2 ∧
    cp_errors.isError (decodeUTF16 ⟨2, 0,
        some (encodeUTF16 ⟨2, 0, some (List.replicate 2 0)⟩ s le ucs2).buffer⟩
        le ucs2).errors = false := by
  rw [encodeUTF16_two_buffer s le ucs2 h1 h2 hsur]
  refine decodeUTF16_bmp _ le ucs2 s ?_ h1 h2 hsur
  cases le <;> exact bytes16_eq s (by omega)

theorem encodeUTF16_four_buffer (s : Nat) (le : Bool) (h1 : 0x10000 ≤ s)
    (h2 : s ≤ 0x10ffff) :
    (encodeUTF16 ⟨4, 0, some (List.replicate 4 0)⟩ s le false).buffer =
      if le then
        [toByte ((0xd800 + (s - 0x10000) >>> 10) + (0xdc00 + (s - 0x10000) % 1024) * 65536),
         toByte (((0xd800 + (s - 0x10000) >>> 10) +
           (0xdc00 + (s - 0x10000) % 1024) * 65536) >>> 8),
         toByte (((0xd800 + (s - 0x10000) >>> 10) +
           (0xdc00 + (s - 0x10000) % 1024) * 65536) >>> 16),
         toByte (((0xd800 + (s - 0x10000) >>> 10) +
           (0xdc00 + (s - 0x10000) % 1024) * 65536) >>> 24)]
      else
        [toByte (((0xd800 + (s - 0x10000) >>> 10) +
           (0xdc00 + (s - 0x10000) % 1024) * 65536) >>> 8),
         toByte ((0xd800 + (s - 0x10000) >>> 10) + (0xdc00 + (s - 0x10000) % 1024) * 65536),
         toByte (((0xd800 + (s - 0x10000) >>> 10) +
           (0xdc00 + (s - 0x10000) % 1024) * 65536) >>> 24),
         toByte (((0xd800 + (s - 0x10000) >>> 10) +
           (0xdc00 + (s - 0x10000) % 1024) * 65536) >>> 16)] := by
  have hcl := classifyUTF16_supp s h1 h2
  have hne : cp_errors.no_error (classifyUTF16 0 s false) = true := by
    rw [hcl]; split_ifs <;> decide
  have hsp : cp_errors.anyMask (classifyUTF16 0 s false) cp_errors.SurrogatePair = true := by
    rw [hcl]; split_ifs <;> decide
  unfold encodeUTF16
  rw [get_errors_aligned_some 4 1 (List.replicate 4 0) (by decide), if_pos hne]
  dsimp only
  rw [if_pos hsp, if_neg (show ¬ (4 - 0 : Nat) < 4 from by decide)]
  rw [surrogate_word_eq s h1 h2]
  cases le
  · rw [if_neg (show ¬ (false = true) from by decide),
        if_neg (show ¬ (false = true) from by decide)]
    dsimp only
    simp only [Option.getD_some]
    rw [writeBytes_fill4]
  · rw [if_pos (show (true = true) from rfl), if_pos (show (true = true) from rfl)]
    dsimp only
    simp only [Option.getD_some]
    rw [writeBytes_fill4]

theorem decodeUTF16_pair_round (L : List Nat) (le : Bool) (H Lo : Nat)
    (hH1 : 0xd800 ≤ H) (hH2 : H ≤ 0xdbff) (hL1 : 0xdc00 ≤ Lo) (hL2 : Lo ≤ 0xdfff)
    (hw0 : word16 L le 0 = H) (hw2 : word16 L le 2 = Lo) :
    (decodeUTF16 ⟨4, 0, some L⟩ le false).unicode =
      (H &&& 0x3ff) <<< 10 + (Lo &&& 0x3ff) + 0x10000 ∧
    (decodeUTF16 ⟨4, 0, some L⟩ le false).bytes = 4 ∧
    cp_errors.isError (decodeUTF16 ⟨4, 0, some L⟩ le false).errors = false := by
  unfold decodeUTF16
  rw [get_errors_aligned_some 4 1 L (by decide),
      if_pos (show cp_errors.no_error 0 = true from by decide)]
  dsimp only
  rw [if_neg (show ¬ (4 - 0 : Nat) < 2 from by decide)]
  simp only [Option.getD_some, List.drop_zero]
  simp only [hw0]
  rw [if_pos (show H ≥ 0xd800 from hH1),
      if_neg (show ¬ H ≥ 0xfdd0 from by omega),
      if_pos (show H &&& 0xfffff800 = 0xd800 from by
        rw [show (0xfffff800 : Nat) = (2 ^ 21 - 1) <<< 11 from by decide, and_shift_mask]
        omega)]
  rw [if_neg (show ¬ H &&& 0x400 ≠ 0 from by
        rw [show (0x400 : Nat) = (2 ^ 1 - 1) <<< 10 from by decide, and_shift_mask]
        omega)]
  rw [if_pos (show ¬ (false = true) from by decide),
      if_neg (show ¬ (4 - 0 : Nat) < 4 from by decide)]
  simp only [hw2]
  rw [if_pos (show Lo &&& 0xfffffc00 = 0xdc00 from by
        rw [show (0xfffffc00 : Nat) = (2 ^ 22 - 1) <<< 10 from by decide, and_shift_mask]
        omega)]
  dsimp only
  rw [show ((0 ||| cp_errors.IrregularForm) ||| cp_errors.HighSurrogate) ^^^
        (cp_errors.SurrogatePair ||| cp_errors.Supplementary |||
          cp_errors.HighSurrogate ||| cp_errors.IrregularForm) =
        cp_errors.SurrogatePair ||| cp_errors.Supplementary from by decide]
  refine ⟨rfl, rfl, ?_⟩
  split_ifs
  · exact (by decide : cp_errors.isError
      ((cp_errors.SurrogatePair ||| cp_errors.Supplementary) ||| cp_errors.NonCharacter) = false)
  · exact (by decide : cp_errors.isError
      (cp_errors.SurrogatePair ||| cp_errors.Supplementary) = false)

theorem utf16_roundtrip_four (s : Nat) (le : Bool) (h1 : 0x10000 ≤ s) (h2 : s ≤ 0x10ffff) :
    (decodeUTF16 ⟨4, 0,
        some (encodeUTF16 ⟨4, 0, some (List.replicate 4 0)⟩ s le false).buffer⟩
        le false).unicode = s ∧
    (decodeUTF16 ⟨4, 0,
        some (encodeUTF16 ⟨4, 0, some (List.replicate 4 0)⟩ s le false).buffer⟩
        le false).bytes = 4 ∧
    cp_errors.isError (decodeUTF16 ⟨4, 0,
        some (encodeUTF16 ⟨4, 0, some (List.replicate 4 0)⟩ s le false).buffer⟩
        le false).errors = false := by
  rw [encodeUTF16_four_buffer s le h1 h2]
  have hsh : (s - 0x10000) >>> 10 ≤ 0x3ff := by
    simp only [Nat.shiftRight_eq_div_pow, show (2:Nat) ^ 10 = 1024 from by norm_num]
    omega
  have hw0 : word16
      (if le then
        [toByte ((0xd800 + (s - 0x10000) >>> 10) + (0xdc00 + (s - 0x10000) % 1024) * 65536),
         toByte (((0xd800 + (s - 0x10000) >>> 10) +
           (0xdc00 + (s - 0x10000) % 1024) * 65536) >>> 8),
         toByte (((0xd800 + (s - 0x10000) >>> 10) +
           (0xdc00 + (s - 0x10000) % 1024) * 65536) >>> 16),
         toByte (((0xd800 + (s - 0x10000) >>> 10) +
           (0xdc00 + (s - 0x10000) % 1024) * 65536) >>> 24)]
      else
        [toByte (((0xd800 + (s - 0x10000) >>> 10) +
           (0xdc00 + (s - 0x10000) % 1024) * 65536) >>> 8),
         toByte ((0xd800 + (s - 0x10000) >>> 10) + (0xdc00 + (s - 0x10000) % 1024) * 65536),
         toByte (((0xd800 + (s - 0x10000) >>> 10) +
           (0xdc00 + (s - 0x10000) % 1024) * 65536) >>> 24),
         toByte (((0xd800 + (s - 0x10000) >>> 10) +
           (0xdc00 + (s - 0x10000) % 1024) * 65536) >>> 16)])
      le 0 = 0xd800 + (s - 0x10000) >>> 10 := by
    cases le
    · rw [if_neg (show ¬ (false = true) from by decide), word16_be_zero]
      exact word_split_low (0xd800 + (s - 0x10000) >>> 10)
        (0xdc00 + (s - 0x10000) % 1024) (by omega)
    · rw [if_pos (show (true = true) from rfl), word16_le_zero]
      exact word_split_low (0xd800 + (s - 0x10000) >>> 10)
        (0xdc00 + (s - 0x10000) % 1024) (by omega)
  have hw2 : word16
      (if le then
        [toByte ((0xd800 + (s - 0x10000) >>> 10) + (0xdc00 + (s - 0x10000) % 1024) * 65536),
         toByte (((0xd800 + (s - 0x10000) >>> 10) +
           (0xdc00 + (s - 0x10000) % 1024) * 65536) >>> 8),
         toByte (((0xd800 + (s - 0x10000) >>> 10) +
           (0xdc00 + (s - 0x10000) % 1024) * 65536) >>> 16),
         toByte (((0xd800 + (s - 0x10000) >>> 10) +
           (0xdc00 + (s - 0x10000) % 1024) * 65536) >>> 24)]
      else
        [toByte (((0xd800 + (s - 0x10000) >>> 10) +
           (0xdc00 + (s - 0x10000) % 1024) * 65536) >>> 8),
         toByte ((0xd800 + (s - 0x10000) >>> 10) + (0xdc00 + (s - 0x10000) % 1024) * 65536),
         toByte (((0xd800 + (s - 0x10000) >>> 10) +
           (0xdc00 + (s - 0x10000) % 1024) * 65536) >>> 24),
         toByte (((0xd800 + (s - 0x10000) >>> 10) +
           (0xdc00 + (s - 0x10000) % 1024) * 65536) >>> 16)])
      le 2 = 0xdc00 + (s - 0x10000) % 1024 := by
    cases le
    · rw [if_neg (show ¬ (false = true) from by decide), word16_be_two]
      exact word_split_high (0xd800 + (s - 0x10000) >>> 10)
        (0xdc00 + (s - 0x10000) % 1024) (by omega) (by omega)
    · rw [if_pos (show (true = true) from rfl), word16_le_two]
      exact word_split_high (0xd800 + (s - 0x10000) >>> 10)
        (0xdc00 + (s - 0x10000) % 1024) (by omega) (by omega)
  obtain ⟨hu, hb, he⟩ := decodeUTF16_pair_round _ le
    (0xd800 + (s - 0x10000) >>> 10) (0xdc00 + (s - 0x10000) % 1024)
    (by omega) (by omega) (by omega) (by omega) hw0 hw2
  refine ⟨?_, hb, he⟩
  rw [hu,
      show (0xd800 + (s - 0x10000) >>> 10) &&& 0x3ff = (s - 0x10000) >>> 10 from by
        rw [and1023_eq]
        simp only [Nat.shiftRight_eq_div_pow, show (2:Nat) ^ 10 = 1024 from by norm_num]
        omega,
      show (0xdc00 + (s - 0x10000) % 1024) &&& 0x3ff = (s - 0x10000) % 1024 from by
        rw [and1023_eq]; omega,
      Nat.shiftLeft_eq]
  simp only [Nat.shiftRight_eq_div_pow, show (2:Nat) ^ 10 = 1024 from by norm_num]
  omega

theorem encodeUTF32_four_buffer (s : Nat) (le cesu ucs4 : Bool) (h1 : 1 ≤ s)
    (h2 : s ≤ 0x10ffff) (hsur : ¬ (0xd800 ≤ s ∧ s ≤ 0xdfff))
    (hns : cesu = true → s ≤ 0xffff) :
    (encodeUTF32 ⟨4, 0, some (List.replicate 4 0)⟩ s le cesu ucs4).buffer =
      if le then [toByte s, toByte (s >>> 8), toByte (s >>> 16), toByte (s >>> 24)]
      else [toByte (s >>> 24), toByte (s >>> 16), toByte (s >>> 8), toByte s] := by
  obtain ⟨hne, hsp⟩ := classifyUTF32_facts s cesu ucs4 h1 h2 hsur hns
  unfold encodeUTF32
  rw [get_errors_aligned_some 4 3 (List.replicate 4 0) (by decide), if_pos hne]
  dsimp only
  rw [if_neg (show ¬ cp_errors.anyMask (classifyUTF32 0 s cesu ucs4)
        cp_errors.SurrogatePair = true from by rw [hsp]; decide),
      if_neg (show ¬ (4 - 0 : Nat) < 4 from by decide)]
  cases le
  · rw [if_neg (show ¬ (false = true) from by decide),
        if_neg (show ¬ (false = true) from by decide)]
    dsimp only
    simp only [Option.getD_some]
    rw [writeBytes_fill4]
  · rw [if_pos (show (true = true) from rfl), if_pos (show (true = true) from rfl)]
    dsimp only
    simp only [Option.getD_some]
    rw [writeBytes_fill4]

theorem decodeUTF32_valid (L : List Nat) (le cesu ucs4 : Bool) (s : Nat)
    (hw : word32 L le 0 = s) (h1 : 1 ≤ s) (h2 : s ≤ 0x10ffff)
    (hsur : ¬ (0xd800 ≤ s ∧ s ≤ 0xdfff)) :
    (decodeUTF32 ⟨4, 0, some L⟩ le cesu ucs4).unicode = s ∧
    (decodeUTF32 ⟨4, 0, some L⟩ le cesu ucs4).bytes = 4 ∧
    cp_errors.isError (decodeUTF32 ⟨4, 0, some L⟩ le cesu ucs4).errors = false := by
  unfold decodeUTF32
  rw [get_errors_aligned_some 4 3 L (by decide),
      if_pos (show cp_errors.no_error 0 = true from by decide)]
  dsimp only
  rw [if_neg (show ¬ (4 - 0 : Nat) < 4 from by decide)]
  simp only [Option.getD_some, List.drop_zero]
  simp only [hw]
  rw [if_neg (by omega : ¬ s ≤ 0)]
  by_cases hd : 0xd800 ≤ s
  · rw [if_pos (show s ≥ 0xd800 from hd), if_neg (by omega : ¬ s > 0x10ffff)]
    by_cases hf : 0xfdd0 ≤ s
    · rw [if_pos (show s ≥ 0xfdd0 from hf)]
      refine ⟨rfl, rfl, ?_⟩
      split_ifs
      all_goals first
        | exact (by decide : cp_errors.isError
            ((0 ||| cp_errors.NonCharacter) ||| cp_errors.Supplementary) = false)
        | exact (by decide : cp_errors.isError (0 ||| cp_errors.Supplementary) = false)
        | exact (by decide : cp_errors.isError (0 ||| cp_errors.NonCharacter) = false)
        | exact (by decide : cp_errors.isError 0 = false)
    · rw [if_neg (show ¬ s ≥ 0xfdd0 from hf),
          if_neg (show ¬ s &&& 0xfffff800 = 0xd800 from by
            rw [show (0xfffff800 : Nat) = (2 ^ 21 - 1) <<< 11 from by decide, and_shift_mask]
            omega)]
      exact ⟨rfl, rfl, (by decide : cp_errors.isError 0 = false)⟩
  · rw [if_neg (show ¬ s ≥ 0xd800 from hd)]
    exact ⟨rfl, rfl, (by decide : cp_errors.isError 0 = false)⟩

theorem utf32_roundtrip_four (s : Nat) (le cesu ucs4 : Bool) (h1 : 1 ≤ s)
    (h2 : s ≤ 0x10ffff) (hsur : ¬ (0xd800 ≤ s ∧ s ≤ 0xdfff))
    (hns : cesu = true → s ≤ 0xffff) :
    (decodeUTF32 ⟨4, 0,
        some (encodeUTF32 ⟨4, 0, some (List.replicate 4 0)⟩ s le cesu ucs4).buffer⟩
        le cesu ucs4).unicode = s ∧
    (decodeUTF32 ⟨4, 0,
        some (encodeUTF32 ⟨4, 0, some (List.replicate 4 0)⟩ s le cesu ucs4).buffer⟩
        le cesu ucs4).bytes = 4 ∧
    cp_errors.isError (decodeUTF32 ⟨4, 0,
        some (encodeUTF32 ⟨4, 0, some (List.replicate 4 0)⟩ s le cesu ucs4).buffer⟩
        le cesu ucs4).errors = false := by
  rw [encodeUTF32_four_buffer s le cesu ucs4 h1 h2 hsur hns]
  refine decodeUTF32_valid _ le cesu ucs4 s ?_ h1 h2 hsur
  cases le
  · rw [if_neg (show ¬ (false = true) from by decide), word32_be_zero]
    exact bytes32_eq s (by omega)
  · rw [if_pos (show (true = true) from rfl), word32_le_zero]
    exact bytes32_eq s (by omega)

theorem encodeUTF32_eight_buffer (s : Nat) (le ucs4 : Bool) (h1 : 0x10000 ≤ s)
    (h2 : s ≤ 0x10ffff) :
    (encodeUTF32 ⟨8, 0, some (List.replicate 8 0)⟩ s le true ucs4).buffer =
      if le then
        [toByte ((0xd800 + (s - 0x10000) >>> 10) + (0xdc00 + (s - 0x10000) % 1024) * 65536),
         toByte (((0xd800 + (s - 0x10000) >>> 10) +
           (0xdc00 + (s - 0x10000) % 1024) * 65536) >>> 8),
         0, 0,
         toByte (((0xd800 + (s - 0x10000) >>> 10) +
           (0xdc00 + (s - 0x10000) % 1024) * 65536) >>> 16),
         toByte (((0xd800 + (s - 0x10000) >>> 10) +
           (0xdc00 + (s - 0x10000) % 1024) * 65536) >>> 24),
         0, 0]
      else
        [0, 0,
         toByte (((0xd800 + (s - 0x10000) >>> 10) +
           (0xdc00 + (s - 0x10000) % 1024) * 65536) >>> 8),
         toByte ((0xd800 + (s - 0x10000) >>> 10) + (0xdc00 + (s - 0x10000) % 1024) * 65536),
         0, 0,
         toByte (((0xd800 + (s - 0x10000) >>> 10) +
           (0xdc00 + (s - 0x10000) % 1024) * 65536) >>> 24),
         toByte (((0xd800 + (s - 0x10000) >>> 10) +
           (0xdc00 + (s - 0x10000) % 1024) * 65536) >>> 16)] := by
  have hcl := classifyUTF32_supp_cesu s ucs4 h1 h2
  have hne : cp_errors.no_error (classifyUTF32 0 s true ucs4) = true := by
    rw [hcl]; split_ifs <;> decide
  have hsp : cp_errors.anyMask (classifyUTF32 0 s true ucs4)
      cp_errors.SurrogatePair = true := by
    rw [hcl]; split_ifs <;> decide
  unfold encodeUTF32
  rw [get_errors_aligned_some 8 3 (List.replicate 8 0) (by decide), if_pos hne]
  dsimp only
  rw [if_pos hsp, if_neg (show ¬ (8 - 0 : Nat) < 8 from by decide)]
  rw [surrogate_word_eq s h1 h2]
  cases le
  · rw [if_neg (show ¬ (false = true) from by decide),
        if_neg (show ¬ (false = true) from by decide)]
    dsimp only
    simp only [Option.getD_some]
    rw [writeBytes_fill8]
  · rw [if_pos (show (true = true) from rfl), if_pos (show (true = true) from rfl)]
    dsimp only
    simp only [Option.getD_some]
    rw [writeBytes_fill8]

theorem decodeUTF32_pair_round (L : List Nat) (le ucs4 : Bool) (H Lo : Nat)
    (hH1 : 0xd800 ≤ H) (hH2 : H ≤ 0xdbff) (hL1 : 0xdc00 ≤ Lo) (hL2 : Lo ≤ 0xdfff)
    (hw0 : word32 L le 0 = H) (hw4 : word32 L le 4 = Lo) :
    (decodeUTF32 ⟨8, 0, some L⟩ le true ucs4).unicode =
      (H &&& 0x3ff) <<< 10 + (Lo &&& 0x3ff) + 0x10000 ∧
    (decodeUTF32 ⟨8, 0, some L⟩ le true ucs4).bytes = 8 ∧
    cp_errors.isError (decodeUTF32 ⟨8, 0, some L⟩ le true ucs4).errors = false := by
  unfold decodeUTF32
  rw [get_errors_aligned_some 8 3 L (by decide),
      if_pos (show cp_errors.no_error 0 = true from by decide)]
  dsimp only
  rw [if_neg (show ¬ (8 - 0 : Nat) < 4 from by decide)]
  simp only [Option.getD_some, List.drop_zero]
  simp only [hw0]
  rw [if_neg (by omega : ¬ H ≤ 0),
      if_pos (show H ≥ 0xd800 from hH1),
      if_neg (by omega : ¬ H > 0x10ffff),
      if_neg (show ¬ H ≥ 0xfdd0 from by omega),
      if_pos (show H &&& 0xfffff800 = 0xd800 from by
        rw [show (0xfffff800 : Nat) = (2 ^ 21 - 1) <<< 11 from by decide, and_shift_mask]
        omega)]
  rw [if_neg (show ¬ H &&& 0x400 ≠ 0 from by
        rw [show (0x400 : Nat) = (2 ^ 1 - 1) <<< 10 from by decide, and_shift_mask]
        omega)]
  rw [if_neg (show ¬ (8 - 0 : Nat) < 8 from by decide)]
  simp only [hw4]
  rw [if_pos (show Lo &&& 0xfffffc00 = 0xdc00 from by
        rw [show (0xfffffc00 : Nat) = (2 ^ 22 - 1) <<< 10 from by decide, and_shift_mask]
        omega)]
  rw [show ((0 ||| cp_errors.IrregularForm) ||| cp_errors.HighSurrogate) ^^^
        (cp_errors.SurrogatePair ||| cp_errors.Supplementary |||
          cp_errors.HighSurrogate ||| cp_errors.IrregularForm) =
        cp_errors.SurrogatePair ||| cp_errors.Supplementary from by decide]
  refine ⟨rfl, rfl, ?_⟩
  split_ifs <;> first
    | exact (by decide : cp_errors.isError
        ((cp_errors.SurrogatePair ||| cp_errors.Supplementary) |||
          cp_errors.NonCharacter) = false)
    | exact (by decide : cp_errors.isError
        (cp_errors.SurrogatePair ||| cp_errors.Supplementary) = false)

theorem utf32_roundtrip_eight (s : Nat) (le ucs4 : Bool) (h1 : 0x10000 ≤ s)
    (h2 : s ≤ 0x10ffff) :
    (decodeUTF32 ⟨8, 0,
        some (encodeUTF32 ⟨8, 0, some (List.replicate 8 0)⟩ s le true ucs4).buffer⟩
        le true ucs4).unicode = s ∧
    (decodeUTF32 ⟨8, 0,
        some (encodeUTF32 ⟨8, 0, some (List.replicate 8 0)⟩ s le true ucs4).buffer⟩
        le true ucs4).bytes = 8 ∧
    cp_errors.isError (decodeUTF32 ⟨8, 0,
        some (encodeUTF32 ⟨8, 0, some (List.replicate 8 0)⟩ s le true ucs4).buffer⟩
        le true ucs4).errors = false := by
  rw [encodeUTF32_eight_buffer s le ucs4 h1 h2]
  have hsh : (s - 0x10000) >>> 10 ≤ 0x3ff := by
    simp only [Nat.shiftRight_eq_div_pow, show (2:Nat) ^ 10 = 1024 from by norm_num]
    omega
  have hw0 : word32
      (if le then
        [toByte ((0xd800 + (s - 0x10000) >>> 10) + (0xdc00 + (s - 0x10000) % 1024) * 65536),
         toByte (((0xd800 + (s - 0x10000) >>> 10) +
           (0xdc00 + (s - 0x10000) % 1024) * 65536) >>> 8),
         0, 0,
         toByte (((0xd800 + (s - 0x10000) >>> 10) +
           (0xdc00 + (s - 0x10000) % 1024) * 65536) >>> 16),
         toByte (((0xd800 + (s - 0x10000) >>> 10) +
           (0xdc00 + (s - 0x10000) % 1024) * 65536) >>> 24),
         0, 0]
      else
        [0, 0,
         toByte (((0xd800 + (s - 0x10000) >>> 10) +
           (0xdc00 + (s - 0x10000) % 1024) * 65536) >>> 8),
         toByte ((0xd800 + (s - 0x10000) >>> 10) + (0xdc00 + (s - 0x10000) % 1024) * 65536),
         0, 0,
         toByte (((0xd800 + (s - 0x10000) >>> 10) +
           (0xdc00 + (s - 0x10000) % 1024) * 65536) >>> 24),
         toByte (((0xd800 + (s - 0x10000) >>> 10) +
           (0xdc00 + (s - 0x10000) % 1024) * 65536) >>> 16)])
      le 0 = 0xd800 + (s - 0x10000) >>> 10 := by
    cases le
    · rw [if_neg (show ¬ (false = true) from by decide), word32_be_zero]
      exact pair_low32 (0xd800 + (s - 0x10000) >>> 10)
        (0xdc00 + (s - 0x10000) % 1024) (by omega)
    · rw [if_pos (show (true = true) from rfl), word32_le_zero]
      exact pair_low32 (0xd800 + (s - 0x10000) >>> 10)
        (0xdc00 + (s - 0x10000) % 1024) (by omega)
  have hw4 : word32
      (if le then
        [toByte ((0xd800 + (s - 0x10000) >>> 10) + (0xdc00 + (s - 0x10000) % 1024) * 65536),
         toByte (((0xd800 + (s - 0x10000) >>> 10) +
           (0xdc00 + (s - 0x10000) % 1024) * 65536) >>> 8),
         0, 0,
         toByte (((0xd800 + (s - 0x10000) >>> 10) +
           (0xdc00 + (s - 0x10000) % 1024) * 65536) >>> 16),
         toByte (((0xd800 + (s - 0x10000) >>> 10) +
           (0xdc00 + (s - 0x10000) % 1024) * 65536) >>> 24),
         0, 0]
      else
        [0, 0,
         toByte (((0xd800 + (s - 0x10000) >>> 10) +
           (0xdc00 + (s - 0x10000) % 1024) * 65536) >>> 8),
         toByte ((0xd800 + (s - 0x10000) >>> 10) + (0xdc00 + (s - 0x10000) % 1024) * 65536),
         0, 0,
         toByte (((0xd800 + (s - 0x10000) >>> 10) +
           (0xdc00 + (s - 0x10000) % 1024) * 65536) >>> 24),
         toByte (((0xd800 + (s - 0x10000) >>> 10) +
           (0xdc00 + (s - 0x10000) % 1024) * 65536) >>> 16)])
      le 4 = 0xdc00 + (s - 0x10000) % 1024 := by
    cases le
    · rw [if_neg (show ¬ (false = true) from by decide), word32_be_four]
      exact pair_high32 (0xd800 + (s - 0x10000) >>> 10)
        (0xdc00 + (s - 0x10000) % 1024) (by omega) (by omega)
    · rw [if_pos (show (true = true) from rfl), word32_le_four]
      exact pair_high32 (0xd800 + (s - 0x10000) >>> 10)
        (0xdc00 + (s - 0x10000) % 1024) (by omega) (by omega)
  obtain ⟨hu, hb, he⟩ := decodeUTF32_pair_round _ le ucs4
    (0xd800 + (s - 0x10000) >>> 10) (0xdc00 + (s - 0x10000) % 1024)
    (by omega) (by omega) (by omega) (by omega) hw0 hw4
  refine ⟨?_, hb, he⟩
  rw [hu,
      show (0xd800 + (s - 0x10000) >>> 10) &&& 0x3ff = (s - 0x10000) >>> 10 from by
        rw [and1023_eq]
        simp only [Nat.shiftRight_eq_div_pow, show (2:Nat) ^ 10 = 1024 from by norm_num]
        omega,
      show (0xdc00 + (s - 0x10000) % 1024) &&& 0x3ff = (s - 0x10000) % 1024 from by
        rw [and1023_eq]; omega,
      Nat.shiftLeft_eq]
  simp only [Nat.shiftRight_eq_div_pow, show (2:Nat) ^ 10 = 1024 from by norm_num]
  omega

theorem byte_roundtrip (s : Nat) (ascii coalesce : Bool) (h1 : 1 ≤ s) (h2 : s ≤ 0xff)
    (hascii : ascii = true → s ≤ 0x7f) :
    (decodeBYTE ⟨1, 0,
        some (encodeBYTE ⟨1, 0, some (List.replicate 1 0)⟩ s ascii).buffer⟩
        ascii coalesce).unicode = s ∧
    (decodeBYTE ⟨1, 0,
        some (encodeBYTE ⟨1, 0, some (List.replicate 1 0)⟩ s ascii).buffer⟩
        ascii coalesce).bytes = 1 ∧
    cp_errors.isError (decodeBYTE ⟨1, 0,
        some (encodeBYTE ⟨1, 0, some (List.replicate 1 0)⟩ s ascii).buffer⟩
        ascii coalesce).errors = false := by
  have hcl : classifyBYTE 0 s ascii = 0 := by
    unfold classifyBYTE
    rw [if_neg (by omega : ¬ s ≤ 0),
        if_neg (show ¬ s > (if ascii = true then 0x7f else 0xff) from by
          cases ascii
          · rw [if_neg (show ¬ (false = true) from by decide)]
            omega
          · rw [if_pos (show (true = true) from rfl)]
            have h3 := hascii rfl
            omega)]
  have hbuf : (encodeBYTE ⟨1, 0, some (List.replicate 1 0)⟩ s ascii).buffer = [s] := by
    unfold encodeBYTE
    rw [get_errors_some, hcl,
        if_pos (show cp_errors.no_error 0 = true from by decide),
        if_neg (show ¬ (1 - 0 : Nat) < 1 from by decide)]
    dsimp only
    simp only [Option.getD_some]
    rw [show toByte s = s from by unfold toByte; omega, writeBytes_fill1]
  rw [hbuf]
  unfold decodeBYTE
  rw [get_errors_some, if_pos (show cp_errors.no_error 0 = true from by decide)]
  dsimp only
  rw [if_neg (show ¬ (1 - 0 : Nat) < 1 from by decide)]
  simp only [Option.getD_some, List.drop_zero]
  rw [byteAt_cons_zero]
  rw [if_neg (show ¬ (ascii = true ∧ s &&& 0x80 ≠ 0) from by
        rw [show (0x80 : Nat) = (2 ^ 1 - 1) <<< 7 from by decide, and_shift_mask]
        rintro ⟨ha, hb⟩
        have h3 := hascii ha
        apply hb
        omega),
      if_neg (by omega : ¬ s = 0)]
  exact ⟨rfl, rfl, (by decide : cp_errors.isError 0 = false)⟩

theorem cp1252ToUnicode_low (b : Nat) (strict : Bool) (h1 : 1 ≤ b) (h2 : b ≤ 0x7f) :
    cp1252ToUnicode b strict = (true, b) := by
  have hand : b &&& 0x80 = 0 := by
    rw [show (0x80 : Nat) = (2 ^ 1 - 1) <<< 7 from by decide, and_shift_mask]
    omega
  have hx : b ^^^ 0x80 = b + 0x80 := by
    rw [xor_eq_lor_of_and_eq_zero b 0x80 hand, lor_eq_add_of_and_eq_zero b 0x80 hand]
  unfold cp1252ToUnicode
  dsimp only
  rw [hx, if_neg (by omega : ¬ b + 0x80 < 32)]
  rw [show isCP1252UndefinedC1 b = false from by
        unfold isCP1252UndefinedC1
        simp only [Bool.or_eq_false_iff, beq_eq_false_iff_ne, ne_eq]
        omega,
      Bool.and_false]
  rw [if_neg (show ¬ (false = true) from by decide)]

theorem cp1252_roundtrip (s : Nat) (strictE strictD coalesce : Bool)
    (h1 : 1 ≤ s) (h2 : s ≤ 0x7f) :
    (decodeCP1252 ⟨1, 0,
        some (encodeCP1252 ⟨1, 0, some (List.replicate 1 0)⟩ s strictE).buffer⟩
        strictD coalesce).unicode = s ∧
    (decodeCP1252 ⟨1, 0,
        some (encodeCP1252 ⟨1, 0, some (List.replicate 1 0)⟩ s strictE).buffer⟩
        strictD coalesce).bytes = 1 ∧
    cp_errors.isError (decodeCP1252 ⟨1, 0,
        some (encodeCP1252 ⟨1, 0, some (List.replicate 1 0)⟩ s strictE).buffer⟩
        strictD coalesce).errors = false := by
  have hconv : unicodeToCP1252 s strictE = (true, s) := by
    unfold unicodeToCP1252
    rw [if_pos (by omega : s ≤ 0xff), if_pos (Or.inl h2),
        show toByte s = s from by unfold toByte; omega]
  have hcl : classifyCP1252 0 s strictE = 0 := by
    unfold classifyCP1252
    rw [if_neg (by omega : ¬ s ≤ 0),
        if_neg (show ¬ (!(unicodeToCP1252 s strictE).1) = true from by
          rw [hconv]; exact (by decide : ¬ (!true) = true))]
  have hbuf : (encodeCP1252 ⟨1, 0, some (List.replicate 1 0)⟩ s strictE).buffer = [s] := by
    unfold encodeCP1252
    rw [get_errors_some, hcl,
        if_pos (show cp_errors.no_error 0 = true from by decide),
        if_neg (show ¬ (1 - 0 : Nat) < 1 from by decide)]
    dsimp only
    simp only [Option.getD_some]
    rw [hconv]
    dsimp only
    rw [writeBytes_fill1]
  rw [hbuf]
  unfold decodeCP1252
  rw [get_errors_some, if_pos (show cp_errors.no_error 0 = true from by decide)]
  dsimp only
  rw [if_neg (show ¬ (1 - 0 : Nat) < 1 from by decide)]
  simp only [Option.getD_some, List.drop_zero]
  rw [byteAt_cons_zero, cp1252ToUnicode_low s strictD h1 h2]
  dsimp only
  rw [if_neg (show ¬ (¬ (true = true)) from by decide),
      if_neg (by omega : ¬ s = 0)]
  exact ⟨rfl, rfl, (by decide : cp_errors.isError 0 = false)⟩

theorem utf8_roundtrip (s : Nat) (cesu java strict coalesce : Bool)
    (h1 : 1 ≤ s) (h2 : s ≤ 0x10ffff) (hsur : ¬ (0xd800 ≤ s ∧ s ≤ 0xdfff)) :
    (decodeUTF8 ⟨lenUTF8 s cesu java, 0,
        some (encodeUTF8 ⟨lenUTF8 s cesu java, 0,
          some (List.replicate (lenUTF8 s cesu java) 0)⟩ s cesu java).buffer⟩
        cesu java strict coalesce).unicode = s ∧
    (decodeUTF8 ⟨lenUTF8 s cesu java, 0,
        some (encodeUTF8 ⟨lenUTF8 s cesu java, 0,
          some (List.replicate (lenUTF8 s cesu java) 0)⟩ s cesu java).buffer⟩
        cesu java strict coalesce).bytes = lenUTF8 s cesu java ∧
    cp_errors.isError (decodeUTF8 ⟨lenUTF8 s cesu java, 0,
        some (encodeUTF8 ⟨lenUTF8 s cesu java, 0,
          some (List.replicate (lenUTF8 s cesu java) 0)⟩ s cesu java).buffer⟩
        cesu java strict coalesce).errors = false := by
  have hjz : (java && (s == 0)) = false := by
    rw [show (s == 0) = false from by rw [beq_eq_false_iff_ne]; omega, Bool.and_false]
  by_cases hA : s ≤ 0x7f
  · have hn : lenUTF8 s cesu java = 1 := by
      unfold lenUTF8
      rw [if_pos (by omega : s ≤ 0x7fffffff), if_pos hA, hjz,
          if_neg (show ¬ (false = true) from by decide)]
    rw [hn, encodeUTF8_one_eq s cesu java h1 hA]
    exact decodeUTF8_round [s] 1 cesu java strict coalesce s 1 s 1
      (fetchUTF8_ascii [] s 1 (coalesce && !strict) hA (by omega))
      (decodeScalarUTF8_regular [s] 1 cesu s 1 h1 h2 hsur).1
      (decodeScalarUTF8_regular [s] 1 cesu s 1 h1 h2 hsur).2.1
      (decodeScalarUTF8_regular [s] 1 cesu s 1 h1 h2 hsur).2.2
  · by_cases hB : s ≤ 0x7ff
    · have hn : lenUTF8 s cesu java = 2 := by
        unfold lenUTF8
        rw [if_pos (by omega : s ≤ 0x7fffffff), if_neg hA, if_pos hB]
      rw [hn, encodeUTF8_two_eq s cesu java (by omega) hB]
      exact decodeUTF8_round [s >>> 6 + 0xc0, s % 64 + 128] 2 cesu java strict coalesce
        s 2 s 2
        (fetchUTF8_two [] s 2 (coalesce && !strict) (by omega) hB (by omega))
        (decodeScalarUTF8_regular [s >>> 6 + 0xc0, s % 64 + 128] 2 cesu s 2 h1 h2 hsur).1
        (decodeScalarUTF8_regular [s >>> 6 + 0xc0, s % 64 + 128] 2 cesu s 2 h1 h2 hsur).2.1
        (decodeScalarUTF8_regular [s >>> 6 + 0xc0, s % 64 + 128] 2 cesu s 2 h1 h2 hsur).2.2
    · by_cases hC : s ≤ 0xffff
      · have hn : lenUTF8 s cesu java = 3 := by
          unfold lenUTF8
          rw [if_pos (by omega : s ≤ 0x7fffffff), if_neg hA, if_neg hB, if_pos hC]
        rw [hn, encodeUTF8_three_eq s cesu java (by omega) hC]
        exact decodeUTF8_round [s >>> 12 + 0xe0, (s >>> 6) % 64 + 128, s % 64 + 128] 3
          cesu java strict coalesce s 3 s 3
          (fetchUTF8_three [] s 3 (coalesce && !strict) (by omega) hC (by omega))
          (decodeScalarUTF8_regular [s >>> 12 + 0xe0, (s >>> 6) % 64 + 128, s % 64 + 128]
            3 cesu s 3 h1 h2 hsur).1
          (decodeScalarUTF8_regular [s >>> 12 + 0xe0, (s >>> 6) % 64 + 128, s % 64 + 128]
            3 cesu s 3 h1 h2 hsur).2.1
          (decodeScalarUTF8_regular [s >>> 12 + 0xe0, (s >>> 6) % 64 + 128, s % 64 + 128]
            3 cesu s 3 h1 h2 hsur).2.2
      · cases cesu
        · have hn : lenUTF8 s false java = 4 := by
            unfold lenUTF8
            rw [if_pos (by omega : s ≤ 0x7fffffff), if_neg hA, if_neg hB, if_neg hC,
                if_pos (show s ≤ 0x10ffff from h2),
                if_neg (show ¬ (false = true) from by decide)]
          rw [hn, encodeUTF8_four_eq s java (by omega) h2]
          exact decodeUTF8_round
            [s >>> 18 + 0xf0, (s >>> 12) % 64 + 128, (s >>> 6) % 64 + 128, s % 64 + 128]
            4 false java strict coalesce s 4 s 4
            (fetchUTF8_four [] s 4 (coalesce && !strict) (by omega) h2 (by omega))
            (decodeScalarUTF8_regular
              [s >>> 18 + 0xf0, (s >>> 12) % 64 + 128, (s >>> 6) % 64 + 128, s % 64 + 128]
              4 false s 4 h1 h2 hsur).1
            (decodeScalarUTF8_regular
              [s >>> 18 + 0xf0, (s >>> 12) % 64 + 128, (s >>> 6) % 64 + 128, s % 64 + 128]
              4 false s 4 h1 h2 hsur).2.1
            (decodeScalarUTF8_regular
              [s >>> 18 + 0xf0, (s >>> 12) % 64 + 128, (s >>> 6) % 64 + 128, s % 64 + 128]
              4 false s 4 h1 h2 hsur).2.2
        · have hn : lenUTF8 s true java = 6 := by
            unfold lenUTF8
            rw [if_pos (by omega : s ≤ 0x7fffffff), if_neg hA, if_neg hB, if_neg hC,
                if_pos (show s ≤ 0x10ffff from h2),
                if_pos (show (true = true) from rfl)]
          have hsh : (s - 0x10000) >>> 10 ≤ 0x3ff := by
            simp only [Nat.shiftRight_eq_div_pow,
              show (2:Nat) ^ 10 = 1024 from by norm_num]
            omega
          rw [hn, encodeUTF8_cesu_eq s java (by omega) h2]
          exact decodeUTF8_round
            [(0xd800 + (s - 0x10000) >>> 10) >>> 12 + 0xe0,
             ((0xd800 + (s - 0x10000) >>> 10) >>> 6) % 64 + 128,
             (0xd800 + (s - 0x10000) >>> 10) % 64 + 128,
             (0xdc00 + (s - 0x10000) % 1024) >>> 12 + 0xe0,
             ((0xdc00 + (s - 0x10000) % 1024) >>> 6) % 64 + 128,
             (0xdc00 + (s - 0x10000) % 1024) % 64 + 128]
            6 true java strict coalesce (0xd800 + (s - 0x10000) >>> 10) 3 s 6
            (fetchUTF8_three
              [(0xdc00 + (s - 0x10000) % 1024) >>> 12 + 0xe0,
               ((0xdc00 + (s - 0x10000) % 1024) >>> 6) % 64 + 128,
               (0xdc00 + (s - 0x10000) % 1024) % 64 + 128]
              (0xd800 + (s - 0x10000) >>> 10) 6 (coalesce && !strict)
              (by omega) (by omega) (by omega))
            (decodeScalarUTF8_cesu s (by omega) h2).1
            (decodeScalarUTF8_cesu s (by omega) h2).2.1
            (decodeScalarUTF8_cesu s (by omega) h2).2.2

/-! ## Claim theorems -/



/-- C7: for every well-formed cursor decoded by decodeUTF8 with the strict
flag set, a decode that reports a hard error or is classified as an
irregular form consumes exactly 1 byte, regardless of how many bytes were
tentatively consumed. -/
theorem C7_strict_failed_or_irregular_consumes_one_byte (t : utf_text)
    (cesu java coalesce : Bool) (hb : t.buffer ≠ none) (ho : t.offset ≤ t.length)
    (h : cp_errors.isError (decodeUTF8 t cesu java true coalesce).errors = true ∨
      cp_errors.anyMask (decodeUTF8 t cesu java true coalesce).errors
        cp_errors.IrregularForm = true) :
    (decodeUTF8 t cesu java true coalesce).bytes = 1 :=
  (decodeUTF8_failure_spec t cesu java true coalesce hb ho).2 rfl h

/-- C7 (witness): the overlong two-byte sequence C0 80 decoded strictly
(non-Java) tentatively consumes two bytes but reports one. -/
theorem C7_strict_failed_or_irregular_consumes_one_byte_witness :
    (decodeUTF8 ⟨2, 0, some [0xc0, 0x80]⟩ false false true true).bytes = 1 :=
  C7_strict_failed_or_irregular_consumes_one_byte ⟨2, 0, some [0xc0, 0x80]⟩
    false false true (by decide) (by decide) (Or.inl (by decide))

/-- C2 (counterexample): for UTF-32 without UCS4 at scalar 0x110000,
lenUTF32 returns 0, yet the encoder writes 4 bytes and its diagnostic does
not contain NotEncodable — it only carries the ExtendedUCS4 and
IrregularForm warnings, refuting both directions of the claimed
equivalence. -/
theorem C2_encoder_length_consistency_cex :
    handlerLen .UTF32le 0x110000 = 0 ∧
    (handlerSet .UTF32le ⟨4, 0, some (List.replicate 4 0)⟩ 0x110000).bytes = 4 ∧
    cp_errors.anyMask
      (handlerSet .UTF32le ⟨4, 0, some (List.replicate 4 0)⟩ 0x110000).errors
      cp_errors.NotEncodable = false := by decide

/-- C2 (amended): for every scalar s and every encoding tag, with a
zero-filled destination of exactly len_T(s) bytes, the encoder writes a
byte count equal to len_T(s) whenever len_T(s) is non-zero, and a
diagnostic containing NotEncodable implies len_T(s) = 0 (the converse
fails: a zero length does not force NotEncodable). -/
theorem C2_encoder_length_consistency (tag : UTF_SUB_TYPE) (s : Nat) :
    (handlerLen tag s ≠ 0 →
      (handlerSet tag ⟨handlerLen tag s, 0,
          some (List.replicate (handlerLen tag s) 0)⟩ s).bytes = handlerLen tag s) ∧
    (cp_errors.anyMask
        (handlerSet tag ⟨handlerLen tag s, 0,
          some (List.replicate (handlerLen tag s) 0)⟩ s).errors
        cp_errors.NotEncodable = true →
      handlerLen tag s = 0) := by
  cases tag
  case UTF8 => exact encodeUTF8_C2 s false false
  case UTF8ns => exact encodeUTF8_C2 s false false
  case UTF8st => exact encodeUTF8_C2 s false false
  case JUTF8 => exact encodeUTF8_C2 s false true
  case JUTF8ns => exact encodeUTF8_C2 s false true
  case JUTF8st => exact encodeUTF8_C2 s false true
  case CESU8 => exact encodeUTF8_C2 s true false
  case CESU8ns => exact encodeUTF8_C2 s true false
  case CESU8st => exact encodeUTF8_C2 s true false
  case JCESU8 => exact encodeUTF8_C2 s true true
  case JCESU8ns => exact encodeUTF8_C2 s true true
  case JCESU8st => exact encodeUTF8_C2 s true true
  case UTF16le => exact encodeUTF16_C2 s true false
  case UTF16be => exact encodeUTF16_C2 s false false
  case UCS2le => exact encodeUTF16_C2 s true true
  case UCS2be => exact encodeUTF16_C2 s false true
  case UTF32le => exact encodeUTF32_C2 s true false false
  case UTF32be => exact encodeUTF32_C2 s false false false
  case UCS4le => exact encodeUTF32_C2 s true false true
  case UCS4be => exact encodeUTF32_C2 s false false true
  case CESU32le => exact encodeUTF32_C2 s true true false
  case CESU32be => exact encodeUTF32_C2 s false true false
  case CESU4le => exact encodeUTF32_C2 s true true true
  case CESU4be => exact encodeUTF32_C2 s false true true
  case BYTE => exact encodeBYTE_C2 s false
  case BYTEns => exact encodeBYTE_C2 s false
  case ASCII => exact encodeBYTE_C2 s true
  case ASCIIns => exact encodeBYTE_C2 s true
  case CP1252 => exact encodeCP1252_C2 s false
  case CP1252ns => exact encodeCP1252_C2 s false
  case CP1252st => exact encodeCP1252_C2 s true

/-- C2 (witness): the amended consistency evaluated for plain UTF-8 at
scalar A (one byte written) and for ASCII at scalar 0x80 (NotEncodable
with zero length). -/
theorem C2_encoder_length_consistency_witness :
    (handlerSet .UTF8 ⟨1, 0, some [0]⟩ 0x41).bytes = 1 ∧
    handlerLen .ASCII 0x80 = 0 :=
  ⟨(C2_encoder_length_consistency .UTF8 0x41).1 (by decide),
   (C2_encoder_length_consistency .ASCII 0x80).2 (by decide)⟩

/-- C3 (counterexample): the strict CP-1252 decoder on the single
undefined-C1 byte 81 reports a hard failure (Failed | NotDecodable) yet
returns scalar 0, not the offending first byte 0x81; and a failed UTF-16
decode of the one-byte buffer 00 returns scalar 0, not the claimed
0x80000000. -/
theorem C3_decode_failure_scalar_cex :
    cp_errors.isError (decodeCP1252 ⟨1, 0, some [0x81]⟩ true false).errors = true ∧
    (decodeCP1252 ⟨1, 0, some [0x81]⟩ true false).unicode = 0 ∧
    ¬ (decodeCP1252 ⟨1, 0, some [0x81]⟩ true false).unicode = 0x81 ∧
    cp_errors.isError (decodeUTF16 ⟨1, 0, some [0x00]⟩ false false).errors = true ∧
    ¬ (decodeUTF16 ⟨1, 0, some [0x00]⟩ false false).unicode = 0x80000000 := by decide

/-- C3 (amended): on a hard decode failure the UTF-8 and BYTE decoders
return the first byte of the offending sequence in the scalar
out-parameter (for a cursor with a real buffer and in-range offset),
while the UTF-16, UTF-32 and CP-1252 decoders return 0. -/
theorem C3_decode_failure_scalar (t : utf_text)
    (cesu java strict coalesce le ucs2 ucs4 ascii : Bool)
    (hb : t.buffer ≠ none) (ho : t.offset ≤ t.length) :
    (cp_errors.isError (decodeUTF8 t cesu java strict coalesce).errors = true →
      (decodeUTF8 t cesu java strict coalesce).unicode =
        byteAt ((t.buffer.getD []).drop t.offset) 0) ∧
    (cp_errors.isError (decodeBYTE t ascii coalesce).errors = true →
      (decodeBYTE t ascii coalesce).unicode =
        byteAt ((t.buffer.getD []).drop t.offset) 0) ∧
    (cp_errors.isError (decodeUTF16 t le ucs2).errors = true →
      (decodeUTF16 t le ucs2).unicode = 0) ∧
    (cp_errors.isError (decodeUTF32 t le cesu ucs4).errors = true →
      (decodeUTF32 t le cesu ucs4).unicode = 0) ∧
    (cp_errors.isError (decodeCP1252 t strict coalesce).errors = true →
      (decodeCP1252 t strict coalesce).unicode = 0) :=
  ⟨(decodeUTF8_failure_spec t cesu java strict coalesce hb ho).1,
    decodeBYTE_failure_unicode t ascii coalesce hb ho,
    decodeUTF16_failure_unicode t le ucs2,
    decodeUTF32_failure_unicode t le cesu ucs4,
    decodeCP1252_failure_unicode t strict coalesce⟩

/-- C3 (witness): the amended failure contract instantiated on the
one-byte buffer 81, where the strict UTF-8, ASCII-restricted BYTE and
strict CP-1252 decodes all fail hard. -/
theorem C3_decode_failure_scalar_witness :
    (⟨1, 0, some [0x81]⟩ : utf_text).buffer ≠ none ∧
    (⟨1, 0, some [0x81]⟩ : utf_text).offset ≤ (⟨1, 0, some [0x81]⟩ : utf_text).length ∧
    ((cp_errors.isError (decodeUTF8 ⟨1, 0, some [0x81]⟩ false false true false).errors = true →
        (decodeUTF8 ⟨1, 0, some [0x81]⟩ false false true false).unicode = 0x81) ∧
      (cp_errors.isError (decodeBYTE ⟨1, 0, some [0x81]⟩ true false).errors = true →
        (decodeBYTE ⟨1, 0, some [0x81]⟩ true false).unicode = 0x81) ∧
      (cp_errors.isError (decodeUTF16 ⟨1, 0, some [0x81]⟩ false false).errors = true →
        (decodeUTF16 ⟨1, 0, some [0x81]⟩ false false).unicode = 0) ∧
      (cp_errors.isError (decodeUTF32 ⟨1, 0, some [0x81]⟩ false false false).errors = true →
        (decodeUTF32 ⟨1, 0, some [0x81]⟩ false false false).unicode = 0) ∧
      (cp_errors.isError (decodeCP1252 ⟨1, 0, some [0x81]⟩ true false).errors = true →
        (decodeCP1252 ⟨1, 0, some [0x81]⟩ true false).unicode = 0)) :=
  ⟨by decide, by decide,
    C3_decode_failure_scalar ⟨1, 0, some [0x81]⟩ false false true false false false false true
      (by decide) (by decide)⟩

/-- C4: the claim states that a diagnostic whose only set bits are the
three low byte-index bits satisfies any() = false for every index 0..7.
Evaluating the code at byte index 1: the resulting state is ReservedBit0
alone, and any() returns true, because ReservedMask repeats ReservedBit1
where ReservedBit0 belongs, so bit 0 is not excluded.  Index 2, which
avoids bit 0, behaves as the claim states. -/
theorem C4_any_sees_byte_index_bit0 :
    cp_errors.any (cp_errors.set_byte_index 0 1) = true ∧
    cp_errors.get_byte_index (cp_errors.set_byte_index 0 1) = 1 ∧
    cp_errors.any (cp_errors.set_byte_index 0 2) = false := by decide

/-- C5 (counterexample): lenUTF16 returns 2, not 0, on the high surrogate
U+D800, refuting the claimed surrogate exclusion. -/
theorem C5_lenUTF16_surrogate_cex :
    lenUTF16 0xd800 false = 2 ∧ ¬ lenUTF16 0xd800 false = 0 := by decide

/-- C5 (amended): lenUTF16 returns 2 for every scalar at most 0xFFFF with
no surrogate exclusion, 4 for scalars in [0x10000, 0x10FFFF] when UCS2 is
disabled (0 when enabled), and 0 for all larger raw values. -/
theorem C5_lenUTF16_characterization (u : Nat) (ucs2 : Bool) :
    (u ≤ 0xffff → lenUTF16 u ucs2 = 2) ∧
    (0x10000 ≤ u → u ≤ 0x10ffff → lenUTF16 u ucs2 = if ucs2 then 0 else 4) ∧
    (0x110000 ≤ u → lenUTF16 u ucs2 = 0) := by
  unfold lenUTF16
  refine ⟨fun h => ?_, fun h1 h2 => ?_, fun h => ?_⟩
  · rw [if_pos (by omega), if_pos h]
  · rw [if_pos (by omega), if_neg (by omega)]
    cases ucs2 <;> simp
  · rw [if_neg (by omega)]

/-- C5 (witness): the amended characterization at the surrogate 0xD800,
at 0x10000 under UCS2 and at 0x110000. -/
theorem C5_lenUTF16_characterization_witness :
    lenUTF16 0xd800 false = 2 ∧ lenUTF16 0x10000 true = 0 ∧
    lenUTF16 0x110000 false = 0 :=
  ⟨(C5_lenUTF16_characterization 0xd800 false).1 (by norm_num),
   by simpa using (C5_lenUTF16_characterization 0x10000 true).2.1 (by norm_num) (by norm_num),
   (C5_lenUTF16_characterization 0x110000 false).2.2 (by norm_num)⟩

set_option maxRecDepth 4000 in
/-- C9: for every index below 0x04210880 the overlong decoder succeeds,
yields a byte width in 2..6 and a scalar the encoder maps back to the same
index; at 0x04210880 and beyond the decoder reports failure. -/
theorem C9_overlong_index_bijection (i : Nat) :
    (i < 0x04210880 →
      (indexToOverlongUTF8 i).1 = true ∧
      2 ≤ (indexToOverlongUTF8 i).2.2 ∧ (indexToOverlongUTF8 i).2.2 ≤ 6 ∧
      overlongToIndexUTF8 (indexToOverlongUTF8 i).2.1 (indexToOverlongUTF8 i).2.2 =
        (true, i)) ∧
    (0x04210880 ≤ i → (indexToOverlongUTF8 i).1 = false) := by
  constructor
  · intro hi
    by_cases h1 : i < 0x00000080
    · have hx : indexToOverlongUTF8 i = (true, i, 2) := by
        unfold indexToOverlongUTF8
        rw [if_pos h1]
      rw [hx]
      refine ⟨rfl, by norm_num, by norm_num, ?_⟩
      unfold overlongToIndexUTF8
      norm_num [h1]
    · by_cases h2 : i < 0x00000880
      · have hx : indexToOverlongUTF8 i = (true, i - 0x80, 3) := by
          unfold indexToOverlongUTF8
          rw [if_neg h1, if_pos h2]
        rw [hx]
        refine ⟨rfl, by norm_num, by norm_num, ?_⟩
        unfold overlongToIndexUTF8
        have hr : i - 0x80 < 0x800 := by omega
        norm_num [hr, Prod.ext_iff]
        omega
      · by_cases h3 : i < 0x00010880
        · have hx : indexToOverlongUTF8 i = (true, i - 0x880, 4) := by
            unfold indexToOverlongUTF8
            rw [if_neg h1, if_neg h2, if_pos h3]
          rw [hx]
          refine ⟨rfl, by norm_num, by norm_num, ?_⟩
          unfold overlongToIndexUTF8
          have hr : i - 0x880 < 0x10000 := by omega
          norm_num [hr, Prod.ext_iff]
          omega
        · by_cases h4 : i < 0x00210880
          · have hx : indexToOverlongUTF8 i = (true, i - 0x10880, 5) := by
              unfold indexToOverlongUTF8
              rw [if_neg h1, if_neg h2, if_neg h3, if_pos h4]
            rw [hx]
            refine ⟨rfl, by norm_num, by norm_num, ?_⟩
            unfold overlongToIndexUTF8
            have hr : i - 0x10880 < 0x200000 := by omega
            norm_num [hr, Prod.ext_iff]
            omega
          · have hx : indexToOverlongUTF8 i = (true, i - 0x210880, 6) := by
              unfold indexToOverlongUTF8
              rw [if_neg h1, if_neg h2, if_neg h3, if_neg h4, if_pos hi]
            rw [hx]
            refine ⟨rfl, by norm_num, by norm_num, ?_⟩
            unfold overlongToIndexUTF8
            have hr : i - 0x210880 < 0x4000000 := by omega
            norm_num [hr, Prod.ext_iff]
            omega
  · intro hi
    unfold indexToOverlongUTF8
    split_ifs <;> first | rfl | omega

/-- C9 (witness): the bijection evaluated at index 0x1234, which decodes
as the 3-byte overlong form of U+11B4, and the failure bound at
0x04210880. -/
theorem C9_overlong_index_bijection_witness :
    overlongToIndexUTF8 (indexToOverlongUTF8 0x1234).2.1 (indexToOverlongUTF8 0x1234).2.2 =
      (true, 0x1234) ∧
    (indexToOverlongUTF8 0x04210880).1 = false :=
  ⟨((C9_overlong_index_bijection 0x1234).1 (by norm_num)).2.2.2,
   (C9_overlong_index_bijection 0x04210880).2 (by norm_num)⟩

/-- C8: encoding U+1F600 with encodeUTF8 in CESU mode writes
ED A0 BD ED B8 80 and reports six bytes with exactly the warnings
SurrogatePair and Supplementary; decoding those six bytes with decodeUTF8
in CESU mode returns the scalar, six bytes, the same two warnings and no
hard error. -/
theorem C8_cesu8_surrogate_pair_roundtrip :
    (encodeUTF8 ⟨6, 0, some [0, 0, 0, 0, 0, 0]⟩ 0x1f600 true false).buffer =
      [0xed, 0xa0, 0xbd, 0xed, 0xb8, 0x80] ∧
    (encodeUTF8 ⟨6, 0, some [0, 0, 0, 0, 0, 0]⟩ 0x1f600 true false).bytes = 6 ∧
    (encodeUTF8 ⟨6, 0, some [0, 0, 0, 0, 0, 0]⟩ 0x1f600 true false).errors =
      (cp_errors.SurrogatePair ||| cp_errors.Supplementary) ∧
    decodeUTF8 ⟨6, 0, some [0xed, 0xa0, 0xbd, 0xed, 0xb8, 0x80]⟩ true false false true =
      ⟨cp_errors.SurrogatePair ||| cp_errors.Supplementary, 0x1f600, 6⟩ ∧
    cp_errors.isError (cp_errors.SurrogatePair ||| cp_errors.Supplementary) = false := by
  decide

/-- C1: the claim states that each handler's step lands on the byte
boundaries its get produces.  Evaluating the code on the two-byte Java
NULL C0 80 with the JUTF8 handler's flag wiring: get — decodeUTF8 with
(cesu, java, strict, coalesce) = (F, T, F, T) — consumes both bytes as one
code point with no hard error, but the handler's step body calls
stepUTF8(text, count, false, false, true), which positionally sets
use_java = false and strict = true (coalesce defaults to true), so one
step advances the cursor to offset 1, inside the sequence.  A stepUTF8
call whose flags match the decoder lands on offset 2 as required. -/
theorem C1_jutf8_step_decode_boundary_mismatch :
    (decodeUTF8 ⟨2, 0, some [0xc0, 0x80]⟩ false true false true).bytes = 2 ∧
    cp_errors.isError (decodeUTF8 ⟨2, 0, some [0xc0, 0x80]⟩ false true false true).errors =
      false ∧
    (stepUTF8 ⟨2, 0, some [0xc0, 0x80]⟩ 1 false false true true).1 = 1 ∧
    (stepUTF8 ⟨2, 0, some [0xc0, 0x80]⟩ 1 false false true true).2.offset = 1 ∧
    (stepUTF8 ⟨2, 0, some [0xc0, 0x80]⟩ 1 false true false true).2.offset = 2 := by
  decide

/-- C10: IUTFTK::read advances the cursor offset by exactly the byte count
the underlying decoder reports, for every handler, every cursor and every
outcome, the diagnostic containing a hard error included; and on the
coalescing UTF8 handler a decode of the invalid run 80 80 before the valid
byte 41 reports a hard failure with a byte count covering the whole run,
so the failed read moves the cursor past it. -/
theorem C10_read_advances_by_reported_bytes :
    (∀ (tag : UTF_SUB_TYPE) (t : utf_text),
      (IUTFTK_read tag t).2.2.offset = t.offset + (handlerGet tag t).bytes) ∧
    (handlerGet .UTF8 ⟨3, 0, some [0x80, 0x80, 0x41]⟩).bytes = 2 ∧
    cp_errors.isError (handlerGet .UTF8 ⟨3, 0, some [0x80, 0x80, 0x41]⟩).errors = true ∧
    (IUTFTK_read .UTF8 ⟨3, 0, some [0x80, 0x80, 0x41]⟩).2.2.offset = 2 := by
  refine ⟨fun tag t => rfl, ?_, ?_, ?_⟩ <;> decide

/-- All-tag round trip for nonzero valid scalars: the dispatch over the 31
handler tags, each case reduced to its family round-trip lemma. -/
theorem C6_roundtrip_pos (tag : UTF_SUB_TYPE) (s : Nat) (h1 : 1 ≤ s)
    (h2 : s ≤ 0x10ffff) (hsur : ¬ (0xd800 ≤ s ∧ s ≤ 0xdfff))
    (hlen : handlerLen tag s ≠ 0) :
    (handlerGet tag ⟨handlerLen tag s, 0,
        some (handlerSet tag ⟨handlerLen tag s, 0,
          some (List.replicate (handlerLen tag s) 0)⟩ s).buffer⟩).unicode = s ∧
    (handlerGet tag ⟨handlerLen tag s, 0,
        some (handlerSet tag ⟨handlerLen tag s, 0,
          some (List.replicate (handlerLen tag s) 0)⟩ s).buffer⟩).bytes =
      handlerLen tag s ∧
    cp_errors.isError (handlerGet tag ⟨handlerLen tag s, 0,
        some (handlerSet tag ⟨handlerLen tag s, 0,
          some (List.replicate (handlerLen tag s) 0)⟩ s).buffer⟩).errors = false := by
  cases tag
  case UTF8 => exact utf8_roundtrip s false false false true h1 h2 hsur
  case UTF8ns => exact utf8_roundtrip s false false false false h1 h2 hsur
  case UTF8st => exact utf8_roundtrip s false false true false h1 h2 hsur
  case JUTF8 => exact utf8_roundtrip s false true false true h1 h2 hsur
  case JUTF8ns => exact utf8_roundtrip s false true false false h1 h2 hsur
  case JUTF8st => exact utf8_roundtrip s false true true false h1 h2 hsur
  case CESU8 => exact utf8_roundtrip s true false false true h1 h2 hsur
  case CESU8ns => exact utf8_roundtrip s true false false false h1 h2 hsur
  case CESU8st => exact utf8_roundtrip s true false true false h1 h2 hsur
  case JCESU8 => exact utf8_roundtrip s true true false true h1 h2 hsur
  case JCESU8ns => exact utf8_roundtrip s true true false false h1 h2 hsur
  case JCESU8st => exact utf8_roundtrip s true true true false h1 h2 hsur
  case UTF16le =>
    by_cases hb : s ≤ 0xffff
    · rw [show handlerLen UTF_SUB_TYPE.UTF16le s = 2 from by
        show lenUTF16 s false = 2
        unfold lenUTF16
        rw [if_pos (show s ≤ 0x10ffff from h2), if_pos hb]]
      exact utf16_roundtrip_two s true false h1 hb hsur
    · rw [show handlerLen UTF_SUB_TYPE.UTF16le s = 4 from by
        show lenUTF16 s false = 4
        unfold lenUTF16
        rw [if_pos (show s ≤ 0x10ffff from h2), if_neg hb,
            if_pos (show (!false) = true from by decide)]]
      exact utf16_roundtrip_four s true (by omega) h2
  case UTF16be =>
    by_cases hb : s ≤ 0xffff
    · rw [show handlerLen UTF_SUB_TYPE.UTF16be s = 2 from by
        show lenUTF16 s false = 2
        unfold lenUTF16
        rw [if_pos (show s ≤ 0x10ffff from h2), if_pos hb]]
      exact utf16_roundtrip_two s false false h1 hb hsur
    · rw [show handlerLen UTF_SUB_TYPE.UTF16be s = 4 from by
        show lenUTF16 s false = 4
        unfold lenUTF16
        rw [if_pos (show s ≤ 0x10ffff from h2), if_neg hb,
            if_pos (show (!false) = true from by decide)]]
      exact utf16_roundtrip_four s false (by omega) h2
  case UCS2le =>
    have hb : s ≤ 0xffff := by
      by_contra hb
      apply hlen
      show lenUTF16 s true = 0
      unfold lenUTF16
      rw [if_pos (show s ≤ 0x10ffff from h2), if_neg hb,
          if_neg (show ¬ (!true) = true from by decide)]
    rw [show handlerLen UTF_SUB_TYPE.UCS2le s = 2 from by
      show lenUTF16 s true = 2
      unfold lenUTF16
      rw [if_pos (show s ≤ 0x10ffff from h2), if_pos hb]]
    exact utf16_roundtrip_two s true true h1 hb hsur
  case UCS2be =>
    have hb : s ≤ 0xffff := by
      by_contra hb
      apply hlen
      show lenUTF16 s true = 0
      unfold lenUTF16
      rw [if_pos (show s ≤ 0x10ffff from h2), if_neg hb,
          if_neg (show ¬ (!true) = true from by decide)]
    rw [show handlerLen UTF_SUB_TYPE.UCS2be s = 2 from by
      show lenUTF16 s true = 2
      unfold lenUTF16
      rw [if_pos (show s ≤ 0x10ffff from h2), if_pos hb]]
    exact utf16_roundtrip_two s false true h1 hb hsur
  case UTF32le =>
    rw [show handlerLen UTF_SUB_TYPE.UTF32le s = 4 from by
      show lenUTF32 s false false = 4
      unfold lenUTF32
      rw [if_neg (show ¬ (false = true) from by decide)]
      rw [if_pos h2,
          if_neg (show ¬ (false && decide (0x10000 ≤ s) &&
            decide (s ≤ 0x10ffff)) = true from by simp)]]
    exact utf32_roundtrip_four s true false false h1 h2 hsur
      (fun h => absurd h (by decide))
  case UTF32be =>
    rw [show handlerLen UTF_SUB_TYPE.UTF32be s = 4 from by
      show lenUTF32 s false false = 4
      unfold lenUTF32
      rw [if_neg (show ¬ (false = true) from by decide)]
      rw [if_pos h2,
          if_neg (show ¬ (false && decide (0x10000 ≤ s) &&
            decide (s ≤ 0x10ffff)) = true from by simp)]]
    exact utf32_roundtrip_four s false false false h1 h2 hsur
      (fun h => absurd h (by decide))
  case UCS4le =>
    rw [show handlerLen UTF_SUB_TYPE.UCS4le s = 4 from by
      show lenUTF32 s false true = 4
      unfold lenUTF32
      rw [if_pos (show (true = true) from rfl)]
      rw [if_pos (show s ≤ 0x7fffffff from by omega),
          if_neg (show ¬ (false && decide (0x10000 ≤ s) &&
            decide (s ≤ 0x10ffff)) = true from by simp)]]
    exact utf32_roundtrip_four s true false true h1 h2 hsur
      (fun h => absurd h (by decide))
  case UCS4be =>
    rw [show handlerLen UTF_SUB_TYPE.UCS4be s = 4 from by
      show lenUTF32 s false true = 4
      unfold lenUTF32
      rw [if_pos (show (true = true) from rfl)]
      rw [if_pos (show s ≤ 0x7fffffff from by omega),
          if_neg (show ¬ (false && decide (0x10000 ≤ s) &&
            decide (s ≤ 0x10ffff)) = true from by simp)]]
    exact utf32_roundtrip_four s false false true h1 h2 hsur
      (fun h => absurd h (by decide))
  case CESU32le =>
    by_cases hb : s ≤ 0xffff
    · rw [show handlerLen UTF_SUB_TYPE.CESU32le s = 4 from by
        show lenUTF32 s true false = 4
        unfold lenUTF32
        rw [if_neg (show ¬ (false = true) from by decide)]
        rw [if_pos h2,
            if_neg (show ¬ (true && decide (0x10000 ≤ s) &&
              decide (s ≤ 0x10ffff)) = true from by
              simp only [Bool.true_and, Bool.and_eq_true, decide_eq_true_eq]
              omega)]]
      exact utf32_roundtrip_four s true true false h1 h2 hsur (fun _ => hb)
    · rw [show handlerLen UTF_SUB_TYPE.CESU32le s = 8 from by
        show lenUTF32 s true false = 8
        unfold lenUTF32
        rw [if_neg (show ¬ (false = true) from by decide)]
        rw [if_pos h2,
            if_pos (show (true && decide (0x10000 ≤ s) &&
              decide (s ≤ 0x10ffff)) = true from by
              simp only [Bool.true_and, Bool.and_eq_true, decide_eq_true_eq]
              omega)]]
      exact utf32_roundtrip_eight s true false (by omega) h2
  case CESU32be =>
    by_cases hb : s ≤ 0xffff
    · rw [show handlerLen UTF_SUB_TYPE.CESU32be s = 4 from by
        show lenUTF32 s true false = 4
        unfold lenUTF32
        rw [if_neg (show ¬ (false = true) from by decide)]
        rw [if_pos h2,
            if_neg (show ¬ (true && decide (0x10000 ≤ s) &&
              decide (s ≤ 0x10ffff)) = true from by
              simp only [Bool.true_and, Bool.and_eq_true, decide_eq_true_eq]
              omega)]]
      exact utf32_roundtrip_four s false true false h1 h2 hsur (fun _ => hb)
    · rw [show handlerLen UTF_SUB_TYPE.CESU32be s = 8 from by
        show lenUTF32 s true false = 8
        unfold lenUTF32
        rw [if_neg (show ¬ (false = true) from by decide)]
        rw [if_pos h2,
            if_pos (show (true && decide (0x10000 ≤ s) &&
              decide (s ≤ 0x10ffff)) = true from by
              simp only [Bool.true_and, Bool.and_eq_true, decide_eq_true_eq]
              omega)]]
      exact utf32_roundtrip_eight s false false (by omega) h2
  case CESU4le =>
    by_cases hb : s ≤ 0xffff
    · rw [show handlerLen UTF_SUB_TYPE.CESU4le s = 4 from by
        show lenUTF32 s true true = 4
        unfold lenUTF32
        rw [if_pos (show (true = true) from rfl)]
        rw [if_pos (show s ≤ 0x7fffffff from by omega),
            if_neg (show ¬ (true && decide (0x10000 ≤ s) &&
              decide (s ≤ 0x10ffff)) = true from by
              simp only [Bool.true_and, Bool.and_eq_true, decide_eq_true_eq]
              omega)]]
      exact utf32_roundtrip_four s true true true h1 h2 hsur (fun _ => hb)
    · rw [show handlerLen UTF_SUB_TYPE.CESU4le s = 8 from by
        show lenUTF32 s true true = 8
        unfold lenUTF32
        rw [if_pos (show (true = true) from rfl)]
        rw [if_pos (show s ≤ 0x7fffffff from by omega),
            if_pos (show (true && decide (0x10000 ≤ s) &&
              decide (s ≤ 0x10ffff)) = true from by
              simp only [Bool.true_and, Bool.and_eq_true, decide_eq_true_eq]
              omega)]]
      exact utf32_roundtrip_eight s true true (by omega) h2
  case CESU4be =>
    by_cases hb : s ≤ 0xffff
    · rw [show handlerLen UTF_SUB_TYPE.CESU4be s = 4 from by
        show lenUTF32 s true true = 4
        unfold lenUTF32
        rw [if_pos (show (true = true) from rfl)]
        rw [if_pos (show s ≤ 0x7fffffff from by omega),
            if_neg (show ¬ (true && decide (0x10000 ≤ s) &&
              decide (s ≤ 0x10ffff)) = true from by
              simp only [Bool.true_and, Bool.and_eq_true, decide_eq_true_eq]
              omega)]]
      exact utf32_roundtrip_four s false true true h1 h2 hsur (fun _ => hb)
    · rw [show handlerLen UTF_SUB_TYPE.CESU4be s = 8 from by
        show lenUTF32 s true true = 8
        unfold lenUTF32
        rw [if_pos (show (true = true) from rfl)]
        rw [if_pos (show s ≤ 0x7fffffff from by omega),
            if_pos (show (true && decide (0x10000 ≤ s) &&
              decide (s ≤ 0x10ffff)) = true from by
              simp only [Bool.true_and, Bool.and_eq_true, decide_eq_true_eq]
              omega)]]
      exact utf32_roundtrip_eight s false true (by omega) h2
  case BYTE =>
    have hb : s ≤ 0xff := by
      by_contra hb
      apply hlen
      show (if s &&& 0xff = s then 1 else 0) = 0
      rw [if_neg (show ¬ s &&& 0xff = s from by rw [and255_eq]; omega)]
    rw [show handlerLen UTF_SUB_TYPE.BYTE s = 1 from by
      show (if s &&& 0xff = s then 1 else 0) = 1
      rw [if_pos (show s &&& 0xff = s from by rw [and255_eq]; omega)]]
    exact byte_roundtrip s false true h1 hb (fun h => absurd h (by decide))
  case BYTEns =>
    have hb : s ≤ 0xff := by
      by_contra hb
      apply hlen
      show (if s &&& 0xff = s then 1 else 0) = 0
      rw [if_neg (show ¬ s &&& 0xff = s from by rw [and255_eq]; omega)]
    rw [show handlerLen UTF_SUB_TYPE.BYTEns s = 1 from by
      show (if s &&& 0xff = s then 1 else 0) = 1
      rw [if_pos (show s &&& 0xff = s from by rw [and255_eq]; omega)]]
    exact byte_roundtrip s false false h1 hb (fun h => absurd h (by decide))
  case ASCII =>
    have hb : s ≤ 0x7f := by
      by_contra hb
      apply hlen
      show (if s &&& 0x7f = s then 1 else 0) = 0
      rw [if_neg (show ¬ s &&& 0x7f = s from by rw [and127_eq]; omega)]
    rw [show handlerLen UTF_SUB_TYPE.ASCII s = 1 from by
      show (if s &&& 0x7f = s then 1 else 0) = 1
      rw [if_pos (show s &&& 0x7f = s from by rw [and127_eq]; omega)]]
    exact byte_roundtrip s true true h1 (by omega) (fun _ => hb)
  case ASCIIns =>
    have hb : s ≤ 0x7f := by
      by_contra hb
      apply hlen
      show (if s &&& 0x7f = s then 1 else 0) = 0
      rw [if_neg (show ¬ s &&& 0x7f = s from by rw [and127_eq]; omega)]
    rw [show handlerLen UTF_SUB_TYPE.ASCIIns s = 1 from by
      show (if s &&& 0x7f = s then 1 else 0) = 1
      rw [if_pos (show s &&& 0x7f = s from by rw [and127_eq]; omega)]]
    exact byte_roundtrip s true false h1 (by omega) (fun _ => hb)
  case CP1252 =>
    have hb : s ≤ 0x7f := by
      by_contra hb
      apply hlen
      show (if s &&& 0x7f = s then 1 else 0) = 0
      rw [if_neg (show ¬ s &&& 0x7f = s from by rw [and127_eq]; omega)]
    rw [show handlerLen UTF_SUB_TYPE.CP1252 s = 1 from by
      show (if s &&& 0x7f = s then 1 else 0) = 1
      rw [if_pos (show s &&& 0x7f = s from by rw [and127_eq]; omega)]]
    exact cp1252_roundtrip s false false true h1 hb
  case CP1252ns =>
    have hb : s ≤ 0x7f := by
      by_contra hb
      apply hlen
      show (if s &&& 0x7f = s then 1 else 0) = 0
      rw [if_neg (show ¬ s &&& 0x7f = s from by rw [and127_eq]; omega)]
    rw [show handlerLen UTF_SUB_TYPE.CP1252ns s = 1 from by
      show (if s &&& 0x7f = s then 1 else 0) = 1
      rw [if_pos (show s &&& 0x7f = s from by rw [and127_eq]; omega)]]
    exact cp1252_roundtrip s false false false h1 hb
  case CP1252st =>
    have hb : s ≤ 0x7f := by
      by_contra hb
      apply hlen
      show (if s &&& 0x7f = s then 1 else 0) = 0
      rw [if_neg (show ¬ s &&& 0x7f = s from by rw [and127_eq]; omega)]
    rw [show handlerLen UTF_SUB_TYPE.CP1252st s = 1 from by
      show (if s &&& 0x7f = s then 1 else 0) = 1
      rw [if_pos (show s &&& 0x7f = s from by rw [and127_eq]; omega)]]
    exact cp1252_roundtrip s true true false h1 hb

/-- Claim C6, counterexample to the original statement: the ASCII handler
cannot encode the valid scalar U+0080 at all.  lenASCII(0x80) = 0, set
writes 0 bytes into an amply large buffer and reports a hard error
(Failed | NotEncodable), and decoding the untouched zero buffer returns
scalar 0, not 0x80 - so no "sufficiently large buffer" makes the
round trip work and the claim's universal quantification over tags fails. -/
theorem C6_encode_decode_roundtrip_cex :
    handlerLen UTF_SUB_TYPE.ASCII 0x80 = 0 ∧
    (handlerSet UTF_SUB_TYPE.ASCII ⟨4, 0, some (List.replicate 4 0)⟩ 0x80).bytes = 0 ∧
    cp_errors.isError
      (handlerSet UTF_SUB_TYPE.ASCII ⟨4, 0, some (List.replicate 4 0)⟩ 0x80).errors =
        true ∧
    (handlerGet UTF_SUB_TYPE.ASCII ⟨4, 0,
      some (handlerSet UTF_SUB_TYPE.ASCII
        ⟨4, 0, some (List.replicate 4 0)⟩ 0x80).buffer⟩).unicode ≠ 0x80 := by
  decide

/-- Claim C6 (corrected): for every encoding tag T and scalar s with
s ≤ 0x10FFFF, s not a surrogate, and len_T(s) ≠ 0, encoding s under T
into a zero-filled buffer of exactly len_T(s) bytes and decoding the
result at offset 0 yields scalar s, a consumed byte count of len_T(s),
and a diagnostic with no hard-error bit set.  (The original claim fails
only for the scalars a tag cannot represent, where len_T(s) = 0 and the
encoder reports NotEncodable: ASCII/BYTE/CP-1252 beyond their byte ranges
and UCS-2 beyond the BMP.) -/
theorem C6_encode_decode_roundtrip (tag : UTF_SUB_TYPE) (s : Nat)
    (h2 : s ≤ 0x10ffff) (hsur : ¬ (0xd800 ≤ s ∧ s ≤ 0xdfff))
    (hlen : handlerLen tag s ≠ 0) :
    (handlerGet tag ⟨handlerLen tag s, 0,
        some (handlerSet tag ⟨handlerLen tag s, 0,
          some (List.replicate (handlerLen tag s) 0)⟩ s).buffer⟩).unicode = s ∧
    (handlerGet tag ⟨handlerLen tag s, 0,
        some (handlerSet tag ⟨handlerLen tag s, 0,
          some (List.replicate (handlerLen tag s) 0)⟩ s).buffer⟩).bytes =
      handlerLen tag s ∧
    cp_errors.isError (handlerGet tag ⟨handlerLen tag s, 0,
        some (handlerSet tag ⟨handlerLen tag s, 0,
          some (List.replicate (handlerLen tag s) 0)⟩ s).buffer⟩).errors = false := by
  by_cases h0 : s = 0
  · subst h0
    cases tag <;> decide
  · exact C6_roundtrip_pos tag s (by omega) h2 hsur hlen

/-- Witness for C6: the UTF-16 little-endian handler round-trips U+1F600
(a 4-byte surrogate-pair sequence), with every hypothesis discharged at
this concrete input. -/
theorem C6_encode_decode_roundtrip_witness :
    ((0x1f600 ≤ 0x10ffff) ∧ ¬ (0xd800 ≤ 0x1f600 ∧ 0x1f600 ≤ 0xdfff) ∧
      handlerLen UTF_SUB_TYPE.UTF16le 0x1f600 ≠ 0) ∧
    ((handlerGet UTF_SUB_TYPE.UTF16le ⟨handlerLen UTF_SUB_TYPE.UTF16le 0x1f600, 0,
        some (handlerSet UTF_SUB_TYPE.UTF16le
          ⟨handlerLen UTF_SUB_TYPE.UTF16le 0x1f600, 0,
            some (List.replicate (handlerLen UTF_SUB_TYPE.UTF16le 0x1f600) 0)⟩
          0x1f600).buffer⟩).unicode = 0x1f600 ∧
      (handlerGet UTF_SUB_TYPE.UTF16le ⟨handlerLen UTF_SUB_TYPE.UTF16le 0x1f600, 0,
        some (handlerSet UTF_SUB_TYPE.UTF16le
          ⟨handlerLen UTF_SUB_TYPE.UTF16le 0x1f600, 0,
            some (List.replicate (handlerLen UTF_SUB_TYPE.UTF16le 0x1f600) 0)⟩
          0x1f600).buffer⟩).bytes = handlerLen UTF_SUB_TYPE.UTF16le 0x1f600 ∧
      cp_errors.isError (handlerGet UTF_SUB_TYPE.UTF16le
        ⟨handlerLen UTF_SUB_TYPE.UTF16le 0x1f600, 0,
          some (handlerSet UTF_SUB_TYPE.UTF16le
            ⟨handlerLen UTF_SUB_TYPE.UTF16le 0x1f600, 0,
              some (List.replicate (handlerLen UTF_SUB_TYPE.UTF16le 0x1f600) 0)⟩
            0x1f600).buffer⟩).errors = false) :=
  ⟨⟨by decide, by decide, by decide⟩,
    C6_encode_decode_roundtrip UTF_SUB_TYPE.UTF16le 0x1f600 (by decide) (by decide)
      (by decide)⟩

end LibUTF
